import Mathlib

/-!
# Covenant core — shallow embedding and verification

A shallow embedding of the Covenant compiler front-end (lexer, parser,
fingerprinter, checker and hasher) together with theorems settling the
behavioural claims made by the specification.

Modelling conventions:
* Python `set` objects are modelled as insertion-ordered duplicate-free
  lists (`addToSet`); set membership and the sorted projections used for
  hashing agree with the Python semantics.
* Python `dict[str, Expr]` (keyword arguments) are insertion-ordered
  association lists; only their values are ever traversed.
* Python truthiness is translated per site: `None` tests become `Option`
  matches, string tests become `≠ ""`, list tests become `≠ []`.
* Machine arithmetic in SHA-256 is `Nat` with explicit `% 2 ^ 32`.
-/

namespace Covenant

/-- Add an element to a Python-style set modelled as an insertion-ordered
duplicate-free list (`set.add`). -/
def addToSet (l : List String) (s : String) : List String :=
  if s ∈ l then l else l ++ [s]

/-- Union a list of new elements into a Python-style set (`set.update`). -/
def setUpdate (l : List String) (new : List String) : List String :=
  new.foldl addToSet l

theorem mem_addToSet_self (l : List String) (s : String) : s ∈ addToSet l s := by
  unfold addToSet
  by_cases h : s ∈ l <;> simp [h]

theorem mem_addToSet_of_mem (l : List String) (s t : String) (h : t ∈ l) :
    t ∈ addToSet l s := by
  unfold addToSet
  by_cases hs : s ∈ l <;> simp [hs, h]

/-- Python `str.split(sep)` for a non-empty separator: scan left to right,
splitting at each non-overlapping occurrence of `sep`.  The fuel is the
remaining length plus one, so it never runs out. -/
def pySplitGo (sep : List Char) : Nat → List Char → List Char → List (List Char)
  | 0, cur, rest => [cur.reverse ++ rest]
  | fuel + 1, cur, s =>
      match s with
      | [] => [cur.reverse]
      | c :: rest =>
          if sep.isPrefixOf (c :: rest) then
            cur.reverse :: pySplitGo sep fuel [] ((c :: rest).drop sep.length)
          else pySplitGo sep fuel (c :: cur) rest

/-- Python `s.split(sep)` (the separators used in the source are `"."` and
`" has "`, both non-empty). -/
def pySplit (s sep : String) : List String :=
  (pySplitGo sep.data (s.data.length + 1) [] s.data).map String.mk

/-- Python `s.startswith(pre)`. -/
def pyStartsWith (s pre : String) : Bool :=
  pre.data.isPrefixOf s.data

/-- The root of a dotted path: Python `s.split(".")[0]`. -/
def pathRoot (s : String) : String :=
  (pySplit s ".").headD ""

/-- Python integer/float literal payload of a `NumberLiteral`.  Integers
are carried exactly; floats are carried as their lexical text (the
parser's `float(...)` conversion and Python's float formatting are outside
the scope of this embedding — no analysed property depends on them). -/
inductive PyNum where
  | pyInt (n : Int)
  | pyFloat (lit : String)
  deriving DecidableEq

/-- `str()` of a `NumberLiteral` payload. -/
def PyNum.str : PyNum → String
  | .pyInt n => toString n
  | .pyFloat s => s

/-- `SourceLocation` from `covenant/ast/nodes.py`. -/
structure SourceLocation where
  file : String
  line : Nat
  column : Nat
  end_line : Option Nat := none
  end_column : Option Nat := none
  deriving DecidableEq

/-- Expressions (`covenant/ast/nodes.py`).  Optional children mirror the
dataclass fields that default to `None`; `keyword_args` is an
insertion-ordered association list. -/
inductive Expr where
  | identifier (loc : SourceLocation) (name : String)
  | stringLiteral (loc : SourceLocation) (value : String)
  | numberLiteral (loc : SourceLocation) (value : PyNum)
  | boolLiteral (loc : SourceLocation) (value : Bool)
  | listLiteral (loc : SourceLocation) (elements : List Expr)
  | binaryOp (loc : SourceLocation) (left : Option Expr) (op : String) (right : Option Expr)
  | unaryOp (loc : SourceLocation) (op : String) (operand : Option Expr)
  | fieldAccess (loc : SourceLocation) (object : Option Expr) (field_name : String)
  | functionCall (loc : SourceLocation) (function : Option Expr)
      (arguments : List Expr) (keyword_args : List (String × Expr))
  | methodCall (loc : SourceLocation) (object : Option Expr) (method : String)
      (arguments : List Expr) (keyword_args : List (String × Expr))
  | oldExpr (loc : SourceLocation) (inner : Option Expr)
  | hasExpr (loc : SourceLocation) (subject : Option Expr) (capability : Option Expr)

/-- Statements (`covenant/ast/nodes.py`). -/
inductive Statement where
  | assignment (loc : SourceLocation) (target : String) (value : Option Expr)
  | returnStmt (loc : SourceLocation) (value : Option Expr)
  | emitStmt (loc : SourceLocation) (event : Option Expr)
  | exprStmt (loc : SourceLocation) (expr : Option Expr)
  | ifStmt (loc : SourceLocation) (condition : Option Expr)
      (then_body : List Statement) (else_body : List Statement)
  | forStmt (loc : SourceLocation) (var : String) (iterable : Option Expr)
      (loop_body : List Statement)
  | whileStmt (loc : SourceLocation) (condition : Option Expr)
      (loop_body : List Statement)

/-- Type expressions (`covenant/ast/nodes.py`). -/
inductive TypeExpr where
  | simpleType (loc : SourceLocation) (name : String)
  | genericType (loc : SourceLocation) (name : String) (params : List TypeExpr)
  | listType (loc : SourceLocation) (element_type : Option TypeExpr)
  | annotatedType (loc : SourceLocation) (base : Option TypeExpr) (annotations : List String)

structure Param where
  loc : SourceLocation
  name : String
  type_expr : Option TypeExpr

structure Precondition where
  loc : SourceLocation
  conditions : List Expr

structure Postcondition where
  loc : SourceLocation
  conditions : List Expr

inductive EffectDecl where
  | modifiesEffect (loc : SourceLocation) (targets : List String)
  | readsEffect (loc : SourceLocation) (targets : List String)
  | emitsEffect (loc : SourceLocation) (event_type : String)
  | touchesNothingElse (loc : SourceLocation)

structure Effects where
  loc : SourceLocation
  declarations : List EffectDecl

structure GrantsPermission where
  loc : SourceLocation
  permissions : List String

structure DeniesPermission where
  loc : SourceLocation
  permissions : List String

structure EscalationPolicy where
  loc : SourceLocation
  policy : String

structure PermissionsBlock where
  loc : SourceLocation
  grants : Option GrantsPermission
  denies : Option DeniesPermission
  escalation : Option EscalationPolicy

structure Body where
  loc : SourceLocation
  statements : List Statement

structure OnFailure where
  loc : SourceLocation
  statements : List Statement

structure ContractDef where
  loc : SourceLocation
  name : String
  params : List Param
  return_type : Option TypeExpr
  precondition : Option Precondition
  postcondition : Option Postcondition
  effects : Option Effects
  permissions : Option PermissionsBlock
  body : Option Body
  on_failure : Option OnFailure

structure IntentBlock where
  loc : SourceLocation
  text : String

structure ScopeDecl where
  loc : SourceLocation
  path : String

inductive RiskLevel where
  | low
  | medium
  | high
  | critical
  deriving DecidableEq

structure RiskDecl where
  loc : SourceLocation
  level : RiskLevel

structure RequiresDecl where
  loc : SourceLocation
  capabilities : List String

structure FileHeader where
  loc : SourceLocation
  intent : Option IntentBlock
  scope : Option ScopeDecl
  risk : Option RiskDecl
  requires : Option RequiresDecl

structure FieldDef where
  loc : SourceLocation
  name : String
  type_expr : Option TypeExpr

inductive FlowConstraint where
  | neverFlowsTo (loc : SourceLocation) (destinations : List String)
  | requiresContext (loc : SourceLocation) (context : String)

structure TypeDef where
  loc : SourceLocation
  name : String
  base_type : String
  fields : List FieldDef
  flow_constraints : List FlowConstraint

structure SharedDecl where
  loc : SourceLocation
  name : String
  type_name : String
  access : String
  isolation : String
  audit : String

structure Program where
  loc : SourceLocation
  header : Option FileHeader
  contracts : List ContractDef
  type_defs : List TypeDef
  shared_decls : List SharedDecl

/-- `BehavioralFingerprint` from `covenant/verify/fingerprint.py`.
Set-valued fields are insertion-ordered duplicate-free lists;
`operators`/`literals` are sequences. -/
structure BehavioralFingerprint where
  reads : List String := []
  mutations : List String := []
  calls : List String := []
  emitted_events : List String := []
  old_references : List String := []
  capability_checks : List String := []
  operators : List String := []
  literals : List String := []
  has_branching : Bool := false
  has_looping : Bool := false
  has_recursion : Bool := false
  return_count : Nat := 0
  max_nesting_depth : Nat := 0
  deriving DecidableEq

/-- Lower-case hexadecimal digit. -/
def hexDigit (n : Nat) : Char :=
  if n < 10 then Char.ofNat (48 + n) else Char.ofNat (87 + n)

/-- Two-digit lower-case hexadecimal rendering of a byte. -/
def hex2 (n : Nat) : String :=
  String.mk [hexDigit (n / 16 % 16), hexDigit (n % 16)]

/-- One character of Python `repr(str)` under a chosen quote character. -/
def pyReprChar (quote : Char) (c : Char) : String :=
  if c = '\\' then "\\\\"
  else if c = quote then String.mk ['\\', quote]
  else if c = '\n' then "\\n"
  else if c = '\r' then "\\r"
  else if c = '\t' then "\\t"
  else if c.toNat < 0x20 ∨ c.toNat = 0x7f ∨ (0x80 ≤ c.toNat ∧ c.toNat ≤ 0xa0) then
    "\\x" ++ hex2 c.toNat
  else String.mk [c]

/-- Python `repr` of a string: single quotes unless the string contains a
single quote and no double quote. -/
def pyRepr (s : String) : String :=
  let quote : Char := if '\'' ∈ s.data ∧ ¬ ('"' ∈ s.data) then '"' else '\''
  String.mk [quote] ++ String.join (s.data.map (pyReprChar quote)) ++ String.mk [quote]

/-- Python `repr` of a list of strings: `['a', 'b']`. -/
def pyListRepr (l : List String) : String :=
  "[" ++ String.intercalate ", " (l.map pyRepr) ++ "]"

/-- `_ASTWalker._extract_dotted_path`'s while-loop, collecting field names
down a `FieldAccess` chain; the resulting list is already in root-first
order (the Python code appends then reverses). -/
def dottedPartsGo : Expr → List String → List String
  | Expr.fieldAccess _ (some e) fname, acc => dottedPartsGo e (fname :: acc)
  | Expr.fieldAccess _ none fname, acc => fname :: acc
  | Expr.identifier _ name, acc => name :: acc
  | _, acc => acc

/-- `_ASTWalker._extract_dotted_path`. -/
def extract_dotted_path (e : Expr) : String :=
  String.intercalate "." (dottedPartsGo e [])

/-- `_ASTWalker._extract_call_name` (`None` → `""`). -/
def extract_call_name : Option Expr → String
  | none => ""
  | some (Expr.identifier _ name) => name
  | some (Expr.fieldAccess l o f) => extract_dotted_path (Expr.fieldAccess l o f)
  | some _ => "<indirect>"

/-- `_ASTWalker._extract_dotted_path_from_expr`. -/
def extract_dotted_path_from_expr : Expr → String
  | Expr.identifier _ name => name
  | Expr.fieldAccess l o f => extract_dotted_path (Expr.fieldAccess l o f)
  | Expr.methodCall _ obj m _ _ =>
      let o := match obj with
        | some e => extract_call_name (some e)
        | none => ""
      if o ≠ "" then o ++ "." ++ m ++ "()" else m ++ "()"
  | Expr.functionCall _ f _ _ =>
      let n := match f with
        | some e => extract_call_name (some e)
        | none => ""
      n ++ "()"
  | _ => "<complex>"

/-- `_ASTWalker._extract_event_name`. -/
def extract_event_name : Expr → Option String
  | Expr.functionCall _ f _ _ => some (extract_call_name f)
  | Expr.identifier _ name => some name
  | _ => none

mutual

/-- `_ASTWalker.walk_expr`: one step of the fingerprint expression walk,
threading the fingerprint state explicitly. -/
def walk_expr (cname : String) (fp : BehavioralFingerprint) : Expr → BehavioralFingerprint
  | Expr.identifier _ name => { fp with reads := addToSet fp.reads name }
  | Expr.fieldAccess l o f =>
      { fp with reads := addToSet fp.reads (extract_dotted_path (Expr.fieldAccess l o f)) }
  | Expr.functionCall _ f args kwargs =>
      let call_name := extract_call_name f
      let fp := if call_name ≠ "" then
          let fp := { fp with calls := addToSet fp.calls call_name }
          if call_name = cname then { fp with has_recursion := true } else fp
        else fp
      let fp := match f with
        | some fe => walk_expr cname fp fe
        | none => fp
      let fp := walk_expr_list cname fp args
      walk_kwarg_vals cname fp kwargs
  | Expr.methodCall _ obj m args kwargs =>
      let obj_path := match obj with
        | some e => extract_call_name (some e)
        | none => ""
      let call_name := if obj_path ≠ "" then obj_path ++ "." ++ m else m
      let fp := { fp with calls := addToSet fp.calls call_name }
      let fp := match obj with
        | some oe => walk_expr cname fp oe
        | none => fp
      let fp := walk_expr_list cname fp args
      walk_kwarg_vals cname fp kwargs
  | Expr.binaryOp _ l op r =>
      let fp := if op ≠ "" then { fp with operators := fp.operators ++ [op] } else fp
      let fp := match l with
        | some le => walk_expr cname fp le
        | none => fp
      match r with
        | some re => walk_expr cname fp re
        | none => fp
  | Expr.unaryOp _ op operand =>
      let fp := if op ≠ "" then { fp with operators := fp.operators ++ [op] } else fp
      match operand with
        | some oe => walk_expr cname fp oe
        | none => fp
  | Expr.oldExpr _ inner =>
      match inner with
        | some ie =>
            let fp := { fp with
              old_references := addToSet fp.old_references (extract_dotted_path_from_expr ie) }
            walk_expr cname fp ie
        | none => fp
  | Expr.hasExpr _ subject capability =>
      match subject, capability with
        | some se, some ce =>
            let check := extract_dotted_path_from_expr se ++ " has " ++
              extract_dotted_path_from_expr ce
            { fp with capability_checks := addToSet fp.capability_checks check }
        | _, _ => fp
  | Expr.listLiteral _ elems => walk_expr_list cname fp elems
  | Expr.numberLiteral _ v => { fp with literals := fp.literals ++ [v.str] }
  | Expr.stringLiteral _ v => { fp with literals := fp.literals ++ [pyRepr v] }
  | Expr.boolLiteral _ v =>
      { fp with literals := fp.literals ++ [if v then "True" else "False"] }

/-- Walk a list of argument expressions in order. -/
def walk_expr_list (cname : String) (fp : BehavioralFingerprint) :
    List Expr → BehavioralFingerprint
  | [] => fp
  | e :: rest => walk_expr_list cname (walk_expr cname fp e) rest

/-- Walk keyword-argument values in insertion order (`dict.values()`). -/
def walk_kwarg_vals (cname : String) (fp : BehavioralFingerprint) :
    List (String × Expr) → BehavioralFingerprint
  | [] => fp
  | (_, e) :: rest => walk_kwarg_vals cname (walk_expr cname fp e) rest

end

/-- The `max_nesting_depth` update performed on entry to
`_ASTWalker.walk_statements`. -/
def noteDepth (fp : BehavioralFingerprint) (depth : Nat) : BehavioralFingerprint :=
  { fp with max_nesting_depth := max fp.max_nesting_depth depth }

mutual

/-- `_ASTWalker.walk_statement`.  Recursive statement-list walks appear as
`walk_stmt_list` after the `noteDepth` update, which together are exactly
`walk_statements`. -/
def walk_statement (cname : String) (fp : BehavioralFingerprint) (depth : Nat) :
    Statement → BehavioralFingerprint
  | Statement.assignment _ target value =>
      let fp := { fp with mutations := addToSet fp.mutations target }
      match value with
        | some v => walk_expr cname fp v
        | none => fp
  | Statement.returnStmt _ value =>
      let fp := { fp with return_count := fp.return_count + 1 }
      match value with
        | some v => walk_expr cname fp v
        | none => fp
  | Statement.emitStmt _ event =>
      match event with
        | some ev =>
            let fp := match extract_event_name ev with
              | some en => if en ≠ "" then
                  { fp with emitted_events := addToSet fp.emitted_events en } else fp
              | none => fp
            walk_expr cname fp ev
        | none => fp
  | Statement.exprStmt _ e =>
      match e with
        | some ex => walk_expr cname fp ex
        | none => fp
  | Statement.ifStmt _ cond thenB elseB =>
      let fp := { fp with has_branching := true }
      let fp := match cond with
        | some c => walk_expr cname fp c
        | none => fp
      let fp := walk_stmt_list cname (noteDepth fp (depth + 1)) (depth + 1) thenB
      if elseB.isEmpty then fp
      else walk_stmt_list cname (noteDepth fp (depth + 1)) (depth + 1) elseB
  | Statement.forStmt _ _ iterable loopB =>
      let fp := { fp with has_looping := true }
      let fp := match iterable with
        | some it => walk_expr cname fp it
        | none => fp
      walk_stmt_list cname (noteDepth fp (depth + 1)) (depth + 1) loopB
  | Statement.whileStmt _ cond loopB =>
      let fp := { fp with has_looping := true }
      let fp := match cond with
        | some c => walk_expr cname fp c
        | none => fp
      walk_stmt_list cname (noteDepth fp (depth + 1)) (depth + 1) loopB

/-- The `for stmt in stmts` loop inside `walk_statements`. -/
def walk_stmt_list (cname : String) (fp : BehavioralFingerprint) (depth : Nat) :
    List Statement → BehavioralFingerprint
  | [] => fp
  | s :: rest => walk_stmt_list cname (walk_statement cname fp depth s) depth rest

end

/-- `_ASTWalker.walk_statements`: record the nesting depth, then walk each
statement. -/
def walk_statements (cname : String) (fp : BehavioralFingerprint) (depth : Nat)
    (stmts : List Statement) : BehavioralFingerprint :=
  walk_stmt_list cname (noteDepth fp depth) depth stmts

/-- `fingerprint_contract` from `covenant/verify/fingerprint.py`: walk only
the `body` and `on_failure` statement lists. -/
def fingerprint_contract (contract : ContractDef) : BehavioralFingerprint :=
  let fp : BehavioralFingerprint := {}
  let fp := match contract.body with
    | some b => walk_statements contract.name fp 0 b.statements
    | none => fp
  match contract.on_failure with
    | some f => walk_statements contract.name fp 0 f.statements
    | none => fp

/-- `_fingerprint_expressions` from `covenant/verify/checker.py`: a
mini-fingerprint over a list of expressions, walked with contract name `""`. -/
def fingerprint_expressions (exprs : List Expr) : BehavioralFingerprint :=
  walk_expr_list "" {} exprs

/-- C2 — Body-only fingerprint: `fingerprint_contract` reads only the
`name`, `body` and `on_failure` fields of a `ContractDef`, so replacing the
precondition, postcondition, effects or permissions sections by anything at
all (in particular, adding or removing arbitrary expressions there) leaves
every field of the resulting `BehavioralFingerprint` unchanged. -/
theorem fingerprint_contract_body_only (c : ContractDef) (pre : Option Precondition)
    (post : Option Postcondition) (eff : Option Effects) (perm : Option PermissionsBlock) :
    fingerprint_contract
      { c with
        precondition := pre
        postcondition := post
        effects := eff
        permissions := perm } = fingerprint_contract c := rfl

/-- The fingerprint walk only ever adds to the `reads` and `old_references`
sets: membership in them is preserved along the walk. -/
def FPKeeps (f g : BehavioralFingerprint) : Prop :=
  (∀ s, s ∈ f.reads → s ∈ g.reads) ∧ ∀ s, s ∈ f.old_references → s ∈ g.old_references

theorem FPKeeps.refl (f : BehavioralFingerprint) : FPKeeps f f :=
  ⟨fun _ h => h, fun _ h => h⟩

theorem FPKeeps.trans {a b c : BehavioralFingerprint} (h1 : FPKeeps a b)
    (h2 : FPKeeps b c) : FPKeeps a c :=
  ⟨fun s h => h2.1 s (h1.1 s h), fun s h => h2.2 s (h1.2 s h)⟩

mutual

theorem walk_expr_keeps (cname : String) (fp : BehavioralFingerprint) (e : Expr) :
    FPKeeps fp (walk_expr cname fp e) := by
  cases e <;>
    · rw [walk_expr.eq_def]
      dsimp only
      repeat' split
      all_goals
        repeat (first
          | refine FPKeeps.trans ?_ (walk_expr_keeps _ _ _)
          | refine FPKeeps.trans ?_ (walk_expr_list_keeps _ _ _)
          | refine FPKeeps.trans ?_ (walk_kwarg_vals_keeps _ _ _))
      all_goals
        first
          | exact ⟨fun _ h => h, fun _ h => h⟩
          | exact ⟨fun _ h => mem_addToSet_of_mem _ _ _ h, fun _ h => h⟩
          | exact ⟨fun _ h => h, fun _ h => mem_addToSet_of_mem _ _ _ h⟩
termination_by sizeOf e

theorem walk_expr_list_keeps (cname : String) (fp : BehavioralFingerprint)
    (es : List Expr) : FPKeeps fp (walk_expr_list cname fp es) := by
  cases es with
  | nil => exact FPKeeps.refl _
  | cons e rest =>
      rw [walk_expr_list]
      exact FPKeeps.trans (walk_expr_keeps cname fp e)
        (walk_expr_list_keeps cname _ rest)
termination_by sizeOf es

theorem walk_kwarg_vals_keeps (cname : String) (fp : BehavioralFingerprint)
    (kws : List (String × Expr)) : FPKeeps fp (walk_kwarg_vals cname fp kws) := by
  cases kws with
  | nil => exact FPKeeps.refl _
  | cons kv rest =>
      obtain ⟨k, v⟩ := kv
      rw [walk_kwarg_vals]
      exact FPKeeps.trans (walk_expr_keeps cname fp v)
        (walk_kwarg_vals_keeps cname _ rest)
termination_by sizeOf kws

end

mutual

theorem walk_statement_keeps (cname : String) (fp : BehavioralFingerprint)
    (depth : Nat) (st : Statement) : FPKeeps fp (walk_statement cname fp depth st) := by
  cases st <;>
    · rw [walk_statement.eq_def]
      dsimp only
      repeat' split
      all_goals
        repeat (first
          | refine FPKeeps.trans ?_ (walk_statements_keeps _ _ _ _)
          | refine FPKeeps.trans ?_ (walk_expr_keeps _ _ _))
      all_goals exact ⟨fun _ h => h, fun _ h => h⟩
termination_by (sizeOf st, 0)

theorem walk_stmt_list_keeps (cname : String) (fp : BehavioralFingerprint)
    (depth : Nat) (stmts : List Statement) :
    FPKeeps fp (walk_stmt_list cname fp depth stmts) := by
  cases stmts with
  | nil =>
      rw [walk_stmt_list]
      exact FPKeeps.refl _
  | cons st rest =>
      rw [walk_stmt_list]
      exact FPKeeps.trans (walk_statement_keeps cname fp depth st)
        (walk_stmt_list_keeps cname _ depth rest)
termination_by (sizeOf stmts, 1)

theorem walk_statements_keeps (cname : String) (fp : BehavioralFingerprint)
    (depth : Nat) (stmts : List Statement) :
    FPKeeps fp (walk_statements cname fp depth stmts) := by
  rw [walk_statements]
  exact FPKeeps.trans (b := { fp with max_nesting_depth := max fp.max_nesting_depth depth })
    ⟨fun _ h => h, fun _ h => h⟩ (walk_stmt_list_keeps cname _ depth stmts)
termination_by (sizeOf stmts, 2)

end

/-- Splitting the statement-list walk at an element. -/
theorem walk_stmt_list_append (cname : String) (fp : BehavioralFingerprint)
    (depth : Nat) (l1 l2 : List Statement) :
    walk_stmt_list cname fp depth (l1 ++ l2) =
      walk_stmt_list cname (walk_stmt_list cname fp depth l1) depth l2 := by
  induction l1 generalizing fp with
  | nil =>
      rw [List.nil_append]
      conv_rhs => rw [walk_stmt_list]
  | cons st rest ih =>
      rw [List.cons_append, walk_stmt_list, ih]
      conv_rhs => rw [walk_stmt_list]

/-- Walking `old(x)` for an identifier `x` records `x` both as an
old-reference and (via the recursive walk of the inner expression) as a read. -/
theorem walk_expr_old_ident (cname : String) (fp : BehavioralFingerprint)
    (l2 l3 : SourceLocation) (x : String) :
    walk_expr cname fp (Expr.oldExpr l2 (some (Expr.identifier l3 x))) =
      { fp with
        reads := addToSet fp.reads x
        old_references := addToSet fp.old_references x } := by
  conv_lhs => rw [walk_expr.eq_def]
  dsimp only
  conv_lhs => rw [walk_expr.eq_def]
  rfl

/-- C10 — `old(e)` also counts as a read: the walker records the extracted
dotted path of the inner expression in `old_references` and then walks the
inner expression as an ordinary expression; in particular a body statement
`old(x)` for an identifier `x` puts `x` in both the `old_references` and the
`reads` sets of the contract fingerprint. -/
theorem old_expr_inner_also_walked :
    (∀ (cname : String) (fp : BehavioralFingerprint) (l : SourceLocation) (e : Expr),
        walk_expr cname fp (Expr.oldExpr l (some e)) =
          walk_expr cname
            { fp with old_references :=
                addToSet fp.old_references (extract_dotted_path_from_expr e) } e) ∧
    ∀ (c : ContractDef) (b : Body) (x : String) (l1 l2 l3 : SourceLocation),
      c.body = some b →
      Statement.exprStmt l1 (some (Expr.oldExpr l2 (some (Expr.identifier l3 x)))) ∈
        b.statements →
      x ∈ (fingerprint_contract c).reads ∧ x ∈ (fingerprint_contract c).old_references := by
  constructor
  · intro cname fp l e
    conv_lhs => rw [walk_expr.eq_def]
  · intro c b x l1 l2 l3 hb hmem
    obtain ⟨lA, lB, hsplit⟩ := List.append_of_mem hmem
    have hcore : ∀ fp0 : BehavioralFingerprint,
        x ∈ (walk_statements c.name fp0 0 b.statements).reads ∧
        x ∈ (walk_statements c.name fp0 0 b.statements).old_references := by
      intro fp0
      rw [hsplit, walk_statements, walk_stmt_list_append, walk_stmt_list]
      have hstep : ∀ fpA : BehavioralFingerprint,
          walk_statement c.name fpA 0
              (Statement.exprStmt l1 (some (Expr.oldExpr l2 (some (Expr.identifier l3 x))))) =
            { fpA with
              reads := addToSet fpA.reads x
              old_references := addToSet fpA.old_references x } := by
        intro fpA
        rw [walk_statement.eq_def]
        dsimp only
        exact walk_expr_old_ident c.name fpA l2 l3 x
      rw [hstep]
      refine ⟨(walk_stmt_list_keeps _ _ _ _).1 x ?_, (walk_stmt_list_keeps _ _ _ _).2 x ?_⟩
      · exact mem_addToSet_self _ x
      · exact mem_addToSet_self _ x
    cases hof : c.on_failure with
    | none =>
        have heq : fingerprint_contract c = walk_statements c.name {} 0 b.statements := by
          unfold fingerprint_contract
          rw [hb, hof]
        rw [heq]
        exact hcore {}
    | some f =>
        have heq : fingerprint_contract c =
            walk_statements c.name (walk_statements c.name {} 0 b.statements) 0
              f.statements := by
          unfold fingerprint_contract
          rw [hb, hof]
        rw [heq]
        exact ⟨(walk_statements_keeps _ _ _ _).1 x (hcore {}).1,
               (walk_statements_keeps _ _ _ _).2 x (hcore {}).2⟩

/-- Witness for `old_expr_inner_also_walked` at a concrete contract whose
body is the single statement `old(bal)`. -/
theorem old_expr_inner_also_walked_witness :
    let l : SourceLocation := ⟨"w.cov", 1, 1, none, none⟩
    let c : ContractDef :=
      { loc := l, name := "w", params := [], return_type := none,
        precondition := none, postcondition := none, effects := none,
        permissions := none,
        body := some ⟨l, [Statement.exprStmt l
          (some (Expr.oldExpr l (some (Expr.identifier l "bal"))))]⟩,
        on_failure := none }
    "bal" ∈ (fingerprint_contract c).reads ∧
      "bal" ∈ (fingerprint_contract c).old_references := by
  intro l c
  exact old_expr_inner_also_walked.2 c ⟨l, [Statement.exprStmt l
    (some (Expr.oldExpr l (some (Expr.identifier l "bal"))))]⟩ "bal" l l l rfl
    (by simp)

/-- Severity levels from `covenant/verify/checker.py`. -/
inductive Severity where
  | info
  | warning
  | error
  | critical
  deriving DecidableEq

/-- `VerificationResult` from `covenant/verify/checker.py`. -/
structure VerificationResult where
  severity : Severity
  code : String
  message : String
  contract_name : String
  file : String
  line : Nat
  deriving DecidableEq

/-- `_extract_declared_modifies`. -/
def extract_declared_modifies (effects : Option Effects) : List String :=
  match effects with
  | none => []
  | some eff =>
      eff.declarations.foldl (fun acc d =>
        match d with
        | EffectDecl.modifiesEffect _ targets => setUpdate acc targets
        | _ => acc) []

/-- `_extract_declared_reads`. -/
def extract_declared_reads (effects : Option Effects) : List String :=
  match effects with
  | none => []
  | some eff =>
      eff.declarations.foldl (fun acc d =>
        match d with
        | EffectDecl.readsEffect _ targets => setUpdate acc targets
        | _ => acc) []

/-- `_extract_declared_emits`. -/
def extract_declared_emits (effects : Option Effects) : List String :=
  match effects with
  | none => []
  | some eff =>
      eff.declarations.foldl (fun acc d =>
        match d with
        | EffectDecl.emitsEffect _ ev => addToSet acc ev
        | _ => acc) []

/-- `_has_touches_nothing_else`. -/
def has_touches_nothing_else (effects : Option Effects) : Bool :=
  match effects with
  | none => false
  | some eff =>
      eff.declarations.any fun d =>
        match d with
        | EffectDecl.touchesNothingElse _ => true
        | _ => false

/-- `_is_covered_by`: a mutation path is covered by a declared path set via
exact match, a declared prefix followed by `.`, or by being dotless. -/
def is_covered_by (actual : String) (declared : List String) : Bool :=
  if actual ∈ declared then true
  else if declared.any fun d => pyStartsWith actual (d ++ ".") then true
  else if actual.data.contains '.' then false
  else true

/-- `_is_mutation_covered` (strict coverage used for `old()` references). -/
def is_mutation_covered (ref : String) (mutations : List String) : Bool :=
  if ref ∈ mutations then true
  else mutations.any fun m => pyStartsWith ref (m ++ ".") || pyStartsWith m (ref ++ ".")

/-- `_is_observed_in`. -/
def is_observed_in (declared : String) (actual : List String) : Bool :=
  if declared ∈ actual then true
  else actual.any fun a => pyStartsWith a (declared ++ ".") || pyStartsWith declared (a ++ ".")

/-- Python `root and root[0].isupper()` (ASCII upper-case initial; the
identifiers produced by the lexer are ASCII). -/
def isUpperFirst (s : String) : Bool :=
  match s.data with
  | c :: _ => c.isUpper
  | [] => false

/-- Build one `VerificationResult` for a contract (`_add` in
`verify_contract`). -/
def mkVR (name file : String) (line : Nat) (sev : Severity) (code msg : String) :
    VerificationResult :=
  { severity := sev, code := code, message := msg, contract_name := name,
    file := file, line := line }

/-- Structural-severity: `ERROR` at `HIGH`/`CRITICAL` risk, else `WARNING`. -/
def structuralSeverity (risk_level : RiskLevel) : Severity :=
  if risk_level = RiskLevel.high ∨ risk_level = RiskLevel.critical
    then Severity.error else Severity.warning

/-- The effect-completeness loop (`E001`/`E002`) of `verify_contract`. -/
def e001Findings (mk : Severity → String → String → VerificationResult)
    (has_touches_nothing : Bool) (mutations declared_modifies : List String) :
    List VerificationResult :=
  (mutations.filter fun m => ! is_covered_by m declared_modifies).map fun m =>
    if has_touches_nothing then
      mk Severity.error "E002" ("touches_nothing_else violated: body mutates '" ++ m ++
        "' which is not in the modifies declaration")
    else
      mk Severity.warning "E001" ("body mutates '" ++ m ++
        "' but it is not listed in the effects modifies declaration")

/-- The effect-soundness loop (`W001`). -/
def w001Findings (mk : Severity → String → String → VerificationResult)
    (declared_modifies mutations : List String) : List VerificationResult :=
  (declared_modifies.filter fun d => ! is_observed_in d mutations).map fun d =>
    mk Severity.warning "W001" ("effects declares modifies '" ++ d ++
      "' but the body does not appear to mutate it")

/-- The emit-completeness loop (`E005`). -/
def e005Findings (mk : Severity → String → String → VerificationResult)
    (has_touches_nothing : Bool) (emitted_events declared_emits : List String) :
    List VerificationResult :=
  (emitted_events.filter fun ev => ! declared_emits.contains ev).map fun ev =>
    mk (if has_touches_nothing then Severity.error else Severity.warning) "E005"
      ("body emits '" ++ ev ++ "' but it is not declared in the effects block")

/-- The emit-soundness loop (`W002`). -/
def w002Findings (mk : Severity → String → String → VerificationResult)
    (declared_emits emitted_events : List String) : List VerificationResult :=
  (declared_emits.filter fun ev => ! emitted_events.contains ev).map fun ev =>
    mk Severity.warning "W002" ("effects declares emits '" ++ ev ++
      "' but the body does not emit it")

/-- The `touches_nothing_else` call check (`E003`). -/
def e003Findings (mk : Severity → String → String → VerificationResult)
    (contract : ContractDef) (fp : BehavioralFingerprint)
    (declared_modifies declared_reads : List String)
    (declared_capabilities : Option (List String)) : List VerificationResult :=
  let allowed0 := declared_modifies.foldl (fun a m => addToSet a (pathRoot m)) []
  let allowed1 := declared_reads.foldl (fun a r => addToSet a (pathRoot r)) allowed0
  let allowed2 := contract.params.foldl (fun a p => addToSet a p.name) allowed1
  -- `if declared_capabilities:` — folding over the empty list is the identity
  let allowed := match declared_capabilities with
    | some caps => caps.foldl (fun a c => addToSet a (pathRoot c)) allowed2
    | none => allowed2
  let local_read_roots := (fp.reads.filter fun s => ! s.data.contains '.').map pathRoot
  (fp.calls.filter fun call =>
    let root := pathRoot call
    ! allowed.contains root && ! isUpperFirst root && ! fp.mutations.contains root &&
      ! (local_read_roots.contains root && fp.mutations.contains root)).map fun call =>
    mk Severity.error "E003" ("touches_nothing_else violated: body calls '" ++
      call ++ "' which is not covered by declared effects or parameters")

/-- The precondition-relevance check (`W006`). -/
def w006Findings (mk : Severity → String → String → VerificationResult)
    (contract : ContractDef) (fp : BehavioralFingerprint) (pre : Precondition) :
    List VerificationResult :=
  let param_names := contract.params.map fun p => p.name
  let precond_fp := fingerprint_expressions pre.conditions
  let body_roots := (fp.reads ++ fp.mutations).map pathRoot
  (precond_fp.reads.filter fun read =>
    let root := pathRoot read
    ! isUpperFirst root && ! param_names.contains root && ! body_roots.contains root).map
    fun read => mk Severity.warning "W006" ("precondition references '" ++ read ++
      "' which is not a parameter and not used in the body")

/-- The postcondition-achievability check (`W007`). -/
def w007Findings (mk : Severity → String → String → VerificationResult)
    (fp : BehavioralFingerprint) (post : Postcondition) : List VerificationResult :=
  let postcond_fp := fingerprint_expressions post.conditions
  (postcond_fp.old_references.filter fun r => ! is_mutation_covered r fp.mutations).map
    fun r => mk Severity.warning "W007" ("postcondition uses old(" ++ r ++
      ") but the body does not appear to modify '" ++ r ++ "'")

/-- The intent-scope check (`W008`); skipped when the declared-capability
list is `None` or empty (`if declared_capabilities:` in Python). -/
def w008Findings (mk : Severity → String → String → VerificationResult)
    (contract : ContractDef) (fp : BehavioralFingerprint)
    (declared_capabilities : Option (List String)) : List VerificationResult :=
  match declared_capabilities with
  | none => []
  | some caps =>
      if caps.isEmpty then [] else
      let cap_roots := caps.map pathRoot
      let param_names := contract.params.map fun p => p.name
      fp.capability_checks.filterMap fun check =>
        match pySplit check " has " with
        | [_, cap_path] =>
            if ! cap_roots.contains (pathRoot cap_path) &&
                ! param_names.contains (pathRoot cap_path) then
              some (mk Severity.warning "W008" ("body checks capability '" ++ cap_path ++
                "' but the file header only requires: " ++ pyListRepr caps))
            else none
        | _ => none

/-- The missing-precondition check (`W003`). -/
def w003Block (mk : Severity → String → String → VerificationResult)
    (structSev : Severity) (pre : Option Precondition) : List VerificationResult :=
  match pre with
  | none => [mk structSev "W003"
      "no precondition — every contract should declare what must be true before execution"]
  | some _ => []

/-- The missing-postcondition check (`W004`). -/
def w004Block (mk : Severity → String → String → VerificationResult)
    (structSev : Severity) (post : Option Postcondition) : List VerificationResult :=
  match post with
  | none => [mk structSev "W004"
      "no postcondition — every contract should declare what will be true after execution"]
  | some _ => []

/-- The missing-effects check (`W005`). -/
def w005Block (mk : Severity → String → String → VerificationResult)
    (structSev : Severity) (eff : Option Effects) : List VerificationResult :=
  match eff with
  | none => [mk structSev "W005"
      "no effects declaration — every contract must declare its side effects"]
  | some _ => []

/-- The `touches_nothing_else` guard around the E003 loop. -/
def e003Block (mk : Severity → String → String → VerificationResult)
    (has_touches_nothing : Bool) (contract : ContractDef) (fp : BehavioralFingerprint)
    (declared_modifies declared_reads : List String)
    (declared_capabilities : Option (List String)) : List VerificationResult :=
  if has_touches_nothing then
    e003Findings mk contract fp declared_modifies declared_reads declared_capabilities
  else []

/-- The precondition guard around the W006 loop. -/
def w006Block (mk : Severity → String → String → VerificationResult)
    (contract : ContractDef) (fp : BehavioralFingerprint) (pre : Option Precondition) :
    List VerificationResult :=
  match pre with
  | none => []
  | some p => w006Findings mk contract fp p

/-- The postcondition guard around the W007 loop. -/
def w007Block (mk : Severity → String → String → VerificationResult)
    (fp : BehavioralFingerprint) (post : Option Postcondition) : List VerificationResult :=
  match post with
  | none => []
  | some p => w007Findings mk fp p

/-- The recursion note (`I001`). -/
def i001Block (mk : Severity → String → String → VerificationResult)
    (has_recursion : Bool) : List VerificationResult :=
  if has_recursion then [mk Severity.info "I001" "contract contains recursive self-calls"]
  else []

/-- The nesting-depth note (`I002`). -/
def i002Block (mk : Severity → String → String → VerificationResult)
    (depth : Nat) : List VerificationResult :=
  if 4 ≤ depth then
    [mk Severity.info "I002" ("contract has nesting depth " ++ toString depth ++
      " — consider simplifying for auditability")]
  else []

/-- `verify_contract` from `covenant/verify/checker.py`: all consistency
checks on one contract, the result list built in source order. -/
def verify_contract (contract : ContractDef) (fingerprint : Option BehavioralFingerprint)
    (file : String) (declared_capabilities : Option (List String))
    (risk_level : RiskLevel) : List VerificationResult :=
  let fp := match fingerprint with
    | none => fingerprint_contract contract
    | some f => f
  let mk := mkVR contract.name file contract.loc.line
  match contract.body with
  | none => [mk Severity.error "E004" "contract has no body"]
  | some _ =>
    let structSev := structuralSeverity risk_level
    let declared_modifies := extract_declared_modifies contract.effects
    let declared_reads := extract_declared_reads contract.effects
    let declared_emits := extract_declared_emits contract.effects
    let has_touches_nothing := has_touches_nothing_else contract.effects
    w003Block mk structSev contract.precondition ++
      w004Block mk structSev contract.postcondition ++
      w005Block mk structSev contract.effects ++
      e001Findings mk has_touches_nothing fp.mutations declared_modifies ++
      w001Findings mk declared_modifies fp.mutations ++
      e005Findings mk has_touches_nothing fp.emitted_events declared_emits ++
      w002Findings mk declared_emits fp.emitted_events ++
      e003Block mk has_touches_nothing contract fp declared_modifies declared_reads
        declared_capabilities ++
      w006Block mk contract fp contract.precondition ++
      w007Block mk fp contract.postcondition ++
      w008Findings mk contract fp declared_capabilities ++
      i001Block mk fp.has_recursion ++
      i002Block mk fp.max_nesting_depth

/-- C7 — E004 short-circuit: a body-less contract yields exactly the single
`E004` `ERROR` finding; no structural (W003/W004/W005) and no body-dependent
rule runs for it. -/
theorem verify_contract_E004_short_circuit (c : ContractDef)
    (fingerprint : Option BehavioralFingerprint) (file : String)
    (caps : Option (List String)) (risk : RiskLevel) (h : c.body = none) :
    verify_contract c fingerprint file caps risk =
      [{ severity := Severity.error, code := "E004", message := "contract has no body",
         contract_name := c.name, file := file, line := c.loc.line }] := by
  unfold verify_contract
  rw [h]
  rfl

/-- Witness for `verify_contract_E004_short_circuit` on a concrete body-less
contract. -/
theorem verify_contract_E004_short_circuit_witness :
    (let l : SourceLocation := ⟨"w.cov", 3, 1, none, none⟩
     let c : ContractDef :=
       { loc := l, name := "noop", params := [], return_type := none,
         precondition := none, postcondition := none, effects := none,
         permissions := none, body := none, on_failure := none }
     verify_contract c none "w.cov" none RiskLevel.low =
       [{ severity := Severity.error, code := "E004", message := "contract has no body",
          contract_name := "noop", file := "w.cov", line := 3 }]) := by
  exact verify_contract_E004_short_circuit _ _ _ _ _ rfl

/-- Every W008 finding carries code `"W008"`. -/
theorem mem_w008Findings_code (name file : String) (line : Nat) (c : ContractDef)
    (fp : BehavioralFingerprint) (caps : Option (List String)) (r : VerificationResult)
    (hr : r ∈ w008Findings (mkVR name file line) c fp caps) : r.code = "W008" := by
  unfold w008Findings at hr
  split at hr
  · exact absurd hr (List.not_mem_nil r)
  · split at hr
    · exact absurd hr (List.not_mem_nil r)
    · simp only [List.mem_filterMap] at hr
      obtain ⟨a, -, hg⟩ := hr
      split at hg
      · split at hg
        · cases hg
          rfl
        · cases hg
      · cases hg

/-- The W008 block never contributes E001/E002 findings. -/
theorem w008Findings_filter_E_nil (name file : String) (line : Nat) (c : ContractDef)
    (fp : BehavioralFingerprint) (caps : Option (List String)) :
    (w008Findings (mkVR name file line) c fp caps).filter
      (fun r => r.code == "E001" || r.code == "E002") = [] := by
  rw [List.filter_eq_nil_iff]
  intro r hr
  rw [mem_w008Findings_code name file line c fp caps r hr]
  simp

/-- Filters used by the E001/E002 exactness theorem: none of the other
blocks contributes findings with those codes. -/
theorem w003Block_filter_E_nil (n f : String) (l : Nat) (sev : Severity)
    (pre : Option Precondition) :
    (w003Block (mkVR n f l) sev pre).filter
      (fun r => r.code == "E001" || r.code == "E002") = [] := by
  unfold w003Block
  cases pre <;> simp [mkVR]

theorem w004Block_filter_E_nil (n f : String) (l : Nat) (sev : Severity)
    (post : Option Postcondition) :
    (w004Block (mkVR n f l) sev post).filter
      (fun r => r.code == "E001" || r.code == "E002") = [] := by
  unfold w004Block
  cases post <;> simp [mkVR]

theorem w005Block_filter_E_nil (n f : String) (l : Nat) (sev : Severity)
    (eff : Option Effects) :
    (w005Block (mkVR n f l) sev eff).filter
      (fun r => r.code == "E001" || r.code == "E002") = [] := by
  unfold w005Block
  cases eff <;> simp [mkVR]

theorem w001Findings_filter_E_nil (n f : String) (l : Nat) (dm muts : List String) :
    (w001Findings (mkVR n f l) dm muts).filter
      (fun r => r.code == "E001" || r.code == "E002") = [] := by
  unfold w001Findings
  rw [List.filter_map, List.filter_eq_nil_iff.mpr (fun a _ => by simp [mkVR])]
  rfl

theorem e005Findings_filter_E_nil (n f : String) (l : Nat) (ht : Bool)
    (evs dems : List String) :
    (e005Findings (mkVR n f l) ht evs dems).filter
      (fun r => r.code == "E001" || r.code == "E002") = [] := by
  unfold e005Findings
  rw [List.filter_map, List.filter_eq_nil_iff.mpr (fun a _ => by simp [mkVR])]
  rfl

theorem w002Findings_filter_E_nil (n f : String) (l : Nat) (dems evs : List String) :
    (w002Findings (mkVR n f l) dems evs).filter
      (fun r => r.code == "E001" || r.code == "E002") = [] := by
  unfold w002Findings
  rw [List.filter_map, List.filter_eq_nil_iff.mpr (fun a _ => by simp [mkVR])]
  rfl

theorem e003Block_filter_E_nil (n f : String) (l : Nat) (ht : Bool) (c : ContractDef)
    (fp : BehavioralFingerprint) (dm dr : List String) (caps : Option (List String)) :
    (e003Block (mkVR n f l) ht c fp dm dr caps).filter
      (fun r => r.code == "E001" || r.code == "E002") = [] := by
  unfold e003Block e003Findings
  split
  · rw [List.filter_map, List.filter_eq_nil_iff.mpr (fun a _ => by simp [mkVR])]
    rfl
  · rfl

theorem w006Block_filter_E_nil (n f : String) (l : Nat) (c : ContractDef)
    (fp : BehavioralFingerprint) (pre : Option Precondition) :
    (w006Block (mkVR n f l) c fp pre).filter
      (fun r => r.code == "E001" || r.code == "E002") = [] := by
  unfold w006Block w006Findings
  cases pre
  · rfl
  · rw [List.filter_map, List.filter_eq_nil_iff.mpr (fun a _ => by simp [mkVR])]
    rfl

theorem w007Block_filter_E_nil (n f : String) (l : Nat)
    (fp : BehavioralFingerprint) (post : Option Postcondition) :
    (w007Block (mkVR n f l) fp post).filter
      (fun r => r.code == "E001" || r.code == "E002") = [] := by
  unfold w007Block w007Findings
  cases post
  · rfl
  · rw [List.filter_map, List.filter_eq_nil_iff.mpr (fun a _ => by simp [mkVR])]
    rfl

theorem i001Block_filter_E_nil (n f : String) (l : Nat) (flag : Bool) :
    (i001Block (mkVR n f l) flag).filter
      (fun r => r.code == "E001" || r.code == "E002") = [] := by
  unfold i001Block
  split <;> simp [mkVR]

theorem i002Block_filter_E_nil (n f : String) (l : Nat) (depth : Nat) :
    (i002Block (mkVR n f l) depth).filter
      (fun r => r.code == "E001" || r.code == "E002") = [] := by
  unfold i002Block
  split <;> simp [mkVR]

/-- C4 — Mutation coverage and the E001/E002 findings: a mutation is covered
exactly when it matches a declared modifies path, extends one past a `.`, or
is dotless; and the E001/E002 findings of `verify_contract` are exactly one
per uncovered mutation — `E002`/`ERROR` under `touches_nothing_else`,
`E001`/`WARNING` otherwise — with covered mutations producing neither. -/
theorem mutation_coverage_E001_E002 (c : ContractDef) (file : String)
    (caps : Option (List String)) (risk : RiskLevel) (b : Body)
    (hb : c.body = some b) :
    (∀ (m : String) (dm : List String), is_covered_by m dm = true ↔
        (m ∈ dm ∨ (∃ d ∈ dm, pyStartsWith m (d ++ ".") = true) ∨ '.' ∉ m.data)) ∧
    (verify_contract c none file caps risk).filter
        (fun r => r.code == "E001" || r.code == "E002") =
      ((fingerprint_contract c).mutations.filter
          (fun m => ! is_covered_by m (extract_declared_modifies c.effects))).map
        (fun m =>
          if has_touches_nothing_else c.effects then
            mkVR c.name file c.loc.line Severity.error "E002"
              ("touches_nothing_else violated: body mutates '" ++ m ++
                "' which is not in the modifies declaration")
          else
            mkVR c.name file c.loc.line Severity.warning "E001"
              ("body mutates '" ++ m ++
                "' but it is not listed in the effects modifies declaration")) := by
  constructor
  · intro m dm
    unfold is_covered_by
    split_ifs with h1 h2 h3
    · simp [h1]
    · simp only [List.any_eq_true] at h2
      simp only [true_iff]
      exact Or.inr (Or.inl h2)
    · simp only [List.any_eq_true] at h2
      constructor
      · intro hfalse
        exact absurd hfalse (by simp)
      · intro hor
        rcases hor with hm | hpre | hdot
        · exact absurd hm h1
        · exact absurd hpre h2
        · exact absurd (by simpa using h3) hdot
    · simp only [List.any_eq_true] at h2
      simp only [true_iff]
      refine Or.inr (Or.inr ?_)
      simpa using h3
  · unfold verify_contract
    rw [hb]
    simp only [List.filter_append, w003Block_filter_E_nil, w004Block_filter_E_nil,
      w005Block_filter_E_nil, w001Findings_filter_E_nil, e005Findings_filter_E_nil,
      w002Findings_filter_E_nil, e003Block_filter_E_nil, w006Block_filter_E_nil,
      w007Block_filter_E_nil, w008Findings_filter_E_nil, i001Block_filter_E_nil,
      i002Block_filter_E_nil, List.nil_append, List.append_nil]
    cases hht : has_touches_nothing_else c.effects <;>
      simp [e001Findings, List.filter_map, mkVR, Function.comp]

/-- Witness for `mutation_coverage_E001_E002`: a contract with no effects
declaration whose body assigns `rec.value` gets exactly one E001 warning. -/
theorem mutation_coverage_E001_E002_witness :
    (let l : SourceLocation := ⟨"w.cov", 1, 1, none, none⟩
     let b : Body := ⟨l, [Statement.assignment l "rec.value"
       (some (Expr.numberLiteral l (PyNum.pyInt 42)))]⟩
     let c : ContractDef :=
       { loc := l, name := "upd", params := [], return_type := none,
         precondition := none, postcondition := none, effects := none,
         permissions := none, body := some b, on_failure := none }
     (verify_contract c none "w.cov" none RiskLevel.low).filter
        (fun r => r.code == "E001" || r.code == "E002") =
       [{ severity := Severity.warning, code := "E001",
          message := "body mutates 'rec.value' but it is not listed in the effects modifies declaration",
          contract_name := "upd", file := "w.cov", line := 1 }]) := by
  intro l b c
  rw [(mutation_coverage_E001_E002 c "w.cov" none RiskLevel.low b rfl).2]
  rfl

/-- C8 (amended) — W008 capability scope: when the declared-capability list
is non-empty, every capability check whose capability root is neither a
declared required-capability root nor a parameter name yields a W008
`WARNING` finding. -/
theorem w008_capability_scope (c : ContractDef) (file : String) (risk : RiskLevel)
    (b : Body) (hb : c.body = some b) (caps : List String) (hcaps : caps.isEmpty = false)
    (check s cap_path : String)
    (hcheck : check ∈ (fingerprint_contract c).capability_checks)
    (hsplit : pySplit check " has " = [s, cap_path])
    (hroot1 : (caps.map pathRoot).contains (pathRoot cap_path) = false)
    (hroot2 : (c.params.map (fun p => p.name)).contains (pathRoot cap_path) = false) :
    mkVR c.name file c.loc.line Severity.warning "W008"
        ("body checks capability '" ++ cap_path ++ "' but the file header only requires: " ++
          pyListRepr caps) ∈
      verify_contract c none file (some caps) risk := by
  unfold verify_contract
  rw [hb]
  apply List.mem_append_left
  apply List.mem_append_left
  apply List.mem_append_right
  unfold w008Findings
  dsimp only
  rw [hcaps]
  simp only [Bool.false_eq_true, if_false]
  refine List.mem_filterMap.mpr ⟨check, hcheck, ?_⟩
  rw [hsplit]
  simp only [hroot1, hroot2, Bool.not_false, Bool.and_self, if_pos]

/-- Witness for `w008_capability_scope`: body checks `x has foo.bar` while the
header requires only `net.access`. -/
theorem w008_capability_scope_witness :
    (let l : SourceLocation := ⟨"w.cov", 1, 1, none, none⟩
     let b : Body := ⟨l, [Statement.exprStmt l (some (Expr.hasExpr l
       (some (Expr.identifier l "x"))
       (some (Expr.fieldAccess l (some (Expr.identifier l "foo")) "bar"))))]⟩
     let c : ContractDef :=
       { loc := l, name := "chk", params := [], return_type := none,
         precondition := none, postcondition := none, effects := none,
         permissions := none, body := some b, on_failure := none }
     mkVR "chk" "w.cov" 1 Severity.warning "W008"
         ("body checks capability 'foo.bar' but the file header only requires: " ++
           pyListRepr ["net.access"]) ∈
       verify_contract c none "w.cov" (some ["net.access"]) RiskLevel.low) := by
  intro l b c
  exact w008_capability_scope c "w.cov" RiskLevel.low b rfl ["net.access"] rfl
    "x has foo.bar" "x" "foo.bar" (by decide) rfl rfl rfl

/-- C8 counterexample — with an explicitly empty declared-capability list the
W008 rule is skipped: the body checks `x has foo.bar`, whose root `foo` is
neither a declared capability root nor a parameter, yet no W008 finding is
produced. -/
theorem w008_capability_scope_counterexample :
    (let l : SourceLocation := ⟨"w.cov", 1, 1, none, none⟩
     let b : Body := ⟨l, [Statement.exprStmt l (some (Expr.hasExpr l
       (some (Expr.identifier l "x"))
       (some (Expr.fieldAccess l (some (Expr.identifier l "foo")) "bar"))))]⟩
     let c : ContractDef :=
       { loc := l, name := "chk", params := [], return_type := none,
         precondition := none, postcondition := none, effects := none,
         permissions := none, body := some b, on_failure := none }
     "x has foo.bar" ∈ (fingerprint_contract c).capability_checks ∧
       pySplit "x has foo.bar" " has " = ["x", "foo.bar"] ∧
       (([] : List String).map pathRoot).contains (pathRoot "foo.bar") = false ∧
       (c.params.map (fun p => p.name)).contains (pathRoot "foo.bar") = false ∧
       (verify_contract c none "w.cov" (some []) RiskLevel.low).filter
         (fun r => r.code == "W008") = []) := by
  intro l b c
  exact ⟨by decide, by decide, by decide, by decide, by decide⟩

/-- Lexicographic comparison of character lists by code point, as Python
compares strings. -/
def strLtChars : List Char → List Char → Bool
  | [], [] => false
  | [], _ :: _ => true
  | _ :: _, [] => false
  | a :: as, b :: bs =>
      if a.toNat < b.toNat then true
      else if b.toNat < a.toNat then false
      else strLtChars as bs

/-- Python string `<`. -/
def pyStrLt (a b : String) : Bool :=
  strLtChars a.data b.data

/-- Insert into a sorted list (ascending by `pyStrLt`). -/
def insertSorted (x : String) : List String → List String
  | [] => [x]
  | y :: ys => if pyStrLt y x then y :: insertSorted x ys else x :: y :: ys

/-- Python `sorted` on a list of strings (insertion sort; the order is the
unique ascending order since string comparison is total). -/
def pySorted : List String → List String
  | [] => []
  | x :: xs => insertSorted x (pySorted xs)

/-- The canonical dictionary of `BehavioralFingerprint.to_canonical_dict`:
set-valued and sequence-valued fields sorted (sequence fields are sorted by
`json.dumps(..., sort_keys=True)`-independent code in the source: the dict
stores `sorted(...)` of each). -/
structure CanonicalDict where
  reads : List String
  mutations : List String
  calls : List String
  emitted_events : List String
  old_references : List String
  capability_checks : List String
  operators : List String
  literals : List String
  has_branching : Bool
  has_looping : Bool
  has_recursion : Bool
  return_count : Nat
  max_nesting_depth : Nat
  deriving DecidableEq

/-- `BehavioralFingerprint.to_canonical_dict`. -/
def to_canonical_dict (fp : BehavioralFingerprint) : CanonicalDict :=
  { reads := pySorted fp.reads
    mutations := pySorted fp.mutations
    calls := pySorted fp.calls
    emitted_events := pySorted fp.emitted_events
    old_references := pySorted fp.old_references
    capability_checks := pySorted fp.capability_checks
    operators := pySorted fp.operators
    literals := pySorted fp.literals
    has_branching := fp.has_branching
    has_looping := fp.has_looping
    has_recursion := fp.has_recursion
    return_count := fp.return_count
    max_nesting_depth := fp.max_nesting_depth }

/-- Four-digit lower-case hexadecimal rendering. -/
def hex4 (n : Nat) : String :=
  String.mk [hexDigit (n / 4096 % 16), hexDigit (n / 256 % 16),
    hexDigit (n / 16 % 16), hexDigit (n % 16)]

/-- One character of `json.dumps` output with `ensure_ascii=True`. -/
def jsonEscCharL (c : Char) : List Char :=
  if c = '"' then ['\\', '"']
  else if c = '\\' then ['\\', '\\']
  else if c = '\x08' then ['\\', 'b']
  else if c = '\x0c' then ['\\', 'f']
  else if c = '\n' then ['\\', 'n']
  else if c = '\r' then ['\\', 'r']
  else if c = '\t' then ['\\', 't']
  else if c.toNat < 0x20 then '\\' :: 'u' :: (hex4 c.toNat).data
  else if c.toNat < 0x7f then [c]
  else if c.toNat ≤ 0xffff then '\\' :: 'u' :: (hex4 c.toNat).data
  else
    '\\' :: 'u' :: (hex4 (0xd800 + (c.toNat - 0x10000) / 1024)).data ++
      '\\' :: 'u' :: (hex4 (0xdc00 + (c.toNat - 0x10000) % 1024)).data

/-- A JSON string literal, character list form. -/
def jsonStringL (s : String) : List Char :=
  '"' :: s.data.flatMap jsonEscCharL ++ ['"']

/-- The tail of a JSON array body: each further item preceded by `,`,
closed by `]`. -/
def sepItems : List String → List Char
  | [] => [']']
  | s :: rest => ',' :: (jsonStringL s ++ sepItems rest)

/-- The body of a JSON array of strings, including the closing `]`. -/
def jsonItemsL : List String → List Char
  | [] => [']']
  | s :: rest => jsonStringL s ++ sepItems rest

/-- A JSON array of strings, character list form. -/
def jsonStrListL (xs : List String) : List Char :=
  '[' :: jsonItemsL xs

/-- JSON booleans. -/
def jsonBoolL (b : Bool) : List Char :=
  if b then ['t', 'r', 'u', 'e'] else ['f', 'a', 'l', 's', 'e']

/-- Decimal digits of a natural number, accumulator form; the fuel is the
number itself plus one, so it never runs out. -/
def natLitGo : Nat → Nat → List Char → List Char
  | 0, _, acc => acc
  | fuel + 1, n, acc =>
      let d := Char.ofNat (48 + n % 10)
      if n < 10 then d :: acc else natLitGo fuel (n / 10) (d :: acc)

/-- Decimal rendering of a natural number (`str(n)`). -/
def natLitL (n : Nat) : List Char :=
  natLitGo (n + 1) n []

/-- `json.dumps(d, sort_keys=True, separators=(",", ":"))` for the canonical
dictionary: keys emitted in sorted order with `,`/`:` separators and no
whitespace. -/
def canonicalJsonL (d : CanonicalDict) : List Char :=
  "\x7b\"calls\":".data ++ jsonStrListL d.calls ++
  ",\"capability_checks\":".data ++ jsonStrListL d.capability_checks ++
  ",\"emitted_events\":".data ++ jsonStrListL d.emitted_events ++
  ",\"has_branching\":".data ++ jsonBoolL d.has_branching ++
  ",\"has_looping\":".data ++ jsonBoolL d.has_looping ++
  ",\"has_recursion\":".data ++ jsonBoolL d.has_recursion ++
  ",\"literals\":".data ++ jsonStrListL d.literals ++
  ",\"max_nesting_depth\":".data ++ natLitL d.max_nesting_depth ++
  ",\"mutations\":".data ++ jsonStrListL d.mutations ++
  ",\"old_references\":".data ++ jsonStrListL d.old_references ++
  ",\"operators\":".data ++ jsonStrListL d.operators ++
  ",\"reads\":".data ++ jsonStrListL d.reads ++
  ",\"return_count\":".data ++ natLitL d.return_count ++ "\x7d".data

/-- The canonical fingerprint JSON (`fp_json` in `compute_intent_hash`). -/
def fingerprintJson (fp : BehavioralFingerprint) : String :=
  String.mk (canonicalJsonL (to_canonical_dict fp))

/-- 32-bit truncation. -/
def w32 (n : Nat) : Nat := n % 4294967296

/-- 32-bit right rotation. -/
def rotr (r x : Nat) : Nat := w32 ((x >>> r) ||| (x <<< (32 - r)))

/-- SHA-256 round constants. -/
def shaK : List Nat :=
  [1116352408, 1899447441, 3049323471, 3921009573, 961987163, 1508970993,
   2453635748, 2870763221, 3624381080, 310598401, 607225278, 1426881987,
   1925078388, 2162078206, 2614888103, 3248222580, 3835390401, 4022224774,
   264347078, 604807628, 770255983, 1249150122, 1555081692, 1996064986,
   2554220882, 2821834349, 2952996808, 3210313671, 3336571891, 3584528711,
   113926993, 338241895, 666307205, 773529912, 1294757372, 1396182291,
   1695183700, 1986661051, 2177026350, 2456956037, 2730485921, 2820302411,
   3259730800, 3345764771, 3516065817, 3600352804, 4094571909, 275423344,
   430227734, 506948616, 659060556, 883997877, 958139571, 1322822218,
   1537002063, 1747873779, 1955562222, 2024104815, 2227730452, 2361852424,
   2428436474, 2756734187, 3204031479, 3329325298]

/-- Big-endian 64-bit byte rendering. -/
def be64 (n : Nat) : List Nat :=
  [(n >>> 56) % 256, (n >>> 48) % 256, (n >>> 40) % 256, (n >>> 32) % 256,
   (n >>> 24) % 256, (n >>> 16) % 256, (n >>> 8) % 256, n % 256]

/-- SHA-256 message padding: `0x80`, zeros to 56 mod 64, 64-bit bit length. -/
def shaPad (msg : List Nat) : List Nat :=
  let len := msg.length
  let k := (56 + 64 - (len + 1) % 64) % 64
  msg ++ [0x80] ++ List.replicate k 0 ++ be64 (len * 8)

/-- Split a byte list into 64-byte chunks. -/
def shaChunks : Nat → List Nat → List (List Nat)
  | 0, _ => []
  | _, [] => []
  | fuel + 1, l => l.take 64 :: shaChunks fuel (l.drop 64)

/-- Pack bytes into big-endian 32-bit words. -/
def toWords : Nat → List Nat → List Nat
  | 0, _ => []
  | _, [] => []
  | fuel + 1, b0 :: b1 :: b2 :: b3 :: rest =>
      (b0 <<< 24 ||| b1 <<< 16 ||| b2 <<< 8 ||| b3) :: toWords fuel rest
  | _ + 1, _ => []

/-- SHA-256 message schedule extension to 64 words. -/
def shaExtend (w : List Nat) : List Nat :=
  (List.range 48).foldl (fun w i =>
    let s0 := rotr 7 (w.getD (i + 1) 0) ^^^ rotr 18 (w.getD (i + 1) 0) ^^^
      (w.getD (i + 1) 0 >>> 3)
    let s1 := rotr 17 (w.getD (i + 14) 0) ^^^ rotr 19 (w.getD (i + 14) 0) ^^^
      (w.getD (i + 14) 0 >>> 10)
    w ++ [w32 (w.getD i 0 + s0 + w.getD (i + 9) 0 + s1)]) w

/-- One SHA-256 compression round. -/
def shaRound (st : Nat × Nat × Nat × Nat × Nat × Nat × Nat × Nat) (kw : Nat × Nat) :
    Nat × Nat × Nat × Nat × Nat × Nat × Nat × Nat :=
  let (a, b, c, d, e, f, g, h) := st
  let (k, w) := kw
  let s1 := rotr 6 e ^^^ rotr 11 e ^^^ rotr 25 e
  let ch := (e &&& f) ^^^ ((4294967295 - e) &&& g)
  let temp1 := w32 (h + s1 + ch + k + w)
  let s0 := rotr 2 a ^^^ rotr 13 a ^^^ rotr 22 a
  let maj := (a &&& b) ^^^ (a &&& c) ^^^ (b &&& c)
  let temp2 := w32 (s0 + maj)
  (w32 (temp1 + temp2), a, b, c, w32 (d + temp1), e, f, g)

/-- Process one 64-byte chunk. -/
def shaChunkStep (h : List Nat) (chunk : List Nat) : List Nat :=
  let w := shaExtend (toWords 17 chunk)
  let init := (h.getD 0 0, h.getD 1 0, h.getD 2 0, h.getD 3 0,
    h.getD 4 0, h.getD 5 0, h.getD 6 0, h.getD 7 0)
  let (a, b, c, d, e, f, g, hh) := (shaK.zip w).foldl shaRound init
  [w32 (h.getD 0 0 + a), w32 (h.getD 1 0 + b), w32 (h.getD 2 0 + c),
   w32 (h.getD 3 0 + d), w32 (h.getD 4 0 + e), w32 (h.getD 5 0 + f),
   w32 (h.getD 6 0 + g), w32 (h.getD 7 0 + hh)]

/-- SHA-256 of a byte list, as eight 32-bit words. -/
def sha256Words (msg : List Nat) : List Nat :=
  let padded := shaPad msg
  (shaChunks (padded.length + 1) padded).foldl shaChunkStep
    [1779033703, 3144134277, 1013904242, 2773480762,
     1359893119, 2600822924, 528734635, 1541459225]

/-- Eight-digit lower-case hexadecimal rendering of a 32-bit word. -/
def hex8 (n : Nat) : String :=
  hex4 (n >>> 16) ++ hex4 (n % 65536)

/-- UTF-8 encoding of one character. -/
def utf8Char (c : Char) : List Nat :=
  let n := c.toNat
  if n < 0x80 then [n]
  else if n < 0x800 then [0xc0 ||| (n >>> 6), 0x80 ||| (n &&& 0x3f)]
  else if n < 0x10000 then
    [0xe0 ||| (n >>> 12), 0x80 ||| ((n >>> 6) &&& 0x3f), 0x80 ||| (n &&& 0x3f)]
  else
    [0xf0 ||| (n >>> 18), 0x80 ||| ((n >>> 12) &&& 0x3f),
     0x80 ||| ((n >>> 6) &&& 0x3f), 0x80 ||| (n &&& 0x3f)]

/-- UTF-8 bytes of a string. -/
def utf8Bytes (s : String) : List Nat :=
  s.data.flatMap utf8Char

/-- `hashlib.sha256(s.encode("utf-8")).hexdigest()`. -/
def sha256hex (s : String) : String :=
  String.join ((sha256Words (utf8Bytes s)).map hex8)

/-- `IntentHash` from `covenant/verify/hasher.py`. -/
structure IntentHash where
  contract_name : String
  intent_text : String
  intent_hash : String
  fingerprint_hash : String
  combined_hash : String
  deriving DecidableEq

/-- `compute_intent_hash` from `covenant/verify/hasher.py`. -/
def compute_intent_hash (contract : ContractDef) (intent_text : String)
    (fingerprint : Option BehavioralFingerprint) : IntentHash :=
  let fp := match fingerprint with
    | none => fingerprint_contract contract
    | some f => f
  let intent_hash := sha256hex intent_text
  let fp_json := fingerprintJson fp
  let fingerprint_hash := sha256hex fp_json
  let combined := sha256hex (intent_hash ++ fingerprint_hash)
  { contract_name := contract.name, intent_text := intent_text,
    intent_hash := intent_hash, fingerprint_hash := fingerprint_hash,
    combined_hash := combined }

/-- The SHA-256 model agrees with the reference digests. -/
example : sha256hex "" = "e3b0c44298fc1c149afbf4c8996fb92427ae41e4649b934ca495991b7852b855" := by
  decide

example : sha256hex "abc" = "ba7816bf8f01cfea414140de5dae2223b00361a396177a9cb410ff61f20015ad" := by
  decide

set_option maxRecDepth 8192 in
/-- C1 counterexample — two contracts with identical intent whose
fingerprints differ in the `operators` sequence (`["*", "+"]` versus
`["+", "*"]`) yet whose `compute_intent_hash` results carry equal
`combined_hash` values, because the canonical dictionary sorts the
`operators` sequence before hashing. -/
theorem drift_operator_order_counterexample :
    (let l : SourceLocation := ⟨"w.cov", 1, 1, none, none⟩
     let mkBody := fun (op1 op2 : String) =>
       Body.mk l
         [Statement.assignment l "t" (some (Expr.binaryOp l
            (some (Expr.identifier l "a")) op1 (some (Expr.identifier l "b")))),
          Statement.assignment l "u" (some (Expr.binaryOp l
            (some (Expr.identifier l "c")) op2 (some (Expr.identifier l "d"))))]
     let mkC := fun (b : Body) => ContractDef.mk l "calc" [] none none none none none
       (some b) none
     let c1 := mkC (mkBody "*" "+")
     let c2 := mkC (mkBody "+" "*")
     (fingerprint_contract c1).operators ≠ (fingerprint_contract c2).operators ∧
       (compute_intent_hash c1 "increment" none).combined_hash =
         (compute_intent_hash c2 "increment" none).combined_hash) := by
  intro l mkBody mkC c1 c2
  constructor
  · decide
  · have hj : fingerprintJson (fingerprint_contract c1) =
        fingerprintJson (fingerprint_contract c2) := by decide
    simp only [compute_intent_hash]
    rw [hj]

/-- A character that JSON renders as itself: printable ASCII other than the
quote and the backslash. -/
def PlainChar (c : Char) : Prop :=
  c ≠ '"' ∧ c ≠ '\\' ∧ 0x20 ≤ c.toNat ∧ c.toNat < 0x7f

instance (c : Char) : Decidable (PlainChar c) := by
  unfold PlainChar
  infer_instance

/-- A string of plain characters. -/
def PlainStr (s : String) : Prop :=
  ∀ c ∈ s.data, PlainChar c

instance (s : String) : Decidable (PlainStr s) := by
  unfold PlainStr
  infer_instance

/-- A list of plain strings. -/
def PlainStrs (l : List String) : Prop :=
  ∀ s ∈ l, PlainStr s

instance (l : List String) : Decidable (PlainStrs l) := by
  unfold PlainStrs
  infer_instance

/-- All path and literal strings of a fingerprint are plain. -/
def PlainFP (fp : BehavioralFingerprint) : Prop :=
  PlainStrs fp.reads ∧ PlainStrs fp.mutations ∧ PlainStrs fp.calls ∧
    PlainStrs fp.emitted_events ∧ PlainStrs fp.old_references ∧
    PlainStrs fp.capability_checks ∧ PlainStrs fp.operators ∧ PlainStrs fp.literals

instance (fp : BehavioralFingerprint) : Decidable (PlainFP fp) := by
  unfold PlainFP
  infer_instance

/-- All strings of a canonical dictionary are plain. -/
def PlainDict (d : CanonicalDict) : Prop :=
  PlainStrs d.reads ∧ PlainStrs d.mutations ∧ PlainStrs d.calls ∧
    PlainStrs d.emitted_events ∧ PlainStrs d.old_references ∧
    PlainStrs d.capability_checks ∧ PlainStrs d.operators ∧ PlainStrs d.literals

/-- JSON escaping is the identity on plain characters. -/
theorem jsonEscCharL_plain (c : Char) (h : PlainChar c) : jsonEscCharL c = [c] := by
  obtain ⟨h1, h2, h3, h4⟩ := h
  unfold jsonEscCharL
  rw [if_neg h1, if_neg h2,
    if_neg (fun he => absurd h3 (by subst he; decide)),
    if_neg (fun he => absurd h3 (by subst he; decide)),
    if_neg (fun he => absurd h3 (by subst he; decide)),
    if_neg (fun he => absurd h3 (by subst he; decide)),
    if_neg (fun he => absurd h3 (by subst he; decide)),
    if_neg (by omega), if_pos h4]

/-- JSON string rendering of a plain string is just the quoted text. -/
theorem jsonStringL_plain (s : String) (h : PlainStr s) :
    jsonStringL s = '"' :: s.data ++ ['"'] := by
  unfold jsonStringL
  congr 1
  have : ∀ (l : List Char), (∀ c ∈ l, PlainChar c) → l.flatMap jsonEscCharL = l := by
    intro l hl
    induction l with
    | nil => rfl
    | cons c cs ih =>
        rw [List.flatMap_cons, jsonEscCharL_plain c (hl c (by simp)),
          ih (fun c hc => hl c (by simp [hc]))]
        rfl
  rw [this s.data h]

/-- Prefix determinism of quote-terminated runs of non-quote characters. -/
theorem quoted_run_det (a : List Char) : ∀ (b : List Char) (r1 r2 : List Char),
    (∀ c ∈ a, c ≠ '"') → (∀ c ∈ b, c ≠ '"') →
    a ++ '"' :: r1 = b ++ '"' :: r2 → a = b ∧ r1 = r2 := by
  induction a with
  | nil =>
      intro b r1 r2 _ hb h
      cases b with
      | nil => simpa using h
      | cons x xs =>
          simp only [List.nil_append, List.cons_append, List.cons.injEq] at h
          exact absurd h.1.symm (hb x (by simp))
  | cons x xs ih =>
      intro b r1 r2 ha hb h
      cases b with
      | nil =>
          simp only [List.cons_append, List.nil_append, List.cons.injEq] at h
          exact absurd h.1 (ha x (by simp))
      | cons y ys =>
          simp only [List.cons_append, List.cons.injEq] at h
          obtain ⟨hxy, hrest⟩ := h
          obtain ⟨he, hr⟩ := ih ys r1 r2 (fun c hc => ha c (by simp [hc]))
            (fun c hc => hb c (by simp [hc])) hrest
          exact ⟨by rw [hxy, he], hr⟩

/-- Prefix determinism of JSON string literals over plain strings. -/
theorem jsonStringL_det (s t : String) (r1 r2 : List Char) (hs : PlainStr s)
    (ht : PlainStr t) (h : jsonStringL s ++ r1 = jsonStringL t ++ r2) :
    s = t ∧ r1 = r2 := by
  rw [jsonStringL_plain s hs, jsonStringL_plain t ht] at h
  simp only [List.cons_append, List.append_assoc, List.cons.injEq] at h
  obtain ⟨he, hr⟩ := quoted_run_det s.data t.data r1 r2
    (fun c hc => (hs c hc).1) (fun c hc => (ht c hc).1) (by simpa using h)
  exact ⟨String.ext he, hr⟩

/-- Prefix determinism of JSON array tails. -/
theorem sepItems_det (xs : List String) : ∀ (ys : List String) (r1 r2 : List Char),
    PlainStrs xs → PlainStrs ys →
    sepItems xs ++ r1 = sepItems ys ++ r2 → xs = ys ∧ r1 = r2 := by
  induction xs with
  | nil =>
      intro ys r1 r2 _ hy h
      cases ys with
      | nil => simpa using h
      | cons y ys' => simp [sepItems] at h
  | cons x xs' ih =>
      intro ys r1 r2 hx hy h
      cases ys with
      | nil => simp [sepItems] at h
      | cons y ys' =>
          simp only [sepItems, List.cons_append, List.cons.injEq, List.append_assoc] at h
          obtain ⟨he, hr⟩ := jsonStringL_det x y _ _ (hx x (by simp)) (hy y (by simp)) h.2
          obtain ⟨he', hr'⟩ := ih ys' r1 r2 (fun s hs => hx s (by simp [hs]))
            (fun s hs => hy s (by simp [hs])) hr
          exact ⟨by rw [he, he'], hr'⟩

/-- Prefix determinism of JSON array bodies. -/
theorem jsonItemsL_det (xs ys : List String) (r1 r2 : List Char)
    (hx : PlainStrs xs) (hy : PlainStrs ys)
    (h : jsonItemsL xs ++ r1 = jsonItemsL ys ++ r2) : xs = ys ∧ r1 = r2 := by
  cases xs with
  | nil =>
      cases ys with
      | nil => simpa [jsonItemsL] using h
      | cons y ys' =>
          rw [jsonItemsL, jsonItemsL, jsonStringL_plain y (hy y (by simp))] at h
          simp at h
  | cons x xs' =>
      cases ys with
      | nil =>
          rw [jsonItemsL, jsonItemsL, jsonStringL_plain x (hx x (by simp))] at h
          simp at h
      | cons y ys' =>
          rw [jsonItemsL, jsonItemsL, List.append_assoc, List.append_assoc] at h
          obtain ⟨he, hr⟩ := jsonStringL_det x y _ _ (hx x (by simp)) (hy y (by simp)) h
          obtain ⟨he', hr'⟩ := sepItems_det xs' ys' r1 r2
            (fun s hs => hx s (by simp [hs])) (fun s hs => hy s (by simp [hs])) hr
          exact ⟨by rw [he, he'], hr'⟩

/-- Prefix determinism of JSON string arrays. -/
theorem jsonStrListL_det (xs ys : List String) (r1 r2 : List Char)
    (hx : PlainStrs xs) (hy : PlainStrs ys)
    (h : jsonStrListL xs ++ r1 = jsonStrListL ys ++ r2) : xs = ys ∧ r1 = r2 := by
  rw [jsonStrListL, jsonStrListL] at h
  simp only [List.cons_append, List.cons.injEq, true_and] at h
  exact jsonItemsL_det xs ys r1 r2 hx hy h

/-- Prefix determinism of JSON booleans. -/
theorem jsonBoolL_det (b1 b2 : Bool) (r1 r2 : List Char)
    (h : jsonBoolL b1 ++ r1 = jsonBoolL b2 ++ r2) : b1 = b2 ∧ r1 = r2 := by
  cases b1 <;> cases b2 <;> simp_all [jsonBoolL]

/-- Decimal value of a digit run. -/
def dsVal (ds : List Char) : Nat :=
  ds.foldl (fun a c => a * 10 + (c.toNat - 48)) 0

theorem dsVal_append_digit (ds : List Char) (c : Char) :
    dsVal (ds ++ [c]) = dsVal ds * 10 + (c.toNat - 48) := by
  unfold dsVal
  rw [List.foldl_append]
  rfl

/-- Digit characters round-trip through `Char.ofNat`. -/
theorem digit_char_spec : ∀ m, m < 10 →
    (Char.ofNat (48 + m)).toNat = 48 + m ∧ (Char.ofNat (48 + m)).isDigit = true := by
  decide

/-- `natLitGo` produces a non-empty digit run with the right value. -/
theorem natLitGo_spec (fuel : Nat) : ∀ (n : Nat) (acc : List Char), n < fuel →
    ∃ ds, natLitGo fuel n acc = ds ++ acc ∧ ds ≠ [] ∧
      (∀ c ∈ ds, c.isDigit = true) ∧ dsVal ds = n := by
  induction fuel with
  | zero => intro n acc h; omega
  | succ fuel ih =>
      intro n acc h
      rw [natLitGo]
      by_cases h10 : n < 10
      · rw [if_pos h10]
        refine ⟨[Char.ofNat (48 + n % 10)], rfl, by simp, ?_, ?_⟩
        · intro c hc
          rw [List.mem_singleton] at hc
          subst hc
          exact (digit_char_spec (n % 10) (Nat.mod_lt n (by omega))).2
        · show dsVal [Char.ofNat (48 + n % 10)] = n
          unfold dsVal
          simp [(digit_char_spec (n % 10) (Nat.mod_lt n (by omega))).1]
          omega
      · rw [if_neg h10]
        have hlt : n / 10 < fuel := by
          have : n / 10 < n := Nat.div_lt_self (by omega) (by omega)
          omega
        obtain ⟨ds, heq, hne, hdig, hval⟩ := ih (n / 10) (Char.ofNat (48 + n % 10) :: acc) hlt
        refine ⟨ds ++ [Char.ofNat (48 + n % 10)], ?_, by simp, ?_, ?_⟩
        · rw [heq, List.append_assoc]
          rfl
        · intro c hc
          rw [List.mem_append, List.mem_singleton] at hc
          rcases hc with hc | hc
          · exact hdig c hc
          · subst hc
            exact (digit_char_spec (n % 10) (Nat.mod_lt n (by omega))).2
        · rw [dsVal_append_digit, hval,
            (digit_char_spec (n % 10) (Nat.mod_lt n (by omega))).1]
          omega

/-- Prefix determinism of digit runs followed by non-digit characters. -/
theorem digit_run_det (a : List Char) : ∀ (b : List Char) (r1 r2 : List Char),
    (∀ c ∈ a, c.isDigit = true) → (∀ c ∈ b, c.isDigit = true) →
    (∀ c, r1.head? = some c → c.isDigit = false) →
    (∀ c, r2.head? = some c → c.isDigit = false) →
    a ++ r1 = b ++ r2 → a = b ∧ r1 = r2 := by
  induction a with
  | nil =>
      intro b r1 r2 _ hb hr1 _ h
      cases b with
      | nil => simpa using h
      | cons y ys =>
          simp only [List.nil_append, List.cons_append] at h
          have := hr1 y (by rw [h]; rfl)
          have := hb y (by simp)
          simp_all
  | cons x xs ih =>
      intro b r1 r2 ha hb hr1 hr2 h
      cases b with
      | nil =>
          simp only [List.cons_append, List.nil_append] at h
          have := hr2 x (by rw [← h]; rfl)
          have := ha x (by simp)
          simp_all
      | cons y ys =>
          simp only [List.cons_append, List.cons.injEq] at h
          obtain ⟨he, hr⟩ := ih ys r1 r2 (fun c hc => ha c (by simp [hc]))
            (fun c hc => hb c (by simp [hc])) hr1 hr2 h.2
          exact ⟨by rw [h.1, he], hr⟩

/-- Prefix determinism of decimal renderings followed by non-digits. -/
theorem natLitL_det (m n : Nat) (r1 r2 : List Char)
    (hr1 : ∀ c, r1.head? = some c → c.isDigit = false)
    (hr2 : ∀ c, r2.head? = some c → c.isDigit = false)
    (h : natLitL m ++ r1 = natLitL n ++ r2) : m = n ∧ r1 = r2 := by
  obtain ⟨dm, heqm, -, hdigm, hvalm⟩ := natLitGo_spec (m + 1) m [] (by omega)
  obtain ⟨dn, heqn, -, hdign, hvaln⟩ := natLitGo_spec (n + 1) n [] (by omega)
  rw [natLitL, natLitL, heqm, heqn, List.append_nil, List.append_nil] at h
  obtain ⟨he, hr⟩ := digit_run_det dm dn r1 r2 hdigm hdign hr1 hr2 h
  subst he
  rw [hvalm] at hvaln
  exact ⟨hvaln, hr⟩

set_option maxRecDepth 8192 in
/-- The canonical JSON rendering is injective on plain canonical
dictionaries. -/
theorem canonicalJsonL_inj (d1 d2 : CanonicalDict) (h1 : PlainDict d1)
    (h2 : PlainDict d2) (h : canonicalJsonL d1 = canonicalJsonL d2) : d1 = d2 := by
  obtain ⟨p1r, p1m, p1c, p1e, p1o, p1cc, p1op, p1l⟩ := h1
  obtain ⟨p2r, p2m, p2c, p2e, p2o, p2cc, p2op, p2l⟩ := h2
  unfold canonicalJsonL at h
  simp only [List.append_assoc] at h
  replace h := List.append_cancel_left h
  obtain ⟨hcalls, h⟩ := jsonStrListL_det _ _ _ _ p1c p2c h
  replace h := List.append_cancel_left h
  obtain ⟨hcc, h⟩ := jsonStrListL_det _ _ _ _ p1cc p2cc h
  replace h := List.append_cancel_left h
  obtain ⟨hee, h⟩ := jsonStrListL_det _ _ _ _ p1e p2e h
  replace h := List.append_cancel_left h
  obtain ⟨hbr, h⟩ := jsonBoolL_det _ _ _ _ h
  replace h := List.append_cancel_left h
  obtain ⟨hlo, h⟩ := jsonBoolL_det _ _ _ _ h
  replace h := List.append_cancel_left h
  obtain ⟨hre, h⟩ := jsonBoolL_det _ _ _ _ h
  replace h := List.append_cancel_left h
  obtain ⟨hlit, h⟩ := jsonStrListL_det _ _ _ _ p1l p2l h
  replace h := List.append_cancel_left h
  obtain ⟨hmax, h⟩ := natLitL_det _ _ _ _
    (fun c hc => by
      rw [show ((",\"mutations\":".data : List Char) ++
        (jsonStrListL d1.mutations ++ (",\"old_references\":".data ++
          (jsonStrListL d1.old_references ++ (",\"operators\":".data ++
            (jsonStrListL d1.operators ++ (",\"reads\":".data ++
              (jsonStrListL d1.reads ++ (",\"return_count\":".data ++
                (natLitL d1.return_count ++ "\x7d".data)))))))))).head? = some ','
        from rfl] at hc
      cases hc
      decide)
    (fun c hc => by
      rw [show ((",\"mutations\":".data : List Char) ++
        (jsonStrListL d2.mutations ++ (",\"old_references\":".data ++
          (jsonStrListL d2.old_references ++ (",\"operators\":".data ++
            (jsonStrListL d2.operators ++ (",\"reads\":".data ++
              (jsonStrListL d2.reads ++ (",\"return_count\":".data ++
                (natLitL d2.return_count ++ "\x7d".data)))))))))).head? = some ','
        from rfl] at hc
      cases hc
      decide) h
  replace h := List.append_cancel_left h
  obtain ⟨hmut, h⟩ := jsonStrListL_det _ _ _ _ p1m p2m h
  replace h := List.append_cancel_left h
  obtain ⟨hold, h⟩ := jsonStrListL_det _ _ _ _ p1o p2o h
  replace h := List.append_cancel_left h
  obtain ⟨hops, h⟩ := jsonStrListL_det _ _ _ _ p1op p2op h
  replace h := List.append_cancel_left h
  obtain ⟨hreads, h⟩ := jsonStrListL_det _ _ _ _ p1r p2r h
  replace h := List.append_cancel_left h
  obtain ⟨hrc, -⟩ := natLitL_det _ _ _ _
    (fun c hc => by
      rw [show (("\x7d".data : List Char)).head? = some '\x7d' from rfl] at hc
      cases hc
      decide)
    (fun c hc => by
      rw [show (("\x7d".data : List Char)).head? = some '\x7d' from rfl] at hc
      cases hc
      decide) h
  cases d1
  cases d2
  simp_all

theorem mem_insertSorted {x y : String} {l : List String}
    (h : x ∈ insertSorted y l) : x = y ∨ x ∈ l := by
  induction l with
  | nil =>
      rw [insertSorted] at h
      exact Or.inl (List.mem_singleton.mp h)
  | cons z zs ih =>
      rw [insertSorted] at h
      split at h
      · rcases List.mem_cons.mp h with hz | hrest
        · exact Or.inr (by simp [hz])
        · rcases ih hrest with he | hm
          · exact Or.inl he
          · exact Or.inr (by simp [hm])
      · simp at h
        rcases h with he | hm | hm
        · exact Or.inl he
        · exact Or.inr (by simp [hm])
        · exact Or.inr (by simp [hm])

theorem mem_pySorted {x : String} {l : List String} (h : x ∈ pySorted l) : x ∈ l := by
  induction l with
  | nil =>
      rw [pySorted] at h
      exact absurd h (List.not_mem_nil x)
  | cons z zs ih =>
      rw [pySorted] at h
      rcases mem_insertSorted h with he | hm
      · simp [he]
      · simp [ih hm]

theorem plainStrs_pySorted {l : List String} (h : PlainStrs l) :
    PlainStrs (pySorted l) :=
  fun s hs => h s (mem_pySorted hs)

/-- Sorting preserves plainness field by field. -/
theorem plainDict_of_plainFP (fp : BehavioralFingerprint) (h : PlainFP fp) :
    PlainDict (to_canonical_dict fp) := by
  obtain ⟨hr, hm, hc, he, ho, hcc, hop, hl⟩ := h
  exact ⟨plainStrs_pySorted hr, plainStrs_pySorted hm, plainStrs_pySorted hc,
    plainStrs_pySorted he, plainStrs_pySorted ho, plainStrs_pySorted hcc,
    plainStrs_pySorted hop, plainStrs_pySorted hl⟩

/-- C1 (amended) — Drift detectability up to canonicalization: if two
fingerprints (over printable-ASCII path and literal strings without quote
or backslash) differ in any extractable attribute after the canonical
projection — i.e. their canonical dictionaries differ, which compares the
set-valued fields as sets and the `operators`/`literals` sequences as
sorted sequences — then the canonical JSON strings fed to the fingerprint
hash of `compute_intent_hash` differ, so the combined hash changes unless
SHA-256 itself collides on them. -/
theorem drift_detectability (f1 f2 : BehavioralFingerprint)
    (h1 : PlainFP f1) (h2 : PlainFP f2)
    (hne : to_canonical_dict f1 ≠ to_canonical_dict f2) :
    fingerprintJson f1 ≠ fingerprintJson f2 := by
  intro hj
  apply hne
  apply canonicalJsonL_inj _ _ (plainDict_of_plainFP f1 h1) (plainDict_of_plainFP f2 h2)
  exact congrArg String.data hj

/-- Witness for `drift_detectability` at two concrete fingerprints that
differ in the `reads` set. -/
theorem drift_detectability_witness :
    (let f1 : BehavioralFingerprint := { reads := ["acct.bal"] }
     let f2 : BehavioralFingerprint := { reads := ["acct.own"] }
     PlainFP f1 ∧ PlainFP f2 ∧ to_canonical_dict f1 ≠ to_canonical_dict f2 ∧
       fingerprintJson f1 ≠ fingerprintJson f2) := by
  intro f1 f2
  exact ⟨by decide, by decide, by decide,
    drift_detectability f1 f2 (by decide) (by decide) (by decide)⟩

/-- `TokenType` from `covenant/lexer/tokens.py`. -/
inductive TokenType where
  | INDENT | DEDENT | NEWLINE | EOF
  | STRING | INTEGER | FLOAT | TRUE | FALSE
  | IDENTIFIER | DOT | COMMA | COLON | ARROW | LPAREN | RPAREN | LBRACKET | RBRACKET
  | EQUALS | NOT_EQUALS | LESS_THAN | LESS_EQUAL | GREATER_THAN | GREATER_EQUAL
  | PLUS | MINUS | STAR | SLASH | ASSIGN
  | INTENT | SCOPE | RISK | REQUIRES | CONTRACT | PRECONDITION | POSTCONDITION
  | EFFECTS | BODY | ON_FAILURE
  | MODIFIES | READS | EMITS | TOUCHES_NOTHING_ELSE
  | RETURN | EMIT | IF | ELSE | FOR | IN | WHILE | AND | OR | NOT | HAS
  | TYPE | FIELDS | FLOW_CONSTRAINTS | NEVER_FLOWS_TO | REQUIRES_CONTEXT
  | SHARED | ACCESS | ISOLATION | AUDIT
  | PERMISSIONS | GRANTS | DENIES | ESCALATION
  | LOW | MEDIUM | HIGH | CRITICAL
  | OLD | COMMENT
  | AUDIT_QUERY | SHOW | ALL | WHERE | SINCE
  deriving DecidableEq

/-- `Token` from `covenant/lexer/tokens.py`. -/
structure Token where
  type : TokenType
  value : String
  line : Nat
  column : Nat
  file : String
  deriving DecidableEq

/-- The `KEYWORDS` table from `covenant/lexer/tokens.py`. -/
def KEYWORDS : List (String × TokenType) :=
  [("intent", .INTENT), ("scope", .SCOPE), ("risk", .RISK), ("requires", .REQUIRES),
   ("contract", .CONTRACT), ("precondition", .PRECONDITION),
   ("postcondition", .POSTCONDITION), ("effects", .EFFECTS), ("body", .BODY),
   ("on_failure", .ON_FAILURE), ("modifies", .MODIFIES), ("reads", .READS),
   ("emits", .EMITS), ("touches_nothing_else", .TOUCHES_NOTHING_ELSE),
   ("return", .RETURN), ("emit", .EMIT), ("if", .IF), ("else", .ELSE),
   ("for", .FOR), ("in", .IN), ("while", .WHILE), ("and", .AND), ("or", .OR),
   ("not", .NOT), ("has", .HAS), ("type", .TYPE), ("fields", .FIELDS),
   ("flow_constraints", .FLOW_CONSTRAINTS), ("never_flows_to", .NEVER_FLOWS_TO),
   ("requires_context", .REQUIRES_CONTEXT), ("shared", .SHARED),
   ("access", .ACCESS), ("isolation", .ISOLATION), ("audit", .AUDIT),
   ("permissions", .PERMISSIONS), ("grants", .GRANTS), ("denies", .DENIES),
   ("escalation", .ESCALATION), ("low", .LOW), ("medium", .MEDIUM),
   ("high", .HIGH), ("critical", .CRITICAL), ("old", .OLD), ("true", .TRUE),
   ("false", .FALSE), ("show", .SHOW), ("all", .ALL), ("where", .WHERE),
   ("since", .SINCE)]

/-- `KEYWORDS.get(word, TokenType.IDENTIFIER)`. -/
def keywordLookup (word : String) : TokenType :=
  (List.lookup word KEYWORDS).getD .IDENTIFIER

/-- The mutable scanner state of `Lexer` (`pos`, `line`, `column`, `tokens`,
`indent_stack`; the head of `indentStack` is Python's `stack[-1]`). -/
structure LexState where
  pos : Nat
  line : Nat
  column : Nat
  tokens : List Token
  indentStack : List Nat
  deriving DecidableEq

/-- Outcome of a lexer step: success, a located `LexerError`, an uncaught
Python `IndexError`, or fuel exhaustion of the model (never reached by the
fuel supplied in `tokenize`). -/
inductive LexRes (α : Type) where
  | ok (a : α)
  | err (msg : String) (line column : Nat) (file : String)
  | indexError
  | fuelOut
  deriving DecidableEq

def LexRes.bind {α β : Type} : LexRes α → (α → LexRes β) → LexRes β
  | ok a, f => f a
  | err m l c fl, _ => err m l c fl
  | indexError, _ => indexError
  | fuelOut, _ => fuelOut

/-- `Lexer._at_end`. -/
def atEnd (src : List Char) (st : LexState) : Bool :=
  src.length ≤ st.pos

/-- `Lexer._peek` (the out-of-range case is an `IndexError` at call sites
that do not guard it). -/
def peek (src : List Char) (st : LexState) : Option Char :=
  src.get? st.pos

/-- `Lexer._peek_ahead`. -/
def peekAhead (src : List Char) (st : LexState) (off : Nat) : Option Char :=
  src.get? (st.pos + off)

/-- `Lexer._advance` (all call sites guard against the end of input). -/
def advance (src : List Char) (st : LexState) : LexState :=
  match src.get? st.pos with
  | some c =>
      if c = '\n' then { st with pos := st.pos + 1, line := st.line + 1, column := 1 }
      else { st with pos := st.pos + 1, column := st.column + 1 }
  | none => { st with pos := st.pos + 1 }

/-- `Lexer._make_token` followed by `tokens.append`. -/
def pushTok (file : String) (st : LexState) (tt : TokenType) (v : String) : LexState :=
  { st with tokens := st.tokens ++ [⟨tt, v, st.line, st.column, file⟩] }

/-- `Lexer._skip_spaces`. -/
def skipSpaces (src : List Char) : Nat → LexState → LexState
  | 0, st => st
  | fuel + 1, st =>
      match peek src st with
      | some ' ' => skipSpaces src fuel (advance src st)
      | _ => st

/-- `Lexer._skip_comment`. -/
def skipComment (src : List Char) : Nat → LexState → LexState
  | 0, st => st
  | fuel + 1, st =>
      match peek src st with
      | some c => if c = '\n' then st else skipComment src fuel (advance src st)
      | none => st

/-- The character loop of `Lexer._scan_string`; `sl`/`sc` are the opening
quote location.  An input ending in a backslash inside the string makes the
unguarded `self._peek()` raise `IndexError`. -/
def scanStringGo (src : List Char) (file : String) (sl sc : Nat) :
    Nat → LexState → List Char → LexRes LexState
  | 0, _, _ => .fuelOut
  | fuel + 1, st, chars =>
      match peek src st with
      | none => .err "Unterminated string literal" sl sc file
      | some c =>
          if c = '"' then
            let st := advance src st
            .ok { st with tokens := st.tokens ++ [⟨.STRING, String.mk chars, sl, sc, file⟩] }
          else if c = '\n' then .err "Unterminated string literal" sl sc file
          else if c = '\\' ∧ ¬ atEnd src st then
            let st := advance src st
            match peek src st with
            | none => .indexError
            | some e =>
                let mapped := if e = 'n' then '\n' else if e = 't' then '\t'
                  else if e = '\\' then '\\' else if e = '"' then '"' else e
                scanStringGo src file sl sc fuel (advance src st) (chars ++ [mapped])
          else scanStringGo src file sl sc fuel (advance src st) (chars ++ [c])

/-- `Lexer._scan_string`. -/
def scanString (src : List Char) (file : String) (st : LexState) : LexRes LexState :=
  let sl := st.line
  let sc := st.column
  scanStringGo src file sl sc (src.length + 1) (advance src st) []

/-- The digit-and-dot loop of `Lexer._scan_number`. -/
def scanNumberGo (src : List Char) : Nat → LexState → List Char → LexState × List Char
  | 0, st, chars => (st, chars)
  | fuel + 1, st, chars =>
      match peek src st with
      | some c =>
          if c.isDigit ∨ c = '.' then scanNumberGo src fuel (advance src st) (chars ++ [c])
          else (st, chars)
      | none => (st, chars)

/-- `Lexer._scan_number`. -/
def scanNumber (src : List Char) (file : String) (st : LexState) : LexState :=
  let sc := st.column
  let (st', chars) := scanNumberGo src (src.length + 1) st []
  let tt := if '.' ∈ chars then TokenType.FLOAT else TokenType.INTEGER
  { st' with tokens := st'.tokens ++ [⟨tt, String.mk chars, st'.line, sc, file⟩] }

/-- The identifier loop of `Lexer._scan_identifier`. -/
def scanIdentGo (src : List Char) : Nat → LexState → List Char → LexState × List Char
  | 0, st, chars => (st, chars)
  | fuel + 1, st, chars =>
      match peek src st with
      | some c =>
          if c.isAlphanum ∨ c = '_' then scanIdentGo src fuel (advance src st) (chars ++ [c])
          else (st, chars)
      | none => (st, chars)

/-- `Lexer._scan_identifier`. -/
def scanIdentifier (src : List Char) (file : String) (st : LexState) : LexState :=
  let sc := st.column
  let (st', chars) := scanIdentGo src (src.length + 1) st []
  let word := String.mk chars
  { st' with tokens := st'.tokens ++ [⟨keywordLookup word, word, st'.line, sc, file⟩] }

/-- `Lexer._scan_token`. -/
def scanToken (src : List Char) (file : String) (st : LexState) : LexRes LexState :=
  match peek src st with
  | none => .indexError
  | some ch =>
      if ch = '"' then scanString src file st
      else if ch.isDigit then .ok (scanNumber src file st)
      else if ch = '-' ∧ peekAhead src st 1 = some '>' then
        .ok (advance src (advance src (pushTok file st .ARROW "->")))
      else if ch = '=' ∧ peekAhead src st 1 = some '=' then
        .ok (advance src (advance src (pushTok file st .EQUALS "==")))
      else if ch = '!' ∧ peekAhead src st 1 = some '=' then
        .ok (advance src (advance src (pushTok file st .NOT_EQUALS "!=")))
      else if ch = '<' ∧ peekAhead src st 1 = some '=' then
        .ok (advance src (advance src (pushTok file st .LESS_EQUAL "<=")))
      else if ch = '>' ∧ peekAhead src st 1 = some '=' then
        .ok (advance src (advance src (pushTok file st .GREATER_EQUAL ">=")))
      else if ch = '(' then .ok (advance src (pushTok file st .LPAREN "("))
      else if ch = ')' then .ok (advance src (pushTok file st .RPAREN ")"))
      else if ch = '[' then .ok (advance src (pushTok file st .LBRACKET "["))
      else if ch = ']' then .ok (advance src (pushTok file st .RBRACKET "]"))
      else if ch = ',' then .ok (advance src (pushTok file st .COMMA ","))
      else if ch = ':' then .ok (advance src (pushTok file st .COLON ":"))
      else if ch = '.' then .ok (advance src (pushTok file st .DOT "."))
      else if ch = '+' then .ok (advance src (pushTok file st .PLUS "+"))
      else if ch = '-' then .ok (advance src (pushTok file st .MINUS "-"))
      else if ch = '*' then .ok (advance src (pushTok file st .STAR "*"))
      else if ch = '/' then .ok (advance src (pushTok file st .SLASH "/"))
      else if ch = '<' then .ok (advance src (pushTok file st .LESS_THAN "<"))
      else if ch = '>' then .ok (advance src (pushTok file st .GREATER_THAN ">"))
      else if ch = '=' then .ok (advance src (pushTok file st .ASSIGN "="))
      else if ch.isAlpha ∨ ch = '_' then .ok (scanIdentifier src file st)
      else .err ("Unexpected character: " ++ pyRepr (String.mk [ch])) st.line st.column file

/-- The leading-space measuring loop of `Lexer._scan_line`. -/
def countIndentGo (src : List Char) : Nat → LexState → Nat → LexState × Nat
  | 0, st, n => (st, n)
  | fuel + 1, st, n =>
      match peek src st with
      | some ' ' => countIndentGo src fuel (advance src st) (n + 1)
      | _ => (st, n)

/-- The DEDENT pop loop of `Lexer._scan_line`: pop while the top exceeds the
new indentation, emitting one DEDENT per pop.  The bottom entry `0` is never
popped since `indent ≥ 0`. -/
def popDedents (file : String) (line column indent : Nat) :
    List Nat → List Token → List Nat × List Token
  | [], toks => ([], toks)
  | top :: rest, toks =>
      if indent < top then
        popDedents file line column indent rest
          (toks ++ [⟨.DEDENT, "", line, column, file⟩])
      else (top :: rest, toks)

/-- The token loop of `Lexer._scan_line`. -/
def scanLineTokens (src : List Char) (file : String) : Nat → LexState → LexRes LexState
  | 0, _ => .fuelOut
  | fuel + 1, st =>
      match peek src st with
      | none => .ok st
      | some c =>
          if c = '\n' then .ok st
          else
            let st := skipSpaces src (src.length + 1) st
            match peek src st with
            | none => .ok st
            | some c2 =>
                if c2 = '\n' then .ok st
                else if c2 = '-' ∧ peekAhead src st 1 = some '-' then
                  .ok (skipComment src (src.length + 1) st)
                else (scanToken src file st).bind (scanLineTokens src file fuel)

/-- `Lexer._scan_line`. -/
def scanLine (src : List Char) (file : String) (st : LexState) : LexRes LexState :=
  let (st, indent) := countIndentGo src (src.length + 1) st 0
  -- blank line or end of input after spaces
  if atEnd src st then .ok st
  else if peek src st = some '\n' then .ok (advance src st)
  else if peek src st = some '-' ∧ peekAhead src st 1 = some '-' then
    let st := skipComment src (src.length + 1) st
    if ¬ atEnd src st ∧ peek src st = some '\n' then .ok (advance src st) else .ok st
  else if peek src st = some '\t' then
    .err "Tabs are not allowed — use 2-space indentation" st.line st.column file
  else if indent % 2 ≠ 0 then
    .err ("Indentation must be a multiple of 2 spaces, got " ++ toString indent)
      st.line st.column file
  else
    let current := st.indentStack.headD 0
    let step : LexRes LexState :=
      if current < indent then
        .ok (pushTok file { st with indentStack := indent :: st.indentStack } .INDENT "")
      else if indent < current then
        let (stack', toks') := popDedents file st.line st.column indent
          st.indentStack st.tokens
        if stack'.headD 0 ≠ indent then
          .err ("Dedent to level " ++ toString indent ++
            " does not match any outer indentation level") st.line st.column file
        else .ok { st with indentStack := stack', tokens := toks' }
      else .ok st
    step.bind fun st =>
      (scanLineTokens src file (src.length + 1) st).bind fun st =>
        if ¬ atEnd src st ∧ peek src st = some '\n' then
          .ok (advance src (pushTok file st .NEWLINE "\n"))
        else .ok st

/-- The main `while self.pos < len(self.source)` loop of `Lexer.tokenize`. -/
def lexLoop (src : List Char) (file : String) : Nat → LexState → LexRes LexState
  | 0, _ => .fuelOut
  | fuel + 1, st =>
      if src.length ≤ st.pos then .ok st
      else (scanLine src file st).bind (lexLoop src file fuel)

/-- The final DEDENT flush of `Lexer.tokenize` (`while len(stack) > 1`). -/
def finalDedents (file : String) (line column : Nat) :
    List Nat → List Token → List Token
  | [], toks => toks
  | [_], toks => toks
  | _ :: rest, toks =>
      finalDedents file line column rest (toks ++ [⟨.DEDENT, "", line, column, file⟩])

/-- `Lexer.tokenize`. -/
def tokenize (source : String) (filename : String) : LexRes (List Token) :=
  let src := source.data
  let st0 : LexState := ⟨0, 1, 1, [], [0]⟩
  (lexLoop src filename (src.length + 1) st0).bind fun st =>
    let toks := finalDedents filename st.line st.column st.indentStack st.tokens
    .ok (toks ++ [⟨.EOF, "", st.line, st.column, filename⟩])

example :
    tokenize "42" "t" = .ok [⟨.INTEGER, "42", 1, 1, "t"⟩, ⟨.EOF, "", 1, 3, "t"⟩] := by
  decide

example :
    (match tokenize "a\n  b\n    c\nd\n" "t" with
     | .ok ts => (ts.countP (fun t => t.type == .INDENT),
                  ts.countP (fun t => t.type == .DEDENT))
     | _ => (99, 99)) = (2, 2) := by
  decide

example :
    (match tokenize "ab cd ef" "t" with
     | .ok ts => (ts.filter (fun t => t.type == .IDENTIFIER)).map Token.column
     | _ => []) = [1, 4, 7] := by
  decide

example : tokenize "intent: \"Transfer funds\"\n" "t" = .ok
    [⟨.INTENT, "intent", 1, 1, "t"⟩, ⟨.COLON, ":", 1, 7, "t"⟩,
     ⟨.STRING, "Transfer funds", 1, 9, "t"⟩, ⟨.NEWLINE, "\n", 1, 25, "t"⟩,
     ⟨.EOF, "", 2, 1, "t"⟩] := by
  decide

/-- C6 — Lexer failure totality fails: on the two-character input `"\\`
(an opened string whose last character is a backslash), `_scan_string`
consumes the backslash and then calls the unguarded `self._peek()` past the
end of input, raising `IndexError` instead of a `LexerError`; the
`and not self._at_end()` conjunct sits before the advance and never guards
the lookup. -/
theorem lexer_string_backslash_eof_crash :
    tokenize "\"\\" "input.cov" = .indexError := by
  decide

/-- Number of tokens of a given type. -/
def countTok (tt : TokenType) (ts : List Token) : Nat :=
  ts.countP (fun t => t.type == tt)

/-- Every prefix has at least as many INDENTs as DEDENTs. -/
def PrefixBal (ts : List Token) : Prop :=
  ∀ p, p <+: ts → countTok .DEDENT p ≤ countTok .INDENT p

/-- The indentation invariant tying the emitted tokens to the indent
stack: prefix balance, `#INDENT − #DEDENT` equal to the stack height above
the bottom, and a never-popped bottom entry `0`. -/
def IndentBal (ts : List Token) (stack : List Nat) : Prop :=
  PrefixBal ts ∧ countTok .INDENT ts = countTok .DEDENT ts + (stack.length - 1) ∧
    stack ≠ [] ∧ stack.getLast? = some 0

/-- Shape of INTEGER/FLOAT tokens: a non-empty run of digits and dots
beginning with a digit, FLOAT exactly when a dot occurs, and the value is a
contiguous slice of the source. -/
def NumTok (src : List Char) (t : Token) : Prop :=
  t.type = .INTEGER ∨ t.type = .FLOAT →
    t.value.data ≠ [] ∧ (∀ c ∈ t.value.data, c.isDigit = true ∨ c = '.') ∧
    (∀ c, t.value.data.head? = some c → c.isDigit = true) ∧
    (t.type = .FLOAT ↔ '.' ∈ t.value.data) ∧ t.value.data <:+: src

/-- The full lexer invariant. -/
def LexInv (src : List Char) (st : LexState) : Prop :=
  IndentBal st.tokens st.indentStack ∧ ∀ t ∈ st.tokens, NumTok src t

theorem countTok_append (tt : TokenType) (a b : List Token) :
    countTok tt (a ++ b) = countTok tt a + countTok tt b := by
  unfold countTok
  exact List.countP_append _ _ _

theorem prefix_snoc {α : Type} (p l : List α) (a : α) (h : p <+: l ++ [a]) :
    p <+: l ∨ p = l ++ [a] := by
  rcases h with ⟨t, ht⟩
  rcases t.eq_nil_or_concat with rfl | ⟨ys, y, rfl⟩
  · right
    simpa using ht
  · left
    rw [List.concat_eq_append, ← List.append_assoc] at ht
    have hlen : (p ++ ys).length = l.length := by
      have h2 := congrArg List.length ht
      simp only [List.length_append, List.length_cons, List.length_nil] at h2
      simp only [List.length_append]
      omega
    exact ⟨ys, (List.append_inj ht (by simpa using hlen)).1⟩

/-- Appending a token that is neither INDENT nor DEDENT preserves the
indentation invariant. -/
theorem indentBal_append_other {ts : List Token} {stack : List Nat} {t : Token}
    (h : IndentBal ts stack) (h1 : t.type ≠ .INDENT) (h2 : t.type ≠ .DEDENT) :
    IndentBal (ts ++ [t]) stack := by
  obtain ⟨hpb, hdiff, hne, hlast⟩ := h
  have hI : countTok .INDENT [t] = 0 := by
    unfold countTok
    simp [h1]
  have hD : countTok .DEDENT [t] = 0 := by
    unfold countTok
    simp [h2]
  refine ⟨?_, ?_, hne, hlast⟩
  · intro p hp
    rcases prefix_snoc p ts t hp with hp' | rfl
    · exact hpb p hp'
    · rw [countTok_append, countTok_append, hI, hD]
      have := hpb ts (List.prefix_refl ts)
      omega
  · rw [countTok_append, countTok_append, hI, hD]
    omega

/-- Pushing a level and emitting INDENT preserves the invariant. -/
theorem indentBal_append_indent {ts : List Token} {stack : List Nat} {t : Token}
    {n : Nat} (h : IndentBal ts stack) (ht : t.type = .INDENT) :
    IndentBal (ts ++ [t]) (n :: stack) := by
  obtain ⟨hpb, hdiff, hne, hlast⟩ := h
  have hI : countTok .INDENT [t] = 1 := by
    unfold countTok
    simp [ht]
  have hD : countTok .DEDENT [t] = 0 := by
    unfold countTok
    simp [ht]
  refine ⟨?_, ?_, by simp, ?_⟩
  · intro p hp
    rcases prefix_snoc p ts t hp with hp' | rfl
    · exact hpb p hp'
    · rw [countTok_append, countTok_append, hI, hD]
      have := hpb ts (List.prefix_refl ts)
      omega
  · rw [countTok_append, countTok_append, hI, hD]
    cases stack with
    | nil => exact absurd rfl hne
    | cons a rest => simp at hdiff ⊢; omega
  · rw [List.getLast?_cons]
    cases stack with
    | nil => exact absurd rfl hne
    | cons a rest => simpa [List.getLast?_cons] using hlast

/-- Popping a level and emitting DEDENT preserves the invariant, provided
the popped entry is not the bottom one. -/
theorem indentBal_append_dedent {ts : List Token} {top : Nat} {stack : List Nat}
    {t : Token} (h : IndentBal ts (top :: stack)) (ht : t.type = .DEDENT)
    (hne : stack ≠ []) : IndentBal (ts ++ [t]) stack := by
  obtain ⟨hpb, hdiff, -, hlast⟩ := h
  have hI : countTok .INDENT [t] = 0 := by
    unfold countTok
    simp [ht]
  have hD : countTok .DEDENT [t] = 1 := by
    unfold countTok
    simp [ht]
  have hlen : stack.length ≥ 1 := by
    cases stack with
    | nil => exact absurd rfl hne
    | cons a rest => simp
  refine ⟨?_, ?_, hne, ?_⟩
  · intro p hp
    rcases prefix_snoc p ts t hp with hp' | rfl
    · exact hpb p hp'
    · rw [countTok_append, countTok_append, hI, hD]
      simp only [List.length_cons] at hdiff
      omega
  · rw [countTok_append, countTok_append, hI, hD]
    simp only [List.length_cons] at hdiff
    omega
  · rw [List.getLast?_cons] at hlast
    cases stack with
    | nil => exact absurd rfl hne
    | cons a rest => simpa [List.getLast?_cons] using hlast

theorem advance_tokens (src : List Char) (st : LexState) :
    (advance src st).tokens = st.tokens ∧ (advance src st).indentStack = st.indentStack := by
  unfold advance
  split
  · split <;> exact ⟨rfl, rfl⟩
  · exact ⟨rfl, rfl⟩

theorem skipSpaces_tokens (src : List Char) (fuel : Nat) : ∀ st : LexState,
    (skipSpaces src fuel st).tokens = st.tokens ∧
    (skipSpaces src fuel st).indentStack = st.indentStack := by
  induction fuel with
  | zero => intro st; exact ⟨rfl, rfl⟩
  | succ fuel ih =>
      intro st
      rw [skipSpaces]
      split
      · obtain ⟨h1, h2⟩ := ih (advance src st)
        obtain ⟨h3, h4⟩ := advance_tokens src st
        exact ⟨by rw [h1, h3], by rw [h2, h4]⟩
      · exact ⟨rfl, rfl⟩

theorem skipComment_tokens (src : List Char) (fuel : Nat) : ∀ st : LexState,
    (skipComment src fuel st).tokens = st.tokens ∧
    (skipComment src fuel st).indentStack = st.indentStack := by
  induction fuel with
  | zero => intro st; exact ⟨rfl, rfl⟩
  | succ fuel ih =>
      intro st
      rw [skipComment]
      split
      · split
        · exact ⟨rfl, rfl⟩
        · obtain ⟨h1, h2⟩ := ih (advance src st)
          obtain ⟨h3, h4⟩ := advance_tokens src st
          exact ⟨by rw [h1, h3], by rw [h2, h4]⟩
      · exact ⟨rfl, rfl⟩


theorem countIndentGo_tokens (src : List Char) (fuel : Nat) : ∀ (st : LexState) (n : Nat),
    (countIndentGo src fuel st n).1.tokens = st.tokens ∧
    (countIndentGo src fuel st n).1.indentStack = st.indentStack := by
  induction fuel with
  | zero => intro st n; exact ⟨rfl, rfl⟩
  | succ fuel ih =>
      intro st n
      rw [countIndentGo]
      split
      · obtain ⟨h1, h2⟩ := ih (advance src st) (n + 1)
        obtain ⟨h3, h4⟩ := advance_tokens src st
        exact ⟨by rw [h1, h3], by rw [h2, h4]⟩
      · exact ⟨rfl, rfl⟩

theorem advance_pos (src : List Char) (st : LexState) :
    (advance src st).pos = st.pos + 1 := by
  unfold advance
  split
  · split <;> rfl
  · rfl

/-- The predicate of the number loop, in `Bool` form. -/
def numPred (c : Char) : Bool := c.isDigit || c == '.'

theorem scanNumberGo_spec (src : List Char) (fuel : Nat) :
    ∀ (st : LexState) (chars : List Char), src.length - st.pos < fuel →
    (scanNumberGo src fuel st chars).2 = chars ++ (src.drop st.pos).takeWhile numPred ∧
    (scanNumberGo src fuel st chars).1.tokens = st.tokens ∧
    (scanNumberGo src fuel st chars).1.indentStack = st.indentStack := by
  induction fuel with
  | zero => intro st chars h; omega
  | succ fuel ih =>
      intro st chars h
      rw [scanNumberGo]
      cases hc : peek src st with
      | none =>
          have hdrop : src.drop st.pos = [] := by
            unfold peek at hc
            rw [List.drop_eq_nil_iff]
            rcases Nat.lt_or_ge st.pos src.length with hlt | hge
            · rw [List.get?_eq_getElem?, List.getElem?_eq_getElem hlt] at hc
              cases hc
            · exact hge
          simp [hdrop]
      | some c =>
          have hlt : st.pos < src.length := by
            unfold peek at hc
            by_contra hge
            rw [List.get?_eq_getElem?, List.getElem?_eq_none (by omega)] at hc
            cases hc
          have hget : src[st.pos] = c := by
            unfold peek at hc
            rw [List.get?_eq_getElem?, List.getElem?_eq_getElem hlt] at hc
            exact Option.some_inj.mp hc
          have hdrop : src.drop st.pos = c :: src.drop (st.pos + 1) := by
            rw [List.drop_eq_getElem_cons hlt, hget]
          dsimp only
          by_cases hp : (c.isDigit = true ∨ c = '.')
          · rw [if_pos hp]
            have hfuel : src.length - (advance src st).pos < fuel := by
              rw [advance_pos]
              omega
            obtain ⟨h1, h2, h3⟩ := ih (advance src st) (chars ++ [c]) hfuel
            obtain ⟨h4, h5⟩ := advance_tokens src st
            refine ⟨?_, by rw [h2, h4], by rw [h3, h5]⟩
            rw [h1, advance_pos, hdrop, List.takeWhile_cons_of_pos (by
              unfold numPred
              rcases hp with hd | hd <;> simp [hd])]
            simp
          · rw [if_neg hp]
            refine ⟨?_, rfl, rfl⟩
            rw [hdrop, List.takeWhile_cons_of_neg (by
              unfold numPred
              simp only [Bool.or_eq_true, beq_iff_eq]
              exact hp)]
            simp

theorem scanIdentGo_tokens (src : List Char) (fuel : Nat) :
    ∀ (st : LexState) (chars : List Char),
    (scanIdentGo src fuel st chars).1.tokens = st.tokens ∧
    (scanIdentGo src fuel st chars).1.indentStack = st.indentStack := by
  induction fuel with
  | zero => intro st chars; exact ⟨rfl, rfl⟩
  | succ fuel ih =>
      intro st chars
      rw [scanIdentGo]
      split
      · split
        · obtain ⟨h1, h2⟩ := ih (advance src st) _
          obtain ⟨h3, h4⟩ := advance_tokens src st
          exact ⟨by rw [h1, h3], by rw [h2, h4]⟩
        · exact ⟨rfl, rfl⟩
      · exact ⟨rfl, rfl⟩

/-- A scanning step that leaves the indent stack alone and appends only
non-INDENT/DEDENT tokens of good shape. -/
def StepOK (src : List Char) (st st' : LexState) : Prop :=
  st'.indentStack = st.indentStack ∧ ∃ Δ, st'.tokens = st.tokens ++ Δ ∧
    ∀ t ∈ Δ, (t.type ≠ .INDENT ∧ t.type ≠ .DEDENT) ∧ NumTok src t

theorem stepOK_refl (src : List Char) (st : LexState) : StepOK src st st :=
  ⟨rfl, [], by simp, by simp⟩

theorem stepOK_of_eq (src : List Char) {st st' : LexState}
    (h1 : st'.tokens = st.tokens) (h2 : st'.indentStack = st.indentStack) :
    StepOK src st st' :=
  ⟨h2, [], by simp [h1], by simp⟩

theorem stepOK_trans {src : List Char} {a b c : LexState} (h1 : StepOK src a b)
    (h2 : StepOK src b c) : StepOK src a c := by
  obtain ⟨hs1, d1, ht1, hg1⟩ := h1
  obtain ⟨hs2, d2, ht2, hg2⟩ := h2
  refine ⟨by rw [hs2, hs1], d1 ++ d2, by rw [ht2, ht1, List.append_assoc], ?_⟩
  intro t ht
  rcases List.mem_append.mp ht with h | h
  · exact hg1 t h
  · exact hg2 t h

/-- A token that is not a number token trivially satisfies `NumTok`. -/
theorem numTok_trivial {src : List Char} {t : Token} (h1 : t.type ≠ .INTEGER)
    (h2 : t.type ≠ .FLOAT) : NumTok src t := by
  intro h
  rcases h with h | h
  · exact absurd h h1
  · exact absurd h h2

/-- Appending non-INDENT/DEDENT tokens preserves the indent invariant. -/
theorem indentBal_append_others {ts : List Token} {stack : List Nat} :
    ∀ Δ : List Token, (∀ t ∈ Δ, t.type ≠ .INDENT ∧ t.type ≠ .DEDENT) →
    IndentBal ts stack → IndentBal (ts ++ Δ) stack := by
  intro Δ
  induction Δ generalizing ts with
  | nil => intro _ h; simpa using h
  | cons t Δ' ih =>
      intro hΔ h
      have h1 := indentBal_append_other h (hΔ t (by simp)).1 (hΔ t (by simp)).2
      have := @ih (ts ++ [t]) (fun u hu => hΔ u (by simp [hu])) h1
      simpa using this

/-- A `StepOK` step preserves the full lexer invariant. -/
theorem lexInv_of_stepOK {src : List Char} {st st' : LexState}
    (hinv : LexInv src st) (hstep : StepOK src st st') : LexInv src st' := by
  obtain ⟨hbal, hnum⟩ := hinv
  obtain ⟨hs, Δ, ht, hg⟩ := hstep
  constructor
  · rw [ht, hs]
    exact indentBal_append_others Δ (fun t h => (hg t h).1) hbal
  · rw [ht]
    intro t hmem
    rcases List.mem_append.mp hmem with h | h
    · exact hnum t h
    · exact (hg t h).2

/-- `scanNumber` appends exactly one well-shaped number token. -/
theorem scanNumber_stepOK (src : List Char) (file : String) (st : LexState) (c : Char)
    (hpeek : peek src st = some c) (hdig : c.isDigit = true) :
    StepOK src st (scanNumber src file st) := by
  obtain ⟨h1, h2, h3⟩ := scanNumberGo_spec src (src.length + 1) st [] (by omega)
  have hlt : st.pos < src.length := by
    unfold peek at hpeek
    by_contra hge
    rw [List.get?_eq_getElem?, List.getElem?_eq_none (by omega)] at hpeek
    cases hpeek
  have hget : src[st.pos] = c := by
    unfold peek at hpeek
    rw [List.get?_eq_getElem?, List.getElem?_eq_getElem hlt] at hpeek
    exact Option.some_inj.mp hpeek
  have hdrop : src.drop st.pos = c :: src.drop (st.pos + 1) := by
    rw [List.drop_eq_getElem_cons hlt, hget]
  rcases hsn : scanNumberGo src (src.length + 1) st [] with ⟨st2, chars⟩
  rw [hsn] at h1 h2 h3
  simp only [List.nil_append] at h1 h2 h3
  have hchars : chars = c :: (src.drop (st.pos + 1)).takeWhile numPred := by
    rw [h1, hdrop, List.takeWhile_cons_of_pos (by simp [numPred, hdig])]
  unfold scanNumber
  rw [hsn]
  dsimp only
  refine ⟨h3, [⟨if '.' ∈ chars then TokenType.FLOAT else TokenType.INTEGER,
      String.mk chars, st2.line, st.column, file⟩], by rw [h2], ?_⟩
  intro t htm
  rw [List.mem_singleton] at htm
  subst htm
  refine ⟨⟨by split <;> simp, by split <;> simp⟩, ?_⟩
  intro _
  refine ⟨?_, ?_, ?_, ?_, ?_⟩
  · show chars ≠ []
    rw [hchars]
    simp
  · intro ch hch
    have hch' : ch ∈ chars := hch
    rw [hchars] at hch'
    rcases List.mem_cons.mp hch' with h | h
    · subst h
      exact Or.inl hdig
    · simpa [numPred] using List.mem_takeWhile_imp h
  · intro ch hch
    have hch' : chars.head? = some ch := hch
    rw [hchars, List.head?_cons] at hch'
    rw [← Option.some_inj.mp hch']
    exact hdig
  · show (_ = TokenType.FLOAT ↔ '.' ∈ chars)
    by_cases hdot : '.' ∈ chars
    · simp [hdot]
    · simp [hdot]
  · show chars <:+: src
    rw [h1]
    refine ⟨src.take st.pos, (src.drop st.pos).dropWhile numPred, ?_⟩
    rw [List.append_assoc, List.takeWhile_append_dropWhile, List.take_append_drop]

/-- A looked-up token value is one of the values stored in the table. -/
theorem lookup_snd_mem (w : String) :
    ∀ (l : List (String × TokenType)) (tt : TokenType),
    List.lookup w l = some tt → tt ∈ l.map Prod.snd := by
  intro l
  induction l with
  | nil => intro tt h; cases h
  | cons p rest ih =>
      intro tt h
      obtain ⟨k, v⟩ := p
      simp only [List.lookup] at h
      split at h
      · rw [List.map_cons]
        exact Option.some_inj.mp h ▸ List.mem_cons_self _ _
      · exact List.mem_cons_of_mem _ (ih tt h)

/-- Keyword lookup never yields a number or indentation token type. -/
theorem keywordLookup_good (w : String) :
    keywordLookup w ≠ .INTEGER ∧ keywordLookup w ≠ .FLOAT ∧
    keywordLookup w ≠ .INDENT ∧ keywordLookup w ≠ .DEDENT := by
  unfold keywordLookup
  cases hlk : List.lookup w KEYWORDS with
  | none => simp
  | some tt =>
      have hm := lookup_snd_mem w KEYWORDS tt hlk
      have hall : ∀ x ∈ KEYWORDS.map Prod.snd, x ≠ TokenType.INTEGER ∧
          x ≠ TokenType.FLOAT ∧ x ≠ TokenType.INDENT ∧ x ≠ TokenType.DEDENT := by decide
      simpa using hall tt hm

/-- `scanIdentifier` appends exactly one keyword or identifier token. -/
theorem scanIdentifier_stepOK (src : List Char) (file : String) (st : LexState) :
    StepOK src st (scanIdentifier src file st) := by
  obtain ⟨h2, h3⟩ := scanIdentGo_tokens src (src.length + 1) st []
  rcases hsn : scanIdentGo src (src.length + 1) st [] with ⟨st2, chars⟩
  rw [hsn] at h2 h3
  unfold scanIdentifier
  rw [hsn]
  dsimp only
  obtain ⟨g1, g2, g3, g4⟩ := keywordLookup_good (String.mk chars)
  refine ⟨h3, [⟨keywordLookup (String.mk chars), String.mk chars, st2.line, st.column, file⟩],
    by rw [h2], ?_⟩
  intro t htm
  rw [List.mem_singleton] at htm
  subst htm
  exact ⟨⟨g3, g4⟩, numTok_trivial g1 g2⟩

/-- The string-scanning loop only ever appends a single STRING token. -/
theorem scanStringGo_stepOK (src : List Char) (file : String) (sl sc : Nat) :
    ∀ (fuel : Nat) (st : LexState) (chars : List Char) (st' : LexState),
    scanStringGo src file sl sc fuel st chars = .ok st' → StepOK src st st' := by
  intro fuel
  induction fuel with
  | zero => intro st chars st' h; cases h
  | succ n ih =>
      intro st chars st' h
      rw [scanStringGo] at h
      cases hp : peek src st with
      | none => rw [hp] at h; cases h
      | some c =>
          rw [hp] at h
          dsimp only at h
          split at h
          · injection h with h
            subst h
            have ha := advance_tokens src st
            refine ⟨ha.2, [⟨.STRING, String.mk chars, sl, sc, file⟩], by rw [ha.1], ?_⟩
            intro t htm
            rw [List.mem_singleton] at htm
            subst htm
            exact ⟨⟨by simp, by simp⟩, numTok_trivial (by simp) (by simp)⟩
          · split at h
            · cases h
            · split at h
              · cases hp2 : peek src (advance src st) with
                | none => rw [hp2] at h; cases h
                | some e =>
                    rw [hp2] at h
                    dsimp only at h
                    have hstep := ih _ _ _ h
                    have ha := advance_tokens src st
                    have hb := advance_tokens src (advance src st)
                    exact stepOK_trans (stepOK_of_eq src (by rw [hb.1, ha.1])
                      (by rw [hb.2, ha.2])) hstep
              · have hstep := ih _ _ _ h
                have ha := advance_tokens src st
                exact stepOK_trans (stepOK_of_eq src ha.1 ha.2) hstep

/-- `scanString` only appends a single STRING token when it succeeds. -/
theorem scanString_stepOK (src : List Char) (file : String) (st : LexState)
    (st' : LexState) (h : scanString src file st = .ok st') : StepOK src st st' := by
  unfold scanString at h
  have hstep := scanStringGo_stepOK src file st.line st.column (src.length + 1)
    (advance src st) [] st' h
  have ha := advance_tokens src st
  exact stepOK_trans (stepOK_of_eq src ha.1 ha.2) hstep

/-- Pushing a single-character operator token and advancing is a good step. -/
theorem pushTok_adv_stepOK (src : List Char) (file : String) (st : LexState)
    (tt : TokenType) (v : String) (h1 : tt ≠ .INTEGER) (h2 : tt ≠ .FLOAT)
    (h3 : tt ≠ .INDENT) (h4 : tt ≠ .DEDENT) :
    StepOK src st (advance src (pushTok file st tt v)) := by
  have ha := advance_tokens src (pushTok file st tt v)
  refine ⟨by rw [ha.2]; rfl, [⟨tt, v, st.line, st.column, file⟩], by rw [ha.1]; rfl, ?_⟩
  intro t htm
  rw [List.mem_singleton] at htm
  subst htm
  exact ⟨⟨h3, h4⟩, numTok_trivial h1 h2⟩

/-- Pushing a two-character operator token and advancing twice is a good step. -/
theorem pushTok_adv2_stepOK (src : List Char) (file : String) (st : LexState)
    (tt : TokenType) (v : String) (h1 : tt ≠ .INTEGER) (h2 : tt ≠ .FLOAT)
    (h3 : tt ≠ .INDENT) (h4 : tt ≠ .DEDENT) :
    StepOK src st (advance src (advance src (pushTok file st tt v))) := by
  have ha := advance_tokens src (pushTok file st tt v)
  have hb := advance_tokens src (advance src (pushTok file st tt v))
  refine ⟨by rw [hb.2, ha.2]; rfl, [⟨tt, v, st.line, st.column, file⟩],
    by rw [hb.1, ha.1]; rfl, ?_⟩
  intro t htm
  rw [List.mem_singleton] at htm
  subst htm
  exact ⟨⟨h3, h4⟩, numTok_trivial h1 h2⟩

/-- Any successful `scanToken` call is a good step: the indent stack is
unchanged and only non-INDENT/DEDENT tokens of good number shape appear. -/
theorem scanToken_stepOK (src : List Char) (file : String) (st st' : LexState)
    (h : scanToken src file st = .ok st') : StepOK src st st' := by
  unfold scanToken at h
  cases hp : peek src st with
  | none => rw [hp] at h; cases h
  | some ch =>
      rw [hp] at h
      dsimp only at h
      by_cases hc1 : ch = '\"'
      · rw [if_pos hc1] at h
        exact scanString_stepOK src file st st' h
      · rw [if_neg hc1] at h
        by_cases hc2 : ch.isDigit = true
        · rw [if_pos hc2] at h
          injection h with h
          subst h
          exact scanNumber_stepOK src file st ch hp hc2
        · rw [if_neg hc2] at h
          by_cases hc3 : ch = '-' ∧ peekAhead src st 1 = some '>'
          · rw [if_pos hc3] at h
            injection h with h
            subst h
            exact pushTok_adv2_stepOK src file st _ _ (by decide) (by decide)
              (by decide) (by decide)
          · rw [if_neg hc3] at h
            by_cases hc4 : ch = '=' ∧ peekAhead src st 1 = some '='
            · rw [if_pos hc4] at h
              injection h with h
              subst h
              exact pushTok_adv2_stepOK src file st _ _ (by decide) (by decide)
                (by decide) (by decide)
            · rw [if_neg hc4] at h
              by_cases hc5 : ch = '!' ∧ peekAhead src st 1 = some '='
              · rw [if_pos hc5] at h
                injection h with h
                subst h
                exact pushTok_adv2_stepOK src file st _ _ (by decide) (by decide)
                  (by decide) (by decide)
              · rw [if_neg hc5] at h
                by_cases hc6 : ch = '<' ∧ peekAhead src st 1 = some '='
                · rw [if_pos hc6] at h
                  injection h with h
                  subst h
                  exact pushTok_adv2_stepOK src file st _ _ (by decide) (by decide)
                    (by decide) (by decide)
                · rw [if_neg hc6] at h
                  by_cases hc7 : ch = '>' ∧ peekAhead src st 1 = some '='
                  · rw [if_pos hc7] at h
                    injection h with h
                    subst h
                    exact pushTok_adv2_stepOK src file st _ _ (by decide) (by decide)
                      (by decide) (by decide)
                  · rw [if_neg hc7] at h
                    by_cases hc8 : ch = '('
                    · rw [if_pos hc8] at h
                      injection h with h
                      subst h
                      exact pushTok_adv_stepOK src file st _ _ (by decide) (by decide)
                        (by decide) (by decide)
                    · rw [if_neg hc8] at h
                      by_cases hc9 : ch = ')'
                      · rw [if_pos hc9] at h
                        injection h with h
                        subst h
                        exact pushTok_adv_stepOK src file st _ _ (by decide) (by decide)
                          (by decide) (by decide)
                      · rw [if_neg hc9] at h
                        by_cases hc10 : ch = '['
                        · rw [if_pos hc10] at h
                          injection h with h
                          subst h
                          exact pushTok_adv_stepOK src file st _ _ (by decide) (by decide)
                            (by decide) (by decide)
                        · rw [if_neg hc10] at h
                          by_cases hc11 : ch = ']'
                          · rw [if_pos hc11] at h
                            injection h with h
                            subst h
                            exact pushTok_adv_stepOK src file st _ _ (by decide) (by decide)
                              (by decide) (by decide)
                          · rw [if_neg hc11] at h
                            by_cases hc12 : ch = ','
                            · rw [if_pos hc12] at h
                              injection h with h
                              subst h
                              exact pushTok_adv_stepOK src file st _ _ (by decide) (by decide)
                                (by decide) (by decide)
                            · rw [if_neg hc12] at h
                              by_cases hc13 : ch = ':'
                              · rw [if_pos hc13] at h
                                injection h with h
                                subst h
                                exact pushTok_adv_stepOK src file st _ _ (by decide) (by decide)
                                  (by decide) (by decide)
                              · rw [if_neg hc13] at h
                                by_cases hc14 : ch = '.'
                                · rw [if_pos hc14] at h
                                  injection h with h
                                  subst h
                                  exact pushTok_adv_stepOK src file st _ _ (by decide) (by decide)
                                    (by decide) (by decide)
                                · rw [if_neg hc14] at h
                                  by_cases hc15 : ch = '+'
                                  · rw [if_pos hc15] at h
                                    injection h with h
                                    subst h
                                    exact pushTok_adv_stepOK src file st _ _ (by decide) (by decide)
                                      (by decide) (by decide)
                                  · rw [if_neg hc15] at h
                                    by_cases hc16 : ch = '-'
                                    · rw [if_pos hc16] at h
                                      injection h with h
                                      subst h
                                      exact pushTok_adv_stepOK src file st _ _ (by decide) (by decide)
                                        (by decide) (by decide)
                                    · rw [if_neg hc16] at h
                                      by_cases hc17 : ch = '*'
                                      · rw [if_pos hc17] at h
                                        injection h with h
                                        subst h
                                        exact pushTok_adv_stepOK src file st _ _ (by decide) (by decide)
                                          (by decide) (by decide)
                                      · rw [if_neg hc17] at h
                                        by_cases hc18 : ch = '/'
                                        · rw [if_pos hc18] at h
                                          injection h with h
                                          subst h
                                          exact pushTok_adv_stepOK src file st _ _ (by decide) (by decide)
                                            (by decide) (by decide)
                                        · rw [if_neg hc18] at h
                                          by_cases hc19 : ch = '<'
                                          · rw [if_pos hc19] at h
                                            injection h with h
                                            subst h
                                            exact pushTok_adv_stepOK src file st _ _ (by decide) (by decide)
                                              (by decide) (by decide)
                                          · rw [if_neg hc19] at h
                                            by_cases hc20 : ch = '>'
                                            · rw [if_pos hc20] at h
                                              injection h with h
                                              subst h
                                              exact pushTok_adv_stepOK src file st _ _ (by decide) (by decide)
                                                (by decide) (by decide)
                                            · rw [if_neg hc20] at h
                                              by_cases hc21 : ch = '='
                                              · rw [if_pos hc21] at h
                                                injection h with h
                                                subst h
                                                exact pushTok_adv_stepOK src file st _ _ (by decide) (by decide)
                                                  (by decide) (by decide)
                                              · rw [if_neg hc21] at h
                                                by_cases hc22 : ch.isAlpha = true ∨ ch = '_'
                                                · rw [if_pos hc22] at h
                                                  injection h with h
                                                  subst h
                                                  exact scanIdentifier_stepOK src file st
                                                · rw [if_neg hc22] at h
                                                  cases h

/-- The inner token loop of `_scan_line` is a good step. -/
theorem scanLineTokens_stepOK (src : List Char) (file : String) :
    ∀ (fuel : Nat) (st st' : LexState),
    scanLineTokens src file fuel st = .ok st' → StepOK src st st' := by
  intro fuel
  induction fuel with
  | zero => intro st st' h; cases h
  | succ n ih =>
      intro st st' h
      rw [scanLineTokens] at h
      cases hp : peek src st with
      | none =>
          rw [hp] at h
          injection h with h
          subst h
          exact stepOK_refl _ _
      | some c =>
          rw [hp] at h
          dsimp only at h
          have hs := skipSpaces_tokens src (src.length + 1) st
          split at h
          · injection h with h
            subst h
            exact stepOK_refl _ _
          · cases hp2 : peek src (skipSpaces src (src.length + 1) st) with
            | none =>
                rw [hp2] at h
                injection h with h
                subst h
                exact stepOK_of_eq src hs.1 hs.2
            | some c2 =>
                rw [hp2] at h
                dsimp only at h
                split at h
                · injection h with h
                  subst h
                  exact stepOK_of_eq src hs.1 hs.2
                · split at h
                  · injection h with h
                    subst h
                    have hc := skipComment_tokens src (src.length + 1)
                      (skipSpaces src (src.length + 1) st)
                    exact stepOK_of_eq src (by rw [hc.1, hs.1]) (by rw [hc.2, hs.2])
                  · cases hst : scanToken src file (skipSpaces src (src.length + 1) st) with
                    | ok st2 =>
                        rw [hst] at h
                        simp only [LexRes.bind] at h
                        have h1 := scanToken_stepOK src file _ st2 hst
                        have h2 := ih st2 st' h
                        exact stepOK_trans (stepOK_trans (stepOK_of_eq src hs.1 hs.2) h1) h2
                    | err m l c3 f =>
                        rw [hst] at h
                        simp only [LexRes.bind] at h
                        cases h
                    | indexError =>
                        rw [hst] at h
                        simp only [LexRes.bind] at h
                        cases h
                    | fuelOut =>
                        rw [hst] at h
                        simp only [LexRes.bind] at h
                        cases h

/-- `popDedents` preserves the indent invariant and token goodness. -/
theorem popDedents_inv (src : List Char) (file : String) (line column indent : Nat) :
    ∀ (stack : List Nat) (toks : List Token), IndentBal toks stack →
    (∀ t ∈ toks, NumTok src t) →
    IndentBal (popDedents file line column indent stack toks).2
      (popDedents file line column indent stack toks).1 ∧
    ∀ t ∈ (popDedents file line column indent stack toks).2, NumTok src t := by
  intro stack
  induction stack with
  | nil =>
      intro toks h hn
      rw [popDedents]
      exact ⟨h, hn⟩
  | cons top rest ih =>
      intro toks h hn
      rw [popDedents]
      split
      · rename_i hcond
        apply ih
        · refine indentBal_append_dedent h rfl ?_
          intro hrest
          subst hrest
          obtain ⟨-, -, -, hlast⟩ := h
          rw [List.getLast?_singleton] at hlast
          have : top = 0 := Option.some_inj.mp hlast
          omega
        · intro t htm
          rcases List.mem_append.mp htm with hm | hm
          · exact hn t hm
          · rw [List.mem_singleton] at hm
            subst hm
            exact numTok_trivial (by simp) (by simp)
      · exact ⟨h, hn⟩

/-- `advance` preserves the lexer invariant. -/
theorem lexInv_advance (src : List Char) (st : LexState) (hinv : LexInv src st) :
    LexInv src (advance src st) := by
  have ha := advance_tokens src st
  obtain ⟨hb, hn⟩ := hinv
  exact ⟨by rw [ha.1, ha.2]; exact hb, by rw [ha.1]; exact hn⟩

/-- Pushing a non-INDENT/DEDENT, non-number token preserves the invariant. -/
theorem lexInv_pushTok_other (src : List Char) (file : String) (st : LexState)
    (tt : TokenType) (v : String) (h1 : tt ≠ .INTEGER) (h2 : tt ≠ .FLOAT)
    (h3 : tt ≠ .INDENT) (h4 : tt ≠ .DEDENT) (hinv : LexInv src st) :
    LexInv src (pushTok file st tt v) := by
  obtain ⟨hb, hn⟩ := hinv
  refine ⟨indentBal_append_other hb h3 h4, ?_⟩
  intro t htm
  have htm' : t ∈ st.tokens ++ [(⟨tt, v, st.line, st.column, file⟩ : Token)] := htm
  rcases List.mem_append.mp htm' with hm | hm
  · exact hn t hm
  · rw [List.mem_singleton] at hm
    subst hm
    exact numTok_trivial h1 h2

/-- Pushing an INDENT token together with its new stack entry preserves the
invariant. -/
theorem lexInv_push_indent (src : List Char) (file : String) (st : LexState)
    (indent : Nat) (hinv : LexInv src st) :
    LexInv src (pushTok file { st with indentStack := indent :: st.indentStack }
      .INDENT "") := by
  obtain ⟨hb, hn⟩ := hinv
  constructor
  · exact indentBal_append_indent hb rfl
  · intro t htm
    have htm' : t ∈ st.tokens ++ [(⟨.INDENT, "", st.line, st.column, file⟩ : Token)] := htm
    rcases List.mem_append.mp htm' with hm | hm
    · exact hn t hm
    · rw [List.mem_singleton] at hm
      subst hm
      exact numTok_trivial (by simp) (by simp)

/-- The trailing token-loop-plus-NEWLINE part of `_scan_line` preserves the
invariant. -/
theorem scanLine_tail_inv (src : List Char) (file : String) (st2 st' : LexState)
    (h : (scanLineTokens src file (src.length + 1) st2).bind (fun st =>
        if ¬ atEnd src st ∧ peek src st = some '
' then
          .ok (advance src (pushTok file st .NEWLINE "
"))
        else .ok st) = .ok st')
    (hinv : LexInv src st2) : LexInv src st' := by
  cases hsl : scanLineTokens src file (src.length + 1) st2 with
  | ok st3 =>
      rw [hsl] at h
      simp only [LexRes.bind] at h
      have hinv3 := lexInv_of_stepOK hinv (scanLineTokens_stepOK src file _ st2 st3 hsl)
      split at h
      · injection h with h
        subst h
        exact lexInv_advance src _ (lexInv_pushTok_other src file st3 .NEWLINE "\n"
          (by decide) (by decide) (by decide) (by decide) hinv3)
      · injection h with h
        subst h
        exact hinv3
  | err m l c f =>
      rw [hsl] at h
      simp only [LexRes.bind] at h
      cases h
  | indexError =>
      rw [hsl] at h
      simp only [LexRes.bind] at h
      cases h
  | fuelOut =>
      rw [hsl] at h
      simp only [LexRes.bind] at h
      cases h

/-- `_scan_line` preserves the lexer invariant. -/
theorem scanLine_inv (src : List Char) (file : String) (st st' : LexState)
    (h : scanLine src file st = .ok st') (hinv : LexInv src st) : LexInv src st' := by
  unfold scanLine at h
  obtain ⟨hci1, hci2⟩ := countIndentGo_tokens src (src.length + 1) st 0
  rcases hci : countIndentGo src (src.length + 1) st 0 with ⟨st1, indent⟩
  rw [hci] at h hci1 hci2
  dsimp only at h hci1 hci2
  have hinv1 : LexInv src st1 := by
    obtain ⟨hb, hn⟩ := hinv
    constructor
    · rw [hci1, hci2]
      exact hb
    · rw [hci1]
      exact hn
  split at h
  · injection h with h
    subst h
    exact hinv1
  · split at h
    · injection h with h
      subst h
      exact lexInv_advance src st1 hinv1
    · split at h
      · have hsc := skipComment_tokens src (src.length + 1) st1
        have hinv2 : LexInv src (skipComment src (src.length + 1) st1) := by
          obtain ⟨hb, hn⟩ := hinv1
          constructor
          · rw [hsc.1, hsc.2]
            exact hb
          · rw [hsc.1]
            exact hn
        split at h
        · injection h with h
          subst h
          exact lexInv_advance src _ hinv2
        · injection h with h
          subst h
          exact hinv2
      · split at h
        · cases h
        · split at h
          · cases h
          · by_cases hlt : st1.indentStack.headD 0 < indent
            · rw [if_pos hlt] at h
              simp only [LexRes.bind] at h
              exact scanLine_tail_inv src file _ st' h
                (lexInv_push_indent src file st1 indent hinv1)
            · rw [if_neg hlt] at h
              by_cases hgt : indent < st1.indentStack.headD 0
              · rw [if_pos hgt] at h
                rcases hpd : popDedents file st1.line st1.column indent
                    st1.indentStack st1.tokens with ⟨stackP, toksP⟩
                rw [hpd] at h
                dsimp only at h
                obtain ⟨hbP, hnP⟩ := by
                  have := popDedents_inv src file st1.line st1.column indent
                    st1.indentStack st1.tokens hinv1.1 hinv1.2
                  rw [hpd] at this
                  exact this
                split at h
                · cases h
                · simp only [LexRes.bind] at h
                  exact scanLine_tail_inv src file _ st' h ⟨hbP, hnP⟩
              · rw [if_neg hgt] at h
                simp only [LexRes.bind] at h
                exact scanLine_tail_inv src file _ st' h hinv1

/-- The main lexer loop preserves the invariant. -/
theorem lexLoop_inv (src : List Char) (file : String) :
    ∀ (fuel : Nat) (st st' : LexState),
    lexLoop src file fuel st = .ok st' → LexInv src st → LexInv src st' := by
  intro fuel
  induction fuel with
  | zero => intro st st' h; cases h
  | succ n ih =>
      intro st st' h hinv
      rw [lexLoop] at h
      split at h
      · injection h with h
        subst h
        exact hinv
      · cases hsl : scanLine src file st with
        | ok st2 =>
            rw [hsl] at h
            simp only [LexRes.bind] at h
            exact ih st2 st' h (scanLine_inv src file st st2 hsl hinv)
        | err m l c f =>
            rw [hsl] at h
            simp only [LexRes.bind] at h
            cases h
        | indexError =>
            rw [hsl] at h
            simp only [LexRes.bind] at h
            cases h
        | fuelOut =>
            rw [hsl] at h
            simp only [LexRes.bind] at h
            cases h

/-- The final DEDENT flush equalises the INDENT/DEDENT counts. -/
theorem finalDedents_inv (src : List Char) (file : String) (line column : Nat) :
    ∀ (stack : List Nat) (toks : List Token), IndentBal toks stack →
    (∀ t ∈ toks, NumTok src t) →
    PrefixBal (finalDedents file line column stack toks) ∧
    countTok .INDENT (finalDedents file line column stack toks) =
      countTok .DEDENT (finalDedents file line column stack toks) ∧
    ∀ t ∈ finalDedents file line column stack toks, NumTok src t := by
  intro stack
  induction stack with
  | nil =>
      intro toks h hn
      exact absurd rfl h.2.2.1
  | cons top rest ih =>
      intro toks h hn
      cases rest with
      | nil =>
          rw [finalDedents]
          obtain ⟨hpb, hcount, -, -⟩ := h
          refine ⟨hpb, ?_, hn⟩
          simpa using hcount
      | cons y rest2 =>
          rw [finalDedents]
          · apply ih
            · exact indentBal_append_dedent h rfl (List.cons_ne_nil y rest2)
            · intro t htm
              rcases List.mem_append.mp htm with hm | hm
              · exact hn t hm
              · rw [List.mem_singleton] at hm
                subst hm
                exact numTok_trivial (by simp) (by simp)
          · simp

/-- Appending one non-INDENT/DEDENT token keeps balance and equal counts. -/
theorem balance_snoc_eof (A : List Token) (t : Token) (h1 : PrefixBal A)
    (h2 : countTok .INDENT A = countTok .DEDENT A) (h3 : t.type ≠ .INDENT)
    (h4 : t.type ≠ .DEDENT) :
    PrefixBal (A ++ [t]) ∧
    countTok .INDENT (A ++ [t]) = countTok .DEDENT (A ++ [t]) := by
  have hI : countTok .INDENT [t] = 0 := by
    unfold countTok
    simp [h3]
  have hD : countTok .DEDENT [t] = 0 := by
    unfold countTok
    simp [h4]
  constructor
  · intro p hp
    rcases prefix_snoc p A t hp with hpa | hfull
    · exact h1 p hpa
    · subst hfull
      rw [countTok_append, countTok_append, hI, hD, h2]
  · rw [countTok_append, countTok_append, hI, hD, h2]

/-- The invariant holds for the whole token list returned by `tokenize`. -/
theorem tokenize_inv (source filename : String) (toks : List Token)
    (h : tokenize source filename = .ok toks) :
    ∃ st : LexState,
      toks = finalDedents filename st.line st.column st.indentStack st.tokens ++
        [⟨.EOF, "", st.line, st.column, filename⟩] ∧ LexInv source.data st := by
  unfold tokenize at h
  dsimp only at h
  cases hll : lexLoop source.data filename (source.data.length + 1)
      ⟨0, 1, 1, [], [0]⟩ with
  | ok st =>
      rw [hll] at h
      simp only [LexRes.bind] at h
      injection h with h
      have hinv0 : LexInv source.data ⟨0, 1, 1, [], [0]⟩ := by
        refine ⟨⟨?_, by simp [countTok], by simp, rfl⟩, by intro t ht; cases ht⟩
        intro p hp
        obtain ⟨q, hq⟩ := hp
        obtain ⟨h1, -⟩ := List.append_eq_nil.mp hq
        subst h1
        exact Nat.le_refl _
      exact ⟨st, h.symm, lexLoop_inv source.data filename _ _ st hll hinv0⟩
  | err m l c f =>
      rw [hll] at h
      simp only [LexRes.bind] at h
      cases h
  | indexError =>
      rw [hll] at h
      simp only [LexRes.bind] at h
      cases h
  | fuelOut =>
      rw [hll] at h
      simp only [LexRes.bind] at h
      cases h

/-- C3 — Indent balance: whenever `tokenize` succeeds, every prefix of the
returned token list has at least as many INDENT as DEDENT tokens, the two
counts agree over the whole list, and the list ends in an EOF token. -/
theorem tokenize_indent_balance (source filename : String) (toks : List Token)
    (h : tokenize source filename = .ok toks) :
    PrefixBal toks ∧ countTok .INDENT toks = countTok .DEDENT toks ∧
    Option.map Token.type toks.getLast? = some .EOF := by
  obtain ⟨st, htoks, hinv⟩ := tokenize_inv source filename toks h
  obtain ⟨hpb, hcount, -⟩ := finalDedents_inv source.data filename st.line st.column
    st.indentStack st.tokens hinv.1 hinv.2
  obtain ⟨hpb2, hcount2⟩ := balance_snoc_eof _
    ⟨.EOF, "", st.line, st.column, filename⟩ hpb hcount (by simp) (by simp)
  subst htoks
  refine ⟨hpb2, hcount2, ?_⟩
  rw [List.getLast?_concat]
  rfl

set_option maxRecDepth 8192 in
theorem tokenize_indent_balance_witness :
    PrefixBal
      [⟨.IDENTIFIER, "a", 1, 1, "t"⟩, ⟨.NEWLINE, "\n", 1, 2, "t"⟩,
       ⟨.INDENT, "", 2, 3, "t"⟩, ⟨.IDENTIFIER, "b", 2, 3, "t"⟩,
       ⟨.NEWLINE, "\n", 2, 4, "t"⟩, ⟨.DEDENT, "", 3, 1, "t"⟩,
       ⟨.IDENTIFIER, "c", 3, 1, "t"⟩, ⟨.NEWLINE, "\n", 3, 2, "t"⟩,
       ⟨.EOF, "", 4, 1, "t"⟩] ∧
    countTok .INDENT
      [⟨.IDENTIFIER, "a", 1, 1, "t"⟩, ⟨.NEWLINE, "\n", 1, 2, "t"⟩,
       ⟨.INDENT, "", 2, 3, "t"⟩, ⟨.IDENTIFIER, "b", 2, 3, "t"⟩,
       ⟨.NEWLINE, "\n", 2, 4, "t"⟩, ⟨.DEDENT, "", 3, 1, "t"⟩,
       ⟨.IDENTIFIER, "c", 3, 1, "t"⟩, ⟨.NEWLINE, "\n", 3, 2, "t"⟩,
       ⟨.EOF, "", 4, 1, "t"⟩] =
    countTok .DEDENT
      [⟨.IDENTIFIER, "a", 1, 1, "t"⟩, ⟨.NEWLINE, "\n", 1, 2, "t"⟩,
       ⟨.INDENT, "", 2, 3, "t"⟩, ⟨.IDENTIFIER, "b", 2, 3, "t"⟩,
       ⟨.NEWLINE, "\n", 2, 4, "t"⟩, ⟨.DEDENT, "", 3, 1, "t"⟩,
       ⟨.IDENTIFIER, "c", 3, 1, "t"⟩, ⟨.NEWLINE, "\n", 3, 2, "t"⟩,
       ⟨.EOF, "", 4, 1, "t"⟩] ∧
    Option.map Token.type
      ([⟨.IDENTIFIER, "a", 1, 1, "t"⟩, ⟨.NEWLINE, "\n", 1, 2, "t"⟩,
        ⟨.INDENT, "", 2, 3, "t"⟩, ⟨.IDENTIFIER, "b", 2, 3, "t"⟩,
        ⟨.NEWLINE, "\n", 2, 4, "t"⟩, ⟨.DEDENT, "", 3, 1, "t"⟩,
        ⟨.IDENTIFIER, "c", 3, 1, "t"⟩, ⟨.NEWLINE, "\n", 3, 2, "t"⟩,
        ⟨.EOF, "", 4, 1, "t"⟩] : List Token).getLast? = some .EOF :=
  tokenize_indent_balance "a\n  b\nc\n" "t" _ (by decide)

/-- C9 (amended) — Number token shape: every token in a successful `tokenize`
run satisfies `NumTok`: if it is an INTEGER or FLOAT token, its value is a
non-empty run of digits and dots starting with a digit, its kind is FLOAT
exactly when the value contains a dot, and the value is a contiguous slice of
the source text.  (The run may contain several dots: the scanner does not
stop at the first one.) -/
theorem number_token_shape (source filename : String) (toks : List Token)
    (h : tokenize source filename = .ok toks) :
    ∀ t ∈ toks, NumTok source.data t := by
  obtain ⟨st, htoks, hinv⟩ := tokenize_inv source filename toks h
  obtain ⟨-, -, hnum⟩ := finalDedents_inv source.data filename st.line st.column
    st.indentStack st.tokens hinv.1 hinv.2
  subst htoks
  intro t htm
  rcases List.mem_append.mp htm with hm | hm
  · exact hnum t hm
  · rw [List.mem_singleton] at hm
    subst hm
    exact numTok_trivial (by simp) (by simp)

set_option maxRecDepth 8192 in
theorem number_token_shape_witness :
    NumTok "3.14".data ⟨.FLOAT, "3.14", 1, 1, "t"⟩ :=
  number_token_shape "3.14" "t"
    [⟨.FLOAT, "3.14", 1, 1, "t"⟩, ⟨.EOF, "", 1, 5, "t"⟩] (by decide)
    ⟨.FLOAT, "3.14", 1, 1, "t"⟩ (List.mem_cons_self _ _)

/-- C9 counterexample — the scanner's digit loop also consumes every dot, so
`1.2.3` is lexed as a single FLOAT token whose value contains two dots,
refuting the claim's "optionally followed by a single dot and more digits"
shape. -/
theorem number_token_two_dots_counterexample :
    tokenize "1.2.3" "t" =
      .ok [⟨.FLOAT, "1.2.3", 1, 1, "t"⟩, ⟨.EOF, "", 1, 6, "t"⟩] ∧
    "1.2.3".data.count '.' = 2 := by
  constructor
  · decide
  · decide

/-- `TokenType.name` (the Python enum member name), used in parser
diagnostics. -/
def tokenTypeName : TokenType → String
  | .INDENT => "INDENT"
  | .DEDENT => "DEDENT"
  | .NEWLINE => "NEWLINE"
  | .EOF => "EOF"
  | .STRING => "STRING"
  | .INTEGER => "INTEGER"
  | .FLOAT => "FLOAT"
  | .TRUE => "TRUE"
  | .FALSE => "FALSE"
  | .IDENTIFIER => "IDENTIFIER"
  | .DOT => "DOT"
  | .COMMA => "COMMA"
  | .COLON => "COLON"
  | .ARROW => "ARROW"
  | .LPAREN => "LPAREN"
  | .RPAREN => "RPAREN"
  | .LBRACKET => "LBRACKET"
  | .RBRACKET => "RBRACKET"
  | .EQUALS => "EQUALS"
  | .NOT_EQUALS => "NOT_EQUALS"
  | .LESS_THAN => "LESS_THAN"
  | .LESS_EQUAL => "LESS_EQUAL"
  | .GREATER_THAN => "GREATER_THAN"
  | .GREATER_EQUAL => "GREATER_EQUAL"
  | .PLUS => "PLUS"
  | .MINUS => "MINUS"
  | .STAR => "STAR"
  | .SLASH => "SLASH"
  | .ASSIGN => "ASSIGN"
  | .INTENT => "INTENT"
  | .SCOPE => "SCOPE"
  | .RISK => "RISK"
  | .REQUIRES => "REQUIRES"
  | .CONTRACT => "CONTRACT"
  | .PRECONDITION => "PRECONDITION"
  | .POSTCONDITION => "POSTCONDITION"
  | .EFFECTS => "EFFECTS"
  | .BODY => "BODY"
  | .ON_FAILURE => "ON_FAILURE"
  | .MODIFIES => "MODIFIES"
  | .READS => "READS"
  | .EMITS => "EMITS"
  | .TOUCHES_NOTHING_ELSE => "TOUCHES_NOTHING_ELSE"
  | .RETURN => "RETURN"
  | .EMIT => "EMIT"
  | .IF => "IF"
  | .ELSE => "ELSE"
  | .FOR => "FOR"
  | .IN => "IN"
  | .WHILE => "WHILE"
  | .AND => "AND"
  | .OR => "OR"
  | .NOT => "NOT"
  | .HAS => "HAS"
  | .TYPE => "TYPE"
  | .FIELDS => "FIELDS"
  | .FLOW_CONSTRAINTS => "FLOW_CONSTRAINTS"
  | .NEVER_FLOWS_TO => "NEVER_FLOWS_TO"
  | .REQUIRES_CONTEXT => "REQUIRES_CONTEXT"
  | .SHARED => "SHARED"
  | .ACCESS => "ACCESS"
  | .ISOLATION => "ISOLATION"
  | .AUDIT => "AUDIT"
  | .PERMISSIONS => "PERMISSIONS"
  | .GRANTS => "GRANTS"
  | .DENIES => "DENIES"
  | .ESCALATION => "ESCALATION"
  | .LOW => "LOW"
  | .MEDIUM => "MEDIUM"
  | .HIGH => "HIGH"
  | .CRITICAL => "CRITICAL"
  | .OLD => "OLD"
  | .COMMENT => "COMMENT"
  | .AUDIT_QUERY => "AUDIT_QUERY"
  | .SHOW => "SHOW"
  | .ALL => "ALL"
  | .WHERE => "WHERE"
  | .SINCE => "SINCE"

/-- `_KEYWORD_TOKEN_TYPES` from `covenant/parser/parser.py`: keyword tokens
allowed in identifier positions. -/
def KEYWORD_TOKEN_TYPES : List TokenType :=
  [.ACCESS, .AUDIT, .GRANTS, .DENIES, .ESCALATION, .ISOLATION, .SCOPE,
   .RISK, .LOW, .MEDIUM, .HIGH, .CRITICAL, .FIELDS, .SHOW, .ALL,
   .WHERE, .SINCE, .READS, .EMITS, .MODIFIES, .SHARED, .TYPE, .REQUIRES,
   .INTENT, .OLD, .BODY, .EFFECTS, .PRECONDITION, .POSTCONDITION, .PERMISSIONS]

/-- Python `int(s)` on a digit run. -/
def intOfStr (s : String) : Int :=
  Int.ofNat (s.data.foldl (fun acc c => acc * 10 + (c.toNat - 48)) 0)

/-- Source location of an expression (`expr.loc`). -/
def Expr.loc : Expr → SourceLocation
  | .identifier l _ => l
  | .stringLiteral l _ => l
  | .numberLiteral l _ => l
  | .boolLiteral l _ => l
  | .listLiteral l _ => l
  | .binaryOp l _ _ _ => l
  | .unaryOp l _ _ => l
  | .fieldAccess l _ _ => l
  | .functionCall l _ _ _ => l
  | .methodCall l _ _ _ _ => l
  | .oldExpr l _ => l
  | .hasExpr l _ _ => l

/-- Outcome of a parser step: success with the parsed value and the new
`pos`, a `ParseError` with its message and offending token, an uncaught
Python `IndexError` (`tokens[-1]` on an empty stream), or fuel exhaustion
of the model. -/
inductive PRes (α : Type) where
  | ok (a : α) (pos : Nat)
  | perr (msg : String) (tok : Token)
  | pIndexError
  | pFuelOut

def PRes.pbind {α β : Type} : PRes α → (α → Nat → PRes β) → PRes β
  | ok a pos, f => f a pos
  | perr m t, _ => perr m t
  | pIndexError, _ => pIndexError
  | pFuelOut, _ => pFuelOut

/-- `Parser._current`: the current token, or `tokens[-1]` past the end
(`none` models the `IndexError` on an empty stream). -/
def currTok (tokens : List Token) (pos : Nat) : Option Token :=
  if pos < tokens.length then tokens.get? pos else tokens.getLast?

/-- `Parser._loc`. -/
def pLoc (tokens : List Token) (pos : Nat) : PRes SourceLocation :=
  match currTok tokens pos with
  | none => .pIndexError
  | some tok => .ok ⟨tok.file, tok.line, tok.column, none, none⟩ pos

/-- `Parser._check`. -/
def checkTok (tokens : List Token) (tt : TokenType) (pos : Nat) : PRes Bool :=
  match currTok tokens pos with
  | none => .pIndexError
  | some tok => .ok (tok.type == tt) pos

/-- `Parser._at_end`. -/
def pAtEnd (tokens : List Token) (pos : Nat) : PRes Bool :=
  match currTok tokens pos with
  | none => .pIndexError
  | some tok => .ok (tok.type == .EOF) pos

/-- `Parser._expect`. -/
def expectTok (tokens : List Token) (tt : TokenType) (pos : Nat) : PRes Token :=
  match currTok tokens pos with
  | none => .pIndexError
  | some tok =>
      if tok.type == tt then .ok tok (pos + 1)
      else .perr ("Expected " ++ tokenTypeName tt ++ ", got " ++
        tokenTypeName tok.type ++ " (" ++ pyRepr tok.value ++ ")") tok

/-- `Parser._expect_identifier_or_keyword`. -/
def expectIdentOrKw (tokens : List Token) (pos : Nat) : PRes Token :=
  match currTok tokens pos with
  | none => .pIndexError
  | some tok =>
      if tok.type == .IDENTIFIER || KEYWORD_TOKEN_TYPES.contains tok.type then
        .ok tok (pos + 1)
      else .perr ("Expected identifier, got " ++ tokenTypeName tok.type ++
        " (" ++ pyRepr tok.value ++ ")") tok

/-- `Parser._peek_type`. -/
def peekType (tokens : List Token) (pos offset : Nat) : Option TokenType :=
  (tokens.get? (pos + offset)).map Token.type

/-- `Parser._advance` paired with `_current` (`tok = current; pos += 1`). -/
def advanceTok (tokens : List Token) (pos : Nat) : PRes Token :=
  match currTok tokens pos with
  | none => .pIndexError
  | some tok => .ok tok (pos + 1)

/-- `Parser._skip_newlines`. -/
def skip_newlines (tokens : List Token) : Nat → Nat → PRes Unit
  | 0, _ => .pFuelOut
  | fuel + 1, pos =>
      match currTok tokens pos with
      | none => .pIndexError
      | some tok =>
          if tok.type == .NEWLINE then skip_newlines tokens fuel (pos + 1)
          else .ok () pos

/-- Python `sep.join(parts)`. -/
def pyJoin (sep : String) : List String → String
  | [] => ""
  | [x] => x
  | x :: xs => x ++ sep ++ pyJoin sep xs

/-- `Parser._expr_to_assignment_target` (the `none` case raises
`ParseError("Invalid assignment target", ...)` at the call site). -/
def assignTargetGo : Option Expr → List String → Option String
  | some (Expr.fieldAccess _ obj fname), parts => assignTargetGo obj (fname :: parts)
  | some (Expr.identifier _ name), parts =>
      some (pyJoin "." (name :: parts))
  | _, _ => none

def expr_to_assignment_target (expr : Expr) : Option String :=
  match expr with
  | Expr.identifier _ name => some name
  | Expr.fieldAccess _ obj fname => assignTargetGo obj [fname]
  | _ => none

/-- Python dict assignment `kwargs[name] = value` on an insertion-ordered
association list. -/
def kwUpdate : List (String × Expr) → String → Expr → List (String × Expr)
  | [], k, v => [(k, v)]
  | (a, b) :: rest, k, v =>
      if a = k then (a, v) :: rest else (a, b) :: kwUpdate rest k v

/-- The `comparison_ops` map of `_parse_comparison`. -/
def cmpOp : TokenType → Option String
  | .EQUALS => some "=="
  | .NOT_EQUALS => some "!="
  | .LESS_THAN => some "<"
  | .LESS_EQUAL => some "<="
  | .GREATER_THAN => some ">"
  | .GREATER_EQUAL => some ">="
  | _ => none

/-- The `level_map` of `_parse_risk_decl`. -/
def riskLevelMap : TokenType → Option RiskLevel
  | .LOW => some .low
  | .MEDIUM => some .medium
  | .HIGH => some .high
  | .CRITICAL => some .critical
  | _ => none

/-- One tag per `Parser` method (loops carry their mutable locals). -/
inductive PK where
  | expression
  | or_expr
  | or_loop (left : Expr)
  | and_expr
  | and_loop (left : Expr)
  | not_expr
  | comparison
  | cmp_loop (left : Expr)
  | has_expr
  | additive
  | add_loop (left : Expr)
  | multiplicative
  | mul_loop (left : Expr)
  | unary
  | postfixE
  | postfix_loop (e : Expr)
  | primary
  | list_literal
  | list_lit_loop (acc : List Expr)
  | argument_list
  | arg_loop (args : List Expr) (kwargs : List (String × Expr))
  | single_argument (args : List Expr) (kwargs : List (String × Expr))
  | expression_list_block
  | expr_list_loop (acc : List Expr)
  | statement
  | return_stmt
  | emit_stmt
  | if_stmt
  | for_stmt
  | while_stmt
  | statement_block
  | stmt_loop (acc : List Statement)
  | type_expr
  | annotations_loop (acc : List String)
  | param_list
  | param_loop (acc : List Param)
  | param
  | dotted_name
  | dotted_loop (parts : List String)
  | permission_expr
  | perm_loop (parts : List String) (depth : Nat)
  | bracketed_dotted
  | bracketed_dotted_loop (acc : List String)
  | bracketed_perm
  | bracketed_perm_loop (acc : List String)
  | precondition
  | postcondition
  | effects
  | effects_loop (acc : List EffectDecl)
  | permissions
  | permissions_loop (g : Option GrantsPermission) (d : Option DeniesPermission)
      (e : Option EscalationPolicy)
  | escalation_parts (parts : List String)
  | body
  | on_failure
  | contract_def
  | sections_loop (pre : Option Precondition) (post : Option Postcondition)
      (eff : Option Effects) (perm : Option PermissionsBlock)
      (bd : Option Body) (onf : Option OnFailure)
  | type_def
  | type_def_loop (fields : List FieldDef) (flows : List FlowConstraint)
  | fields_loop (fields : List FieldDef)
  | flows_loop (flows : List FlowConstraint)
  | field_def
  | flow_constraint
  | shared_decl
  | shared_loop (access isolation audit : String)
  | file_header
  | intent_block
  | scope_decl
  | risk_decl
  | requires_decl
  | program_loop (contracts : List ContractDef) (type_defs : List TypeDef)
      (shared_decls : List SharedDecl)
  | parseP

/-- Result type of each parser method. -/
@[reducible] def PRet : PK → Type
  | .expression | .or_expr | .or_loop _ | .and_expr | .and_loop _ | .not_expr
  | .comparison | .cmp_loop _ | .has_expr | .additive | .add_loop _
  | .multiplicative | .mul_loop _ | .unary | .postfixE | .postfix_loop _
  | .primary | .list_literal => Expr
  | .list_lit_loop _ => List Expr
  | .argument_list | .arg_loop _ _ | .single_argument _ _ =>
      List Expr × List (String × Expr)
  | .expression_list_block | .expr_list_loop _ => List Expr
  | .statement | .return_stmt | .emit_stmt | .if_stmt | .for_stmt
  | .while_stmt => Statement
  | .statement_block | .stmt_loop _ => List Statement
  | .type_expr => TypeExpr
  | .annotations_loop _ => List String
  | .param_list | .param_loop _ => List Param
  | .param => Param
  | .dotted_name => String
  | .dotted_loop _ => List String
  | .permission_expr | .perm_loop _ _ => String
  | .bracketed_dotted | .bracketed_dotted_loop _ => List String
  | .bracketed_perm | .bracketed_perm_loop _ => List String
  | .precondition => Precondition
  | .postcondition => Postcondition
  | .effects => Effects
  | .effects_loop _ => List EffectDecl
  | .permissions => PermissionsBlock
  | .permissions_loop _ _ _ =>
      Option GrantsPermission × Option DeniesPermission × Option EscalationPolicy
  | .escalation_parts _ => List String
  | .body => Body
  | .on_failure => OnFailure
  | .contract_def => ContractDef
  | .sections_loop _ _ _ _ _ _ =>
      Option Precondition × Option Postcondition × Option Effects ×
        Option PermissionsBlock × Option Body × Option OnFailure
  | .type_def => TypeDef
  | .type_def_loop _ _ => List FieldDef × List FlowConstraint
  | .fields_loop _ => List FieldDef
  | .flows_loop _ => List FlowConstraint
  | .field_def => FieldDef
  | .flow_constraint => FlowConstraint
  | .shared_decl => SharedDecl
  | .shared_loop _ _ _ => String × String × String
  | .file_header => Option FileHeader
  | .intent_block => IntentBlock
  | .scope_decl => ScopeDecl
  | .risk_decl => RiskDecl
  | .requires_decl => RequiresDecl
  | .program_loop _ _ _ => List ContractDef × List TypeDef × List SharedDecl
  | .parseP => Program

/-- The recursive-descent `Parser`, one arm per method; the fuel decreases on
every nested call, so the recursion is structural and fully evaluable. -/
def runP (tokens : List Token) (filename : String) :
    (fuel : Nat) → (k : PK) → (pos : Nat) → PRes (PRet k)
  | 0, _, _ => .pFuelOut
  | fuel + 1, k, pos =>
    match k with
    | .expression => runP tokens filename fuel .or_expr pos
    | .or_expr =>
        (runP tokens filename fuel .and_expr pos).pbind fun left pos =>
        runP tokens filename fuel (.or_loop left) pos
    | .or_loop left =>
        (checkTok tokens .OR pos).pbind fun b pos =>
        if b then
          (runP tokens filename fuel .and_expr (pos + 1)).pbind fun right pos =>
          runP tokens filename fuel
            (.or_loop (Expr.binaryOp left.loc (some left) "or" (some right))) pos
        else .ok left pos
    | .and_expr =>
        (runP tokens filename fuel .not_expr pos).pbind fun left pos =>
        runP tokens filename fuel (.and_loop left) pos
    | .and_loop left =>
        (checkTok tokens .AND pos).pbind fun b pos =>
        if b then
          (runP tokens filename fuel .not_expr (pos + 1)).pbind fun right pos =>
          runP tokens filename fuel
            (.and_loop (Expr.binaryOp left.loc (some left) "and" (some right))) pos
        else .ok left pos
    | .not_expr =>
        (checkTok tokens .NOT pos).pbind fun b pos =>
        if b then
          (pLoc tokens pos).pbind fun loc pos =>
          (runP tokens filename fuel .not_expr (pos + 1)).pbind fun operand pos =>
          .ok (Expr.unaryOp loc "not" (some operand)) pos
        else runP tokens filename fuel .comparison pos
    | .comparison =>
        (runP tokens filename fuel .has_expr pos).pbind fun left pos =>
        runP tokens filename fuel (.cmp_loop left) pos
    | .cmp_loop left =>
        match currTok tokens pos with
        | none => .pIndexError
        | some tok =>
            match cmpOp tok.type with
            | some op =>
                (runP tokens filename fuel .has_expr (pos + 1)).pbind fun right pos =>
                runP tokens filename fuel
                  (.cmp_loop (Expr.binaryOp left.loc (some left) op (some right))) pos
            | none => .ok left pos
    | .has_expr =>
        (runP tokens filename fuel .additive pos).pbind fun left pos =>
        (checkTok tokens .HAS pos).pbind fun b pos =>
        if b then
          (runP tokens filename fuel .additive (pos + 1)).pbind fun right pos =>
          .ok (Expr.hasExpr left.loc (some left) (some right)) pos
        else .ok left pos
    | .additive =>
        (runP tokens filename fuel .multiplicative pos).pbind fun left pos =>
        runP tokens filename fuel (.add_loop left) pos
    | .add_loop left =>
        match currTok tokens pos with
        | none => .pIndexError
        | some tok =>
            if tok.type == .PLUS || tok.type == .MINUS then
              (runP tokens filename fuel .multiplicative (pos + 1)).pbind fun right pos =>
              runP tokens filename fuel
                (.add_loop (Expr.binaryOp left.loc (some left)
                  (if tok.type == .PLUS then "+" else "-") (some right))) pos
            else .ok left pos
    | .multiplicative =>
        (runP tokens filename fuel .unary pos).pbind fun left pos =>
        runP tokens filename fuel (.mul_loop left) pos
    | .mul_loop left =>
        match currTok tokens pos with
        | none => .pIndexError
        | some tok =>
            if tok.type == .STAR || tok.type == .SLASH then
              (runP tokens filename fuel .unary (pos + 1)).pbind fun right pos =>
              runP tokens filename fuel
                (.mul_loop (Expr.binaryOp left.loc (some left)
                  (if tok.type == .STAR then "*" else "/") (some right))) pos
            else .ok left pos
    | .unary =>
        (checkTok tokens .MINUS pos).pbind fun b pos =>
        if b then
          (pLoc tokens pos).pbind fun loc pos =>
          (runP tokens filename fuel .unary (pos + 1)).pbind fun operand pos =>
          .ok (Expr.unaryOp loc "-" (some operand)) pos
        else runP tokens filename fuel .postfixE pos
    | .postfixE =>
        (runP tokens filename fuel .primary pos).pbind fun e pos =>
        runP tokens filename fuel (.postfix_loop e) pos
    | .postfix_loop e =>
        (checkTok tokens .DOT pos).pbind fun bdot pos =>
        if bdot then
          (expectIdentOrKw tokens (pos + 1)).pbind fun ftok pos =>
          (checkTok tokens .LPAREN pos).pbind fun blp pos =>
          if blp then
            (runP tokens filename fuel .argument_list (pos + 1)).pbind fun ak pos =>
            (expectTok tokens .RPAREN pos).pbind fun _ pos =>
            runP tokens filename fuel
              (.postfix_loop (Expr.methodCall e.loc (some e) ftok.value ak.1 ak.2)) pos
          else
            runP tokens filename fuel
              (.postfix_loop (Expr.fieldAccess e.loc (some e) ftok.value)) pos
        else
          (checkTok tokens .LPAREN pos).pbind fun blp pos =>
          if blp then
            (runP tokens filename fuel .argument_list (pos + 1)).pbind fun ak pos =>
            (expectTok tokens .RPAREN pos).pbind fun _ pos =>
            runP tokens filename fuel
              (.postfix_loop (Expr.functionCall e.loc (some e) ak.1 ak.2)) pos
          else .ok e pos
    | .primary =>
        (pLoc tokens pos).pbind fun loc pos =>
        match currTok tokens pos with
        | none => .pIndexError
        | some tok =>
            match tok.type with
            | .OLD =>
                (expectTok tokens .LPAREN (pos + 1)).pbind fun _ pos =>
                (runP tokens filename fuel .expression pos).pbind fun inner pos =>
                (expectTok tokens .RPAREN pos).pbind fun _ pos =>
                .ok (Expr.oldExpr loc (some inner)) pos
            | .STRING => .ok (Expr.stringLiteral loc tok.value) (pos + 1)
            | .INTEGER =>
                .ok (Expr.numberLiteral loc (.pyInt (intOfStr tok.value))) (pos + 1)
            | .FLOAT => .ok (Expr.numberLiteral loc (.pyFloat tok.value)) (pos + 1)
            | .TRUE => .ok (Expr.boolLiteral loc true) (pos + 1)
            | .FALSE => .ok (Expr.boolLiteral loc false) (pos + 1)
            | .IDENTIFIER => .ok (Expr.identifier loc tok.value) (pos + 1)
            | .LBRACKET => runP tokens filename fuel .list_literal pos
            | .LPAREN =>
                (runP tokens filename fuel .expression (pos + 1)).pbind fun e pos =>
                (expectTok tokens .RPAREN pos).pbind fun _ pos =>
                .ok e pos
            | _ =>
                .perr ("Expected expression, got " ++ tokenTypeName tok.type ++
                  " (" ++ pyRepr tok.value ++ ")") tok
    | .list_literal =>
        (pLoc tokens pos).pbind fun loc pos =>
        (expectTok tokens .LBRACKET pos).pbind fun _ pos =>
        (checkTok tokens .RBRACKET pos).pbind fun b pos =>
        ((if b then (.ok [] pos : PRes (List Expr))
          else
            (runP tokens filename fuel .expression pos).pbind fun e pos =>
            runP tokens filename fuel (.list_lit_loop [e]) pos) :
          PRes (List Expr)).pbind fun elements pos =>
        (expectTok tokens .RBRACKET pos).pbind fun _ pos =>
        .ok (Expr.listLiteral loc elements) pos
    | .list_lit_loop acc =>
        (checkTok tokens .COMMA pos).pbind fun b pos =>
        if b then
          (checkTok tokens .RBRACKET (pos + 1)).pbind fun b2 pos =>
          if b2 then .ok acc pos
          else
            (runP tokens filename fuel .expression pos).pbind fun e pos =>
            runP tokens filename fuel (.list_lit_loop (acc ++ [e])) pos
        else .ok acc pos
    | .argument_list =>
        (checkTok tokens .RPAREN pos).pbind fun b pos =>
        if b then .ok ([], []) pos
        else
          (runP tokens filename fuel (.single_argument [] []) pos).pbind fun ak pos =>
          runP tokens filename fuel (.arg_loop ak.1 ak.2) pos
    | .arg_loop args kwargs =>
        (checkTok tokens .COMMA pos).pbind fun b pos =>
        if b then
          (checkTok tokens .RPAREN (pos + 1)).pbind fun b2 pos =>
          if b2 then .ok (args, kwargs) pos
          else
            (runP tokens filename fuel (.single_argument args kwargs) pos).pbind
              fun ak pos =>
            runP tokens filename fuel (.arg_loop ak.1 ak.2) pos
        else .ok (args, kwargs) pos
    | .single_argument args kwargs =>
        match currTok tokens pos with
        | none => .pIndexError
        | some tok =>
            if (tok.type == .IDENTIFIER || KEYWORD_TOKEN_TYPES.contains tok.type) &&
                peekType tokens pos 1 == some TokenType.COLON then
              (runP tokens filename fuel .expression (pos + 2)).pbind fun v pos =>
              .ok (args, kwUpdate kwargs tok.value v) pos
            else
              (runP tokens filename fuel .expression pos).pbind fun e pos =>
              .ok (args ++ [e], kwargs) pos
    | .expression_list_block => runP tokens filename fuel (.expr_list_loop []) pos
    | .expr_list_loop acc =>
        (checkTok tokens .DEDENT pos).pbind fun bd pos =>
        (pAtEnd tokens pos).pbind fun be pos =>
        if !bd && !be then
          (skip_newlines tokens (tokens.length + 1) pos).pbind fun _ pos =>
          (checkTok tokens .DEDENT pos).pbind fun bd2 pos =>
          (pAtEnd tokens pos).pbind fun be2 pos =>
          if bd2 || be2 then .ok acc pos
          else
            (runP tokens filename fuel .expression pos).pbind fun e pos =>
            (skip_newlines tokens (tokens.length + 1) pos).pbind fun _ pos =>
            runP tokens filename fuel (.expr_list_loop (acc ++ [e])) pos
        else .ok acc pos
    | .statement =>
        (pLoc tokens pos).pbind fun loc pos =>
        (checkTok tokens .RETURN pos).pbind fun b1 pos =>
        if b1 then runP tokens filename fuel .return_stmt pos
        else
          (checkTok tokens .EMIT pos).pbind fun b2 pos =>
          if b2 then runP tokens filename fuel .emit_stmt pos
          else
            (checkTok tokens .IF pos).pbind fun b3 pos =>
            if b3 then runP tokens filename fuel .if_stmt pos
            else
              (checkTok tokens .FOR pos).pbind fun b4 pos =>
              if b4 then runP tokens filename fuel .for_stmt pos
              else
                (checkTok tokens .WHILE pos).pbind fun b5 pos =>
                if b5 then runP tokens filename fuel .while_stmt pos
                else
                  (runP tokens filename fuel .expression pos).pbind fun e pos =>
                  (checkTok tokens .ASSIGN pos).pbind fun ba pos =>
                  if ba then
                    match expr_to_assignment_target e with
                    | some target =>
                        (runP tokens filename fuel .expression (pos + 1)).pbind
                          fun v pos =>
                        .ok (Statement.assignment loc target (some v)) pos
                    | none =>
                        .perr "Invalid assignment target"
                          ⟨.ASSIGN, "=", e.loc.line, e.loc.column, e.loc.file⟩
                  else .ok (Statement.exprStmt loc (some e)) pos
    | .return_stmt =>
        (pLoc tokens pos).pbind fun loc pos =>
        (expectTok tokens .RETURN pos).pbind fun _ pos =>
        (runP tokens filename fuel .expression pos).pbind fun v pos =>
        .ok (Statement.returnStmt loc (some v)) pos
    | .emit_stmt =>
        (pLoc tokens pos).pbind fun loc pos =>
        (expectTok tokens .EMIT pos).pbind fun _ pos =>
        (runP tokens filename fuel .expression pos).pbind fun ev pos =>
        .ok (Statement.emitStmt loc (some ev)) pos
    | .if_stmt =>
        (pLoc tokens pos).pbind fun loc pos =>
        (expectTok tokens .IF pos).pbind fun _ pos =>
        (runP tokens filename fuel .expression pos).pbind fun cond pos =>
        (expectTok tokens .COLON pos).pbind fun _ pos =>
        (expectTok tokens .NEWLINE pos).pbind fun _ pos =>
        (expectTok tokens .INDENT pos).pbind fun _ pos =>
        (runP tokens filename fuel .statement_block pos).pbind fun thenB pos =>
        (expectTok tokens .DEDENT pos).pbind fun _ pos =>
        (skip_newlines tokens (tokens.length + 1) pos).pbind fun _ pos =>
        (checkTok tokens .ELSE pos).pbind fun belse pos =>
        if belse then
          (expectTok tokens .COLON (pos + 1)).pbind fun _ pos =>
          (expectTok tokens .NEWLINE pos).pbind fun _ pos =>
          (expectTok tokens .INDENT pos).pbind fun _ pos =>
          (runP tokens filename fuel .statement_block pos).pbind fun elseB pos =>
          (expectTok tokens .DEDENT pos).pbind fun _ pos =>
          .ok (Statement.ifStmt loc (some cond) thenB elseB) pos
        else .ok (Statement.ifStmt loc (some cond) thenB []) pos
    | .for_stmt =>
        (pLoc tokens pos).pbind fun loc pos =>
        (expectTok tokens .FOR pos).pbind fun _ pos =>
        (expectTok tokens .IDENTIFIER pos).pbind fun varTok pos =>
        (expectTok tokens .IN pos).pbind fun _ pos =>
        (runP tokens filename fuel .expression pos).pbind fun iter pos =>
        (expectTok tokens .COLON pos).pbind fun _ pos =>
        (expectTok tokens .NEWLINE pos).pbind fun _ pos =>
        (expectTok tokens .INDENT pos).pbind fun _ pos =>
        (runP tokens filename fuel .statement_block pos).pbind fun bodyB pos =>
        (expectTok tokens .DEDENT pos).pbind fun _ pos =>
        .ok (Statement.forStmt loc varTok.value (some iter) bodyB) pos
    | .while_stmt =>
        (pLoc tokens pos).pbind fun loc pos =>
        (expectTok tokens .WHILE pos).pbind fun _ pos =>
        (runP tokens filename fuel .expression pos).pbind fun cond pos =>
        (expectTok tokens .COLON pos).pbind fun _ pos =>
        (expectTok tokens .NEWLINE pos).pbind fun _ pos =>
        (expectTok tokens .INDENT pos).pbind fun _ pos =>
        (runP tokens filename fuel .statement_block pos).pbind fun bodyB pos =>
        (expectTok tokens .DEDENT pos).pbind fun _ pos =>
        .ok (Statement.whileStmt loc (some cond) bodyB) pos
    | .statement_block => runP tokens filename fuel (.stmt_loop []) pos
    | .stmt_loop acc =>
        (checkTok tokens .DEDENT pos).pbind fun bd pos =>
        (pAtEnd tokens pos).pbind fun be pos =>
        if !bd && !be then
          (skip_newlines tokens (tokens.length + 1) pos).pbind fun _ pos =>
          (checkTok tokens .DEDENT pos).pbind fun bd2 pos =>
          (pAtEnd tokens pos).pbind fun be2 pos =>
          if bd2 || be2 then .ok acc pos
          else
            (runP tokens filename fuel .statement pos).pbind fun st pos =>
            (skip_newlines tokens (tokens.length + 1) pos).pbind fun _ pos =>
            runP tokens filename fuel (.stmt_loop (acc ++ [st])) pos
        else .ok acc pos
    | .type_expr =>
        (pLoc tokens pos).pbind fun loc pos =>
        (expectTok tokens .IDENTIFIER pos).pbind fun nameTok pos =>
        (checkTok tokens .LBRACKET pos).pbind fun b pos =>
        if b then
          (expectTok tokens .IDENTIFIER (pos + 1)).pbind fun a1 pos =>
          (runP tokens filename fuel (.annotations_loop [a1.value]) pos).pbind
            fun anns pos =>
          (expectTok tokens .RBRACKET pos).pbind fun _ pos =>
          .ok (TypeExpr.annotatedType loc
            (some (TypeExpr.simpleType loc nameTok.value)) anns) pos
        else .ok (TypeExpr.simpleType loc nameTok.value) pos
    | .annotations_loop acc =>
        (checkTok tokens .COMMA pos).pbind fun b pos =>
        if b then
          (expectTok tokens .IDENTIFIER (pos + 1)).pbind fun a pos =>
          runP tokens filename fuel (.annotations_loop (acc ++ [a.value])) pos
        else .ok acc pos
    | .param_list =>
        (checkTok tokens .RPAREN pos).pbind fun b pos =>
        if b then .ok [] pos
        else
          (runP tokens filename fuel .param pos).pbind fun p pos =>
          runP tokens filename fuel (.param_loop [p]) pos
    | .param_loop acc =>
        (checkTok tokens .COMMA pos).pbind fun b pos =>
        if b then
          (checkTok tokens .RPAREN (pos + 1)).pbind fun b2 pos =>
          if b2 then .ok acc pos
          else
            (runP tokens filename fuel .param pos).pbind fun p pos =>
            runP tokens filename fuel (.param_loop (acc ++ [p])) pos
        else .ok acc pos
    | .param =>
        (pLoc tokens pos).pbind fun loc pos =>
        (expectTok tokens .IDENTIFIER pos).pbind fun nameTok pos =>
        (expectTok tokens .COLON pos).pbind fun _ pos =>
        (runP tokens filename fuel .type_expr pos).pbind fun te pos =>
        .ok (⟨loc, nameTok.value, some te⟩ : Param) pos
    | .dotted_name =>
        (expectIdentOrKw tokens pos).pbind fun t pos =>
        (runP tokens filename fuel (.dotted_loop [t.value]) pos).pbind fun parts pos =>
        .ok (pyJoin "." parts) pos
    | .dotted_loop parts =>
        (checkTok tokens .DOT pos).pbind fun b pos =>
        if b then
          (expectIdentOrKw tokens (pos + 1)).pbind fun t pos =>
          runP tokens filename fuel (.dotted_loop (parts ++ [t.value])) pos
        else .ok parts pos
    | .permission_expr => runP tokens filename fuel (.perm_loop [] 0) pos
    | .perm_loop parts depth =>
        (pAtEnd tokens pos).pbind fun be pos =>
        if be then .ok (pyJoin "" parts) pos
        else
          match currTok tokens pos with
          | none => .pIndexError
          | some tok =>
              if tok.type == .LPAREN then
                runP tokens filename fuel
                  (.perm_loop (parts ++ [tok.value]) (depth + 1)) (pos + 1)
              else if tok.type == .RPAREN then
                if depth == 0 then .ok (pyJoin "" parts) pos
                else
                  runP tokens filename fuel
                    (.perm_loop (parts ++ [tok.value]) (depth - 1)) (pos + 1)
              else if tok.type == .COMMA && depth == 0 then .ok (pyJoin "" parts) pos
              else if tok.type == .RBRACKET && depth == 0 then .ok (pyJoin "" parts) pos
              else
                runP tokens filename fuel
                  (.perm_loop (parts ++ [tok.value]) depth) (pos + 1)
    | .bracketed_dotted =>
        (expectTok tokens .LBRACKET pos).pbind fun _ pos =>
        (checkTok tokens .RBRACKET pos).pbind fun b pos =>
        ((if b then (.ok [] pos : PRes (List String))
          else
            (runP tokens filename fuel .dotted_name pos).pbind fun i pos =>
            runP tokens filename fuel (.bracketed_dotted_loop [i]) pos) :
          PRes (List String)).pbind fun items pos =>
        (expectTok tokens .RBRACKET pos).pbind fun _ pos =>
        .ok items pos
    | .bracketed_dotted_loop acc =>
        (checkTok tokens .COMMA pos).pbind fun b pos =>
        if b then
          (checkTok tokens .RBRACKET (pos + 1)).pbind fun b2 pos =>
          if b2 then .ok acc pos
          else
            (runP tokens filename fuel .dotted_name pos).pbind fun i pos =>
            runP tokens filename fuel (.bracketed_dotted_loop (acc ++ [i])) pos
        else .ok acc pos
    | .bracketed_perm =>
        (expectTok tokens .LBRACKET pos).pbind fun _ pos =>
        (checkTok tokens .RBRACKET pos).pbind fun b pos =>
        ((if b then (.ok [] pos : PRes (List String))
          else
            (runP tokens filename fuel .permission_expr pos).pbind fun i pos =>
            runP tokens filename fuel (.bracketed_perm_loop [i]) pos) :
          PRes (List String)).pbind fun items pos =>
        (expectTok tokens .RBRACKET pos).pbind fun _ pos =>
        .ok items pos
    | .bracketed_perm_loop acc =>
        (checkTok tokens .COMMA pos).pbind fun b pos =>
        if b then
          (checkTok tokens .RBRACKET (pos + 1)).pbind fun b2 pos =>
          if b2 then .ok acc pos
          else
            (runP tokens filename fuel .permission_expr pos).pbind fun i pos =>
            runP tokens filename fuel (.bracketed_perm_loop (acc ++ [i])) pos
        else .ok acc pos
    | .precondition =>
        (pLoc tokens pos).pbind fun loc pos =>
        (expectTok tokens .PRECONDITION pos).pbind fun _ pos =>
        (expectTok tokens .COLON pos).pbind fun _ pos =>
        (expectTok tokens .NEWLINE pos).pbind fun _ pos =>
        (expectTok tokens .INDENT pos).pbind fun _ pos =>
        (runP tokens filename fuel .expression_list_block pos).pbind fun conds pos =>
        (expectTok tokens .DEDENT pos).pbind fun _ pos =>
        .ok (⟨loc, conds⟩ : Precondition) pos
    | .postcondition =>
        (pLoc tokens pos).pbind fun loc pos =>
        (expectTok tokens .POSTCONDITION pos).pbind fun _ pos =>
        (expectTok tokens .COLON pos).pbind fun _ pos =>
        (expectTok tokens .NEWLINE pos).pbind fun _ pos =>
        (expectTok tokens .INDENT pos).pbind fun _ pos =>
        (runP tokens filename fuel .expression_list_block pos).pbind fun conds pos =>
        (expectTok tokens .DEDENT pos).pbind fun _ pos =>
        .ok (⟨loc, conds⟩ : Postcondition) pos
    | .effects =>
        (pLoc tokens pos).pbind fun loc pos =>
        (expectTok tokens .EFFECTS pos).pbind fun _ pos =>
        (expectTok tokens .COLON pos).pbind fun _ pos =>
        (expectTok tokens .NEWLINE pos).pbind fun _ pos =>
        (expectTok tokens .INDENT pos).pbind fun _ pos =>
        (runP tokens filename fuel (.effects_loop []) pos).pbind fun decls pos =>
        (expectTok tokens .DEDENT pos).pbind fun _ pos =>
        .ok (⟨loc, decls⟩ : Effects) pos
    | .effects_loop acc =>
        (checkTok tokens .DEDENT pos).pbind fun bd pos =>
        (pAtEnd tokens pos).pbind fun be pos =>
        if !bd && !be then
          (skip_newlines tokens (tokens.length + 1) pos).pbind fun _ pos =>
          (checkTok tokens .DEDENT pos).pbind fun bd2 pos =>
          if bd2 then .ok acc pos
          else
            (checkTok tokens .MODIFIES pos).pbind fun b1 pos =>
            if b1 then
              (runP tokens filename fuel .bracketed_dotted (pos + 1)).pbind
                fun targets pos =>
              (pLoc tokens pos).pbind fun l pos =>
              (skip_newlines tokens (tokens.length + 1) pos).pbind fun _ pos =>
              runP tokens filename fuel
                (.effects_loop (acc ++ [EffectDecl.modifiesEffect l targets])) pos
            else
              (checkTok tokens .READS pos).pbind fun b2 pos =>
              if b2 then
                (runP tokens filename fuel .bracketed_dotted (pos + 1)).pbind
                  fun targets pos =>
                (pLoc tokens pos).pbind fun l pos =>
                (skip_newlines tokens (tokens.length + 1) pos).pbind fun _ pos =>
                runP tokens filename fuel
                  (.effects_loop (acc ++ [EffectDecl.readsEffect l targets])) pos
              else
                (checkTok tokens .EMITS pos).pbind fun b3 pos =>
                if b3 then
                  (expectTok tokens .IDENTIFIER (pos + 1)).pbind fun ev pos =>
                  (pLoc tokens pos).pbind fun l pos =>
                  (skip_newlines tokens (tokens.length + 1) pos).pbind fun _ pos =>
                  runP tokens filename fuel
                    (.effects_loop (acc ++ [EffectDecl.emitsEffect l ev.value])) pos
                else
                  (checkTok tokens .TOUCHES_NOTHING_ELSE pos).pbind fun b4 pos =>
                  if b4 then
                    (pLoc tokens (pos + 1)).pbind fun l pos =>
                    (skip_newlines tokens (tokens.length + 1) pos).pbind fun _ pos =>
                    runP tokens filename fuel
                      (.effects_loop (acc ++ [EffectDecl.touchesNothingElse l])) pos
                  else
                    match currTok tokens pos with
                    | none => .pIndexError
                    | some tok =>
                        .perr ("Expected effect declaration (modifies, reads, " ++
                          "emits, touches_nothing_else), got " ++
                          tokenTypeName tok.type) tok
        else .ok acc pos
    | .permissions =>
        (pLoc tokens pos).pbind fun loc pos =>
        (expectTok tokens .PERMISSIONS pos).pbind fun _ pos =>
        (expectTok tokens .COLON pos).pbind fun _ pos =>
        (expectTok tokens .NEWLINE pos).pbind fun _ pos =>
        (expectTok tokens .INDENT pos).pbind fun _ pos =>
        (runP tokens filename fuel (.permissions_loop none none none) pos).pbind
          fun gde pos =>
        (expectTok tokens .DEDENT pos).pbind fun _ pos =>
        .ok (⟨loc, gde.1, gde.2.1, gde.2.2⟩ : PermissionsBlock) pos
    | .permissions_loop g d e =>
        (checkTok tokens .DEDENT pos).pbind fun bd pos =>
        (pAtEnd tokens pos).pbind fun be pos =>
        if !bd && !be then
          (skip_newlines tokens (tokens.length + 1) pos).pbind fun _ pos =>
          (checkTok tokens .DEDENT pos).pbind fun bd2 pos =>
          if bd2 then .ok (g, d, e) pos
          else
            (checkTok tokens .GRANTS pos).pbind fun b1 pos =>
            if b1 then
              (expectTok tokens .COLON (pos + 1)).pbind fun _ pos =>
              (runP tokens filename fuel .bracketed_perm pos).pbind fun perms pos =>
              (pLoc tokens pos).pbind fun l pos =>
              (skip_newlines tokens (tokens.length + 1) pos).pbind fun _ pos =>
              runP tokens filename fuel
                (.permissions_loop (some ⟨l, perms⟩) d e) pos
            else
              (checkTok tokens .DENIES pos).pbind fun b2 pos =>
              if b2 then
                (expectTok tokens .COLON (pos + 1)).pbind fun _ pos =>
                (runP tokens filename fuel .bracketed_perm pos).pbind fun perms pos =>
                (pLoc tokens pos).pbind fun l pos =>
                (skip_newlines tokens (tokens.length + 1) pos).pbind fun _ pos =>
                runP tokens filename fuel
                  (.permissions_loop g (some ⟨l, perms⟩) e) pos
              else
                (checkTok tokens .ESCALATION pos).pbind fun b3 pos =>
                if b3 then
                  (expectTok tokens .COLON (pos + 1)).pbind fun _ pos =>
                  (runP tokens filename fuel (.escalation_parts []) pos).pbind
                    fun parts pos =>
                  (pLoc tokens pos).pbind fun l pos =>
                  (skip_newlines tokens (tokens.length + 1) pos).pbind fun _ pos =>
                  runP tokens filename fuel
                    (.permissions_loop g d (some ⟨l, pyJoin " " parts⟩)) pos
                else
                  match currTok tokens pos with
                  | none => .pIndexError
                  | some tok =>
                      .perr ("Expected permission declaration (grants, denies, " ++
                        "escalation), got " ++ tokenTypeName tok.type) tok
        else .ok (g, d, e) pos
    | .escalation_parts parts =>
        (checkTok tokens .NEWLINE pos).pbind fun b1 pos =>
        (checkTok tokens .DEDENT pos).pbind fun b2 pos =>
        (pAtEnd tokens pos).pbind fun b3 pos =>
        if !b1 && !b2 && !b3 then
          match currTok tokens pos with
          | none => .pIndexError
          | some tok =>
              runP tokens filename fuel (.escalation_parts (parts ++ [tok.value]))
                (pos + 1)
        else .ok parts pos
    | .body =>
        (pLoc tokens pos).pbind fun loc pos =>
        (expectTok tokens .BODY pos).pbind fun _ pos =>
        (expectTok tokens .COLON pos).pbind fun _ pos =>
        (expectTok tokens .NEWLINE pos).pbind fun _ pos =>
        (expectTok tokens .INDENT pos).pbind fun _ pos =>
        (runP tokens filename fuel .statement_block pos).pbind fun stmts pos =>
        (expectTok tokens .DEDENT pos).pbind fun _ pos =>
        .ok (⟨loc, stmts⟩ : Body) pos
    | .on_failure =>
        (pLoc tokens pos).pbind fun loc pos =>
        (expectTok tokens .ON_FAILURE pos).pbind fun _ pos =>
        (expectTok tokens .COLON pos).pbind fun _ pos =>
        (expectTok tokens .NEWLINE pos).pbind fun _ pos =>
        (expectTok tokens .INDENT pos).pbind fun _ pos =>
        (runP tokens filename fuel .statement_block pos).pbind fun stmts pos =>
        (expectTok tokens .DEDENT pos).pbind fun _ pos =>
        .ok (⟨loc, stmts⟩ : OnFailure) pos
    | .contract_def =>
        (pLoc tokens pos).pbind fun loc pos =>
        (expectTok tokens .CONTRACT pos).pbind fun _ pos =>
        (expectTok tokens .IDENTIFIER pos).pbind fun nameTok pos =>
        (expectTok tokens .LPAREN pos).pbind fun _ pos =>
        (runP tokens filename fuel .param_list pos).pbind fun params pos =>
        (expectTok tokens .RPAREN pos).pbind fun _ pos =>
        (expectTok tokens .ARROW pos).pbind fun _ pos =>
        (runP tokens filename fuel .type_expr pos).pbind fun rt pos =>
        (expectTok tokens .NEWLINE pos).pbind fun _ pos =>
        (expectTok tokens .INDENT pos).pbind fun _ pos =>
        (runP tokens filename fuel
          (.sections_loop none none none none none none) pos).pbind fun secs pos =>
        (expectTok tokens .DEDENT pos).pbind fun _ pos =>
        .ok (⟨loc, nameTok.value, params, some rt, secs.1, secs.2.1, secs.2.2.1,
          secs.2.2.2.1, secs.2.2.2.2.1, secs.2.2.2.2.2⟩ : ContractDef) pos
    | .sections_loop pre post eff perm bd onf =>
        (checkTok tokens .DEDENT pos).pbind fun cbd pos =>
        (pAtEnd tokens pos).pbind fun be pos =>
        if !cbd && !be then
          (skip_newlines tokens (tokens.length + 1) pos).pbind fun _ pos =>
          (checkTok tokens .DEDENT pos).pbind fun cbd2 pos =>
          (pAtEnd tokens pos).pbind fun be2 pos =>
          if cbd2 || be2 then .ok (pre, post, eff, perm, bd, onf) pos
          else
            (checkTok tokens .PRECONDITION pos).pbind fun b1 pos =>
            if b1 then
              (runP tokens filename fuel .precondition pos).pbind fun p pos =>
              (skip_newlines tokens (tokens.length + 1) pos).pbind fun _ pos =>
              runP tokens filename fuel
                (.sections_loop (some p) post eff perm bd onf) pos
            else
              (checkTok tokens .POSTCONDITION pos).pbind fun b2 pos =>
              if b2 then
                (runP tokens filename fuel .postcondition pos).pbind fun p pos =>
                (skip_newlines tokens (tokens.length + 1) pos).pbind fun _ pos =>
                runP tokens filename fuel
                  (.sections_loop pre (some p) eff perm bd onf) pos
              else
                (checkTok tokens .EFFECTS pos).pbind fun b3 pos =>
                if b3 then
                  (runP tokens filename fuel .effects pos).pbind fun p pos =>
                  (skip_newlines tokens (tokens.length + 1) pos).pbind fun _ pos =>
                  runP tokens filename fuel
                    (.sections_loop pre post (some p) perm bd onf) pos
                else
                  (checkTok tokens .PERMISSIONS pos).pbind fun b4 pos =>
                  if b4 then
                    (runP tokens filename fuel .permissions pos).pbind fun p pos =>
                    (skip_newlines tokens (tokens.length + 1) pos).pbind fun _ pos =>
                    runP tokens filename fuel
                      (.sections_loop pre post eff (some p) bd onf) pos
                  else
                    (checkTok tokens .BODY pos).pbind fun b5 pos =>
                    if b5 then
                      (runP tokens filename fuel .body pos).pbind fun p pos =>
                      (skip_newlines tokens (tokens.length + 1) pos).pbind
                        fun _ pos =>
                      runP tokens filename fuel
                        (.sections_loop pre post eff perm (some p) onf) pos
                    else
                      (checkTok tokens .ON_FAILURE pos).pbind fun b6 pos =>
                      if b6 then
                        (runP tokens filename fuel .on_failure pos).pbind
                          fun p pos =>
                        (skip_newlines tokens (tokens.length + 1) pos).pbind
                          fun _ pos =>
                        runP tokens filename fuel
                          (.sections_loop pre post eff perm bd (some p)) pos
                      else
                        match currTok tokens pos with
                        | none => .pIndexError
                        | some tok =>
                            .perr ("Expected contract section (precondition, " ++
                              "postcondition, effects, permissions, body, " ++
                              "on_failure), got " ++ tokenTypeName tok.type) tok
        else .ok (pre, post, eff, perm, bd, onf) pos
    | .type_def =>
        (pLoc tokens pos).pbind fun loc pos =>
        (expectTok tokens .TYPE pos).pbind fun _ pos =>
        (expectTok tokens .IDENTIFIER pos).pbind fun nameTok pos =>
        (expectTok tokens .ASSIGN pos).pbind fun _ pos =>
        (expectTok tokens .IDENTIFIER pos).pbind fun baseTok pos =>
        (expectTok tokens .NEWLINE pos).pbind fun _ pos =>
        (expectTok tokens .INDENT pos).pbind fun _ pos =>
        (runP tokens filename fuel (.type_def_loop [] []) pos).pbind fun ff pos =>
        (expectTok tokens .DEDENT pos).pbind fun _ pos =>
        .ok (⟨loc, nameTok.value, baseTok.value, ff.1, ff.2⟩ : TypeDef) pos
    | .type_def_loop fields flows =>
        (checkTok tokens .DEDENT pos).pbind fun bd pos =>
        (pAtEnd tokens pos).pbind fun be pos =>
        if !bd && !be then
          (skip_newlines tokens (tokens.length + 1) pos).pbind fun _ pos =>
          (checkTok tokens .DEDENT pos).pbind fun bd2 pos =>
          if bd2 then .ok (fields, flows) pos
          else
            (checkTok tokens .FIELDS pos).pbind fun b1 pos =>
            if b1 then
              (expectTok tokens .COLON (pos + 1)).pbind fun _ pos =>
              (expectTok tokens .NEWLINE pos).pbind fun _ pos =>
              (expectTok tokens .INDENT pos).pbind fun _ pos =>
              (runP tokens filename fuel (.fields_loop fields) pos).pbind
                fun fields2 pos =>
              (expectTok tokens .DEDENT pos).pbind fun _ pos =>
              (skip_newlines tokens (tokens.length + 1) pos).pbind fun _ pos =>
              runP tokens filename fuel (.type_def_loop fields2 flows) pos
            else
              (checkTok tokens .FLOW_CONSTRAINTS pos).pbind fun b2 pos =>
              if b2 then
                (expectTok tokens .COLON (pos + 1)).pbind fun _ pos =>
                (expectTok tokens .NEWLINE pos).pbind fun _ pos =>
                (expectTok tokens .INDENT pos).pbind fun _ pos =>
                (runP tokens filename fuel (.flows_loop flows) pos).pbind
                  fun flows2 pos =>
                (expectTok tokens .DEDENT pos).pbind fun _ pos =>
                (skip_newlines tokens (tokens.length + 1) pos).pbind fun _ pos =>
                runP tokens filename fuel (.type_def_loop fields flows2) pos
              else
                match currTok tokens pos with
                | none => .pIndexError
                | some tok =>
                    .perr ("Expected 'fields' or 'flow_constraints' in type " ++
                      "definition, got " ++ tokenTypeName tok.type) tok
        else .ok (fields, flows) pos
    | .fields_loop fields =>
        (checkTok tokens .DEDENT pos).pbind fun bd pos =>
        (pAtEnd tokens pos).pbind fun be pos =>
        if !bd && !be then
          (skip_newlines tokens (tokens.length + 1) pos).pbind fun _ pos =>
          (checkTok tokens .DEDENT pos).pbind fun bd2 pos =>
          if bd2 then .ok fields pos
          else
            (runP tokens filename fuel .field_def pos).pbind fun f pos =>
            (skip_newlines tokens (tokens.length + 1) pos).pbind fun _ pos =>
            runP tokens filename fuel (.fields_loop (fields ++ [f])) pos
        else .ok fields pos
    | .flows_loop flows =>
        (checkTok tokens .DEDENT pos).pbind fun bd pos =>
        (pAtEnd tokens pos).pbind fun be pos =>
        if !bd && !be then
          (skip_newlines tokens (tokens.length + 1) pos).pbind fun _ pos =>
          (checkTok tokens .DEDENT pos).pbind fun bd2 pos =>
          if bd2 then .ok flows pos
          else
            (runP tokens filename fuel .flow_constraint pos).pbind fun f pos =>
            (skip_newlines tokens (tokens.length + 1) pos).pbind fun _ pos =>
            runP tokens filename fuel (.flows_loop (flows ++ [f])) pos
        else .ok flows pos
    | .field_def =>
        (pLoc tokens pos).pbind fun loc pos =>
        (expectTok tokens .IDENTIFIER pos).pbind fun nameTok pos =>
        (expectTok tokens .COLON pos).pbind fun _ pos =>
        (runP tokens filename fuel .type_expr pos).pbind fun te pos =>
        .ok (⟨loc, nameTok.value, some te⟩ : FieldDef) pos
    | .flow_constraint =>
        (pLoc tokens pos).pbind fun loc pos =>
        (checkTok tokens .NEVER_FLOWS_TO pos).pbind fun b1 pos =>
        if b1 then
          (expectTok tokens .COLON (pos + 1)).pbind fun _ pos =>
          (runP tokens filename fuel .bracketed_dotted pos).pbind fun dests pos =>
          .ok (FlowConstraint.neverFlowsTo loc dests) pos
        else
          (checkTok tokens .REQUIRES_CONTEXT pos).pbind fun b2 pos =>
          if b2 then
            (expectTok tokens .COLON (pos + 1)).pbind fun _ pos =>
            (expectTok tokens .IDENTIFIER pos).pbind fun ctx pos =>
            .ok (FlowConstraint.requiresContext loc ctx.value) pos
          else
            match currTok tokens pos with
            | none => .pIndexError
            | some tok =>
                .perr ("Expected flow constraint (never_flows_to, " ++
                  "requires_context), got " ++ tokenTypeName tok.type) tok
    | .shared_decl =>
        (pLoc tokens pos).pbind fun loc pos =>
        (expectTok tokens .SHARED pos).pbind fun _ pos =>
        (expectTok tokens .IDENTIFIER pos).pbind fun nameTok pos =>
        (expectTok tokens .COLON pos).pbind fun _ pos =>
        (expectTok tokens .IDENTIFIER pos).pbind fun typeTok pos =>
        (expectTok tokens .NEWLINE pos).pbind fun _ pos =>
        (expectTok tokens .INDENT pos).pbind fun _ pos =>
        (runP tokens filename fuel (.shared_loop "" "" "") pos).pbind fun aiu pos =>
        (expectTok tokens .DEDENT pos).pbind fun _ pos =>
        .ok (⟨loc, nameTok.value, typeTok.value, aiu.1, aiu.2.1, aiu.2.2⟩ :
          SharedDecl) pos
    | .shared_loop access isolation audit =>
        (checkTok tokens .DEDENT pos).pbind fun bd pos =>
        (pAtEnd tokens pos).pbind fun be pos =>
        if !bd && !be then
          (skip_newlines tokens (tokens.length + 1) pos).pbind fun _ pos =>
          (checkTok tokens .DEDENT pos).pbind fun bd2 pos =>
          if bd2 then .ok (access, isolation, audit) pos
          else
            (checkTok tokens .ACCESS pos).pbind fun b1 pos =>
            if b1 then
              (expectTok tokens .COLON (pos + 1)).pbind fun _ pos =>
              (expectTok tokens .IDENTIFIER pos).pbind fun v pos =>
              (skip_newlines tokens (tokens.length + 1) pos).pbind fun _ pos =>
              runP tokens filename fuel (.shared_loop v.value isolation audit) pos
            else
              (checkTok tokens .ISOLATION pos).pbind fun b2 pos =>
              if b2 then
                (expectTok tokens .COLON (pos + 1)).pbind fun _ pos =>
                (expectTok tokens .IDENTIFIER pos).pbind fun v pos =>
                (skip_newlines tokens (tokens.length + 1) pos).pbind fun _ pos =>
                runP tokens filename fuel (.shared_loop access v.value audit) pos
              else
                (checkTok tokens .AUDIT pos).pbind fun b3 pos =>
                if b3 then
                  (expectTok tokens .COLON (pos + 1)).pbind fun _ pos =>
                  (expectTok tokens .IDENTIFIER pos).pbind fun v pos =>
                  (skip_newlines tokens (tokens.length + 1) pos).pbind fun _ pos =>
                  runP tokens filename fuel
                    (.shared_loop access isolation v.value) pos
                else
                  match currTok tokens pos with
                  | none => .pIndexError
                  | some tok =>
                      .perr ("Expected shared declaration property (access, " ++
                        "isolation, audit), got " ++ tokenTypeName tok.type) tok
        else .ok (access, isolation, audit) pos
    | .file_header =>
        (skip_newlines tokens (tokens.length + 1) pos).pbind fun _ pos =>
        (checkTok tokens .INTENT pos).pbind fun b1 pos =>
        ((if b1 then
            (runP tokens filename fuel .intent_block pos).pbind fun ib pos =>
            (skip_newlines tokens (tokens.length + 1) pos).pbind fun _ pos =>
            .ok (some ib) pos
          else (.ok none pos : PRes (Option IntentBlock))) :
          PRes (Option IntentBlock)).pbind fun intent pos =>
        (checkTok tokens .SCOPE pos).pbind fun b2 pos =>
        ((if b2 then
            (runP tokens filename fuel .scope_decl pos).pbind fun sd pos =>
            (skip_newlines tokens (tokens.length + 1) pos).pbind fun _ pos =>
            .ok (some sd) pos
          else (.ok none pos : PRes (Option ScopeDecl))) :
          PRes (Option ScopeDecl)).pbind fun scope pos =>
        (checkTok tokens .RISK pos).pbind fun b3 pos =>
        ((if b3 then
            (runP tokens filename fuel .risk_decl pos).pbind fun rd pos =>
            (skip_newlines tokens (tokens.length + 1) pos).pbind fun _ pos =>
            .ok (some rd) pos
          else (.ok none pos : PRes (Option RiskDecl))) :
          PRes (Option RiskDecl)).pbind fun risk pos =>
        (checkTok tokens .REQUIRES pos).pbind fun b4 pos =>
        ((if b4 then
            (runP tokens filename fuel .requires_decl pos).pbind fun rq pos =>
            (skip_newlines tokens (tokens.length + 1) pos).pbind fun _ pos =>
            .ok (some rq) pos
          else (.ok none pos : PRes (Option RequiresDecl))) :
          PRes (Option RequiresDecl)).pbind fun requiresD pos =>
        match intent, scope, risk, requiresD with
        | none, none, none, none => .ok none pos
        | _, _, _, _ =>
            (pLoc tokens pos).pbind fun loc pos =>
            .ok (some ⟨loc, intent, scope, risk, requiresD⟩) pos
    | .intent_block =>
        (pLoc tokens pos).pbind fun loc pos =>
        (expectTok tokens .INTENT pos).pbind fun _ pos =>
        (expectTok tokens .COLON pos).pbind fun _ pos =>
        (expectTok tokens .STRING pos).pbind fun t pos =>
        .ok (⟨loc, t.value⟩ : IntentBlock) pos
    | .scope_decl =>
        (pLoc tokens pos).pbind fun loc pos =>
        (expectTok tokens .SCOPE pos).pbind fun _ pos =>
        (expectTok tokens .COLON pos).pbind fun _ pos =>
        (runP tokens filename fuel .dotted_name pos).pbind fun path pos =>
        .ok (⟨loc, path⟩ : ScopeDecl) pos
    | .risk_decl =>
        (pLoc tokens pos).pbind fun loc pos =>
        (expectTok tokens .RISK pos).pbind fun _ pos =>
        (expectTok tokens .COLON pos).pbind fun _ pos =>
        match currTok tokens pos with
        | none => .pIndexError
        | some tok =>
            match riskLevelMap tok.type with
            | some level => .ok (⟨loc, level⟩ : RiskDecl) (pos + 1)
            | none =>
                .perr ("Expected risk level (low, medium, high, critical), got " ++
                  pyRepr tok.value) tok
    | .requires_decl =>
        (pLoc tokens pos).pbind fun loc pos =>
        (expectTok tokens .REQUIRES pos).pbind fun _ pos =>
        (expectTok tokens .COLON pos).pbind fun _ pos =>
        (runP tokens filename fuel .bracketed_dotted pos).pbind fun caps pos =>
        .ok (⟨loc, caps⟩ : RequiresDecl) pos
    | .program_loop contracts type_defs shared_decls =>
        (pAtEnd tokens pos).pbind fun be pos =>
        if be then .ok (contracts, type_defs, shared_decls) pos
        else
          (skip_newlines tokens (tokens.length + 1) pos).pbind fun _ pos =>
          (pAtEnd tokens pos).pbind fun be2 pos =>
          if be2 then .ok (contracts, type_defs, shared_decls) pos
          else
            (checkTok tokens .CONTRACT pos).pbind fun b1 pos =>
            if b1 then
              (runP tokens filename fuel .contract_def pos).pbind fun c pos =>
              runP tokens filename fuel
                (.program_loop (contracts ++ [c]) type_defs shared_decls) pos
            else
              (checkTok tokens .TYPE pos).pbind fun b2 pos =>
              if b2 then
                (runP tokens filename fuel .type_def pos).pbind fun t pos =>
                runP tokens filename fuel
                  (.program_loop contracts (type_defs ++ [t]) shared_decls) pos
              else
                (checkTok tokens .SHARED pos).pbind fun b3 pos =>
                if b3 then
                  (runP tokens filename fuel .shared_decl pos).pbind fun sd pos =>
                  runP tokens filename fuel
                    (.program_loop contracts type_defs (shared_decls ++ [sd])) pos
                else
                  (checkTok tokens .EOF pos).pbind fun b4 pos =>
                  if b4 then .ok (contracts, type_defs, shared_decls) pos
                  else
                    match currTok tokens pos with
                    | none => .pIndexError
                    | some tok =>
                        .perr ("Expected 'contract', 'type', or 'shared' at top " ++
                          "level, got " ++ tokenTypeName tok.type) tok
    | .parseP =>
        (runP tokens filename fuel .file_header pos).pbind fun header pos =>
        (runP tokens filename fuel (.program_loop [] [] []) pos).pbind fun cts pos =>
        (pLoc tokens pos).pbind fun loc pos =>
        .ok (⟨loc, header, cts.1, cts.2.1, cts.2.2⟩ : Program) pos

/-- `Parser(tokens, filename).parse()`, with fuel sufficient for any
terminating run (an insufficient-fuel run returns `pFuelOut`, never `ok`). -/
def parse (tokens : List Token) (filename : String) : PRes Program :=
  runP tokens filename ((tokens.length + 1) * (tokens.length + 64)) .parseP 0

/-- A contract block whose `body:` section appears twice, as the lexer
tokenizes `contract <w>() -> T` with bodies `return <va>` and `return <vb>`,
with the section keyword values left symbolic. -/
def dupBodyToks (w va vb : String) : List Token :=
  [⟨.CONTRACT, "contract", 1, 1, "t"⟩, ⟨.IDENTIFIER, w, 1, 10, "t"⟩,
   ⟨.LPAREN, "(", 1, 11, "t"⟩, ⟨.RPAREN, ")", 1, 12, "t"⟩,
   ⟨.ARROW, "->", 1, 14, "t"⟩, ⟨.IDENTIFIER, "T", 1, 17, "t"⟩,
   ⟨.NEWLINE, "\n", 1, 18, "t"⟩, ⟨.INDENT, "", 2, 3, "t"⟩,
   ⟨.BODY, "body", 2, 3, "t"⟩, ⟨.COLON, ":", 2, 7, "t"⟩,
   ⟨.NEWLINE, "\n", 2, 8, "t"⟩, ⟨.INDENT, "", 3, 5, "t"⟩,
   ⟨.RETURN, "return", 3, 5, "t"⟩, ⟨.INTEGER, va, 3, 12, "t"⟩,
   ⟨.NEWLINE, "\n", 3, 13, "t"⟩, ⟨.DEDENT, "", 4, 3, "t"⟩,
   ⟨.BODY, "body", 4, 3, "t"⟩, ⟨.COLON, ":", 4, 7, "t"⟩,
   ⟨.NEWLINE, "\n", 4, 8, "t"⟩, ⟨.INDENT, "", 5, 5, "t"⟩,
   ⟨.RETURN, "return", 5, 5, "t"⟩, ⟨.INTEGER, vb, 5, 12, "t"⟩,
   ⟨.NEWLINE, "\n", 5, 13, "t"⟩, ⟨.DEDENT, "", 6, 1, "t"⟩,
   ⟨.DEDENT, "", 6, 1, "t"⟩, ⟨.EOF, "", 6, 1, "t"⟩]

/-- C5 (amended) — Contract sections may repeat; the last occurrence wins:
for every contract name `w` and INTEGER token values `va`, `vb`, the token
stream of a contract block containing two `body:` sections is accepted by
`Parser.parse`, and the resulting contract keeps only the second body.  The
section loop of `_parse_contract_def` tracks no per-section occurrence flag:
each branch simply overwrites its local variable. -/
theorem contract_sections_last_wins (w va vb : String) :
    parse (dupBodyToks w va vb) "t" =
      .ok ⟨⟨"t", 6, 1, none, none⟩, none,
        [⟨⟨"t", 1, 1, none, none⟩, w, [],
          some (TypeExpr.simpleType ⟨"t", 1, 17, none, none⟩ "T"),
          none, none, none, none,
          some ⟨⟨"t", 4, 3, none, none⟩,
            [Statement.returnStmt ⟨"t", 5, 5, none, none⟩
              (some (Expr.numberLiteral ⟨"t", 5, 12, none, none⟩
                (PyNum.pyInt (intOfStr vb))))]⟩,
          none⟩], [], []⟩ 25 :=
  rfl

set_option maxRecDepth 16384 in
/-- C5 counterexample — the real lexer turns the source with two `body:`
sections into a token stream with two BODY section keywords, and
`Parser.parse` accepts it (returning the second body, `return 2`), refuting
"each at most once ... is not accepted by Parser.parse". -/
theorem contract_duplicate_section_accepted_counterexample :
    tokenize "contract w() -> T\n  body:\n    return 1\n  body:\n    return 2\n"
      "t" = .ok (dupBodyToks "w" "1" "2") ∧
    countTok .BODY (dupBodyToks "w" "1" "2") = 2 ∧
    parse (dupBodyToks "w" "1" "2") "t" =
      .ok ⟨⟨"t", 6, 1, none, none⟩, none,
        [⟨⟨"t", 1, 1, none, none⟩, "w", [],
          some (TypeExpr.simpleType ⟨"t", 1, 17, none, none⟩ "T"),
          none, none, none, none,
          some ⟨⟨"t", 4, 3, none, none⟩,
            [Statement.returnStmt ⟨"t", 5, 5, none, none⟩
              (some (Expr.numberLiteral ⟨"t", 5, 12, none, none⟩
                (PyNum.pyInt 2)))]⟩,
          none⟩], [], []⟩ 25 := by
  refine ⟨by decide, by decide, ?_⟩
  rfl

end Covenant